import Mathlib

/-!
# focimt: resampling-driven moment tensor inversion

Shallow embedding of `main` of `moment_tensor.cpp` (the event loop, the
resampling orchestration and the text export) and of the solution data model
of `faultsolution.h`.

Conventions of the embedding:
* a C++ `double` is an exact rational number; rounding, infinities and NaN are
  outside the model;
* `unsigned int` and `int` are 32 bit wide; conversions between them are written
  out with `toInt32` and `% 4294967296`;
* library and collaborator routines whose code is not part of the sources
  (`rand`, `rand_normal`, the inversion core, the travel time solver, the
  mathematical library, the renderer, the input stream) are fields of the
  parameter records `Engine` and `IStream`;
* a dataset is a value (`SMTInputData`); for the claim on the copies that the
  resampling iterations work on, the resampling code is embedded a second time
  over a store of dataset objects, with the copy operations as the parameter
  `Copier`, and related to the first embedding.
-/

namespace Focimt

/-! ## Machine integers -/

/-- Value of a 32 bit two's complement `int` that holds the integer `z` modulo `2^32`. -/
def toInt32 (z : Int) : Int := (z + 2147483648) % 4294967296 - 2147483648

/-- Counted loop `for (unsigned int i = 0; i < n; i++) s = body(i, s)`. -/
def forLoop {σ : Type} (n : Nat) (body : Nat → σ → σ) (s : σ) : σ :=
  (List.range n).foldl (fun acc i => body i acc) s

/-! ## Data model -/

/-- Norm selected for the inversion (`Taquart::NormType`). -/
inductive NormType where
  | ntL1
  | ntL2
deriving DecidableEq, Repr

/-- One station record of the input dataset (`Taquart::SMTInputLine`), with the
fields that `main` assigns. -/
structure SMTInputLine where
  Name : String
  Id : Int
  Component : String
  MarkerType : String
  Start : ℚ
  End : ℚ
  Duration : ℚ
  Displacement : ℚ
  Incidence : ℚ
  Azimuth : ℚ
  TakeOff : ℚ
  Distance : ℚ
  Density : ℚ
  Velocity : ℚ
  PickActive : Bool
  ChannelActive : Bool
deriving DecidableEq, Inhabited

/-- Modelled from the spec: `Taquart::SMTInputData` (inputdata.h is not part of
the sources) is the ordered sequence of station records of one event. -/
structure SMTInputData where
  lines : List SMTInputLine
deriving DecidableEq, Inhabited

namespace SMTInputData

/-- Modelled from the spec: `Clear()` empties the dataset. -/
def Clear (_d : SMTInputData) : SMTInputData := ⟨[]⟩

/-- Modelled from the spec: `Count()` is the number of station records. -/
def Count (d : SMTInputData) : Nat := d.lines.length

/-- Modelled from the spec: `Add(il)` appends a record at the end. -/
def Add (d : SMTInputData) (il : SMTInputLine) : SMTInputData := ⟨d.lines ++ [il]⟩

/-- Modelled from the spec: `Get(j, il)` copies the record at index `j` into `il`;
every call in `main` is guarded by `j < Count()`. -/
def Get (d : SMTInputData) (j : Nat) : SMTInputLine := d.lines.getD j default

/-- Modelled from the spec: `Set(j, il)` overwrites the record at index `j`. -/
def Set (d : SMTInputData) (j : Nat) (il : SMTInputLine) : SMTInputData := ⟨d.lines.set j il⟩

/-- Modelled from the spec: `Remove(j)` deletes the record at index `j`; the
records behind it move one slot down. -/
def Remove (d : SMTInputData) (j : Nat) : SMTInputData := ⟨d.lines.eraseIdx j⟩

end SMTInputData

/-- One inversion result for one decomposition variant (`Taquart::FaultSolution`).
Arrays are functions of the index; `Type_` stands for the member `Type`, a
reserved word here. -/
structure FaultSolution where
  M : Nat → Nat → ℚ
  T0 : ℚ
  M0 : ℚ
  MT : ℚ
  ERR : ℚ
  EXPL : ℚ
  CLVD : ℚ
  DBCP : ℚ
  EXPL_VAC : ℚ
  CLVD_VAC : ℚ
  DBCP_VAC : ℚ
  FIA : ℚ
  DLA : ℚ
  RAKEA : ℚ
  FIB : ℚ
  DLB : ℚ
  RAKEB : ℚ
  PXTR : ℚ
  PXPL : ℚ
  PXAM : ℚ
  TXTR : ℚ
  TXPL : ℚ
  TXAM : ℚ
  BXTR : ℚ
  BXPL : ℚ
  BXAM : ℚ
  QI : ℚ
  MAGN : ℚ
  Type_ : String
  Covariance : Nat → Nat → ℚ
  U_th : Nat → ℚ
  U_measured : Nat → ℚ
  Station : Nat → String
  U_n : Int
  UERR : ℚ
  E : Nat → ℚ

/-- The three variants of one inversion run with its provenance
(`Taquart::FaultSolutions`). -/
structure FaultSolutions where
  Type_ : Char
  Channel : Int
  FullSolution : FaultSolution
  TraceNullSolution : FaultSolution
  DoubleCoupleSolution : FaultSolution

/-- Arguments of one call of `MTInversion`. -/
structure InversionCall where
  norm : NormType
  quality : Int
  data : SMTInputData
  channel : Int
  type : Char
deriving DecidableEq

/-- The solution collection `FSList` of one event, together with the record of
the inversion calls that filled it. -/
structure Inversions where
  FSList : List FaultSolutions
  Calls : List InversionCall

/-- Collaborators of `main` whose code is not part of the sources. `G` is the
state of the process-wide random generator. -/
structure Engine (G : Type) where
  /-- The draw of `rand()`, an integer from 0 to `RAND_MAX`, and the next state. -/
  rand : G → Nat × G
  RAND_MAX : Nat
  /-- Normal deviate `rand_normal(mean, stddev)` and the next state. -/
  rand_normal : ℚ → ℚ → G → ℚ × G
  sqrt : ℚ → ℚ
  log : ℚ → ℚ
  cos : ℚ → ℚ
  atan2 : ℚ → ℚ → ℚ
  M_PI : ℚ
  /-- The inversion core: Full, TraceNull and DoubleCouple solution of a dataset. -/
  solve : NormType → Int → SMTInputData → FaultSolution × FaultSolution × FaultSolution
  /-- Travel time solver `CalcTravelTime1D_2`: from elevation, depth, epicentral distance, the layer
  tops and velocities and the previous values of `(takeoff, aoi, distance)` to
  their new values. -/
  CalcTravelTime1D_2 : ℚ → ℚ → ℚ → List ℚ → List ℚ → ℚ × ℚ × ℚ → ℚ × ℚ × ℚ
  /-- Method `Taquart::String::Pos`: 1-based position of a substring, 0 when absent. -/
  Pos : String → String → Nat
  /-- Helper `SplitFilename(name, file, path)`: the pair `(file, path)`. -/
  SplitFilename : String → String × String
  /-- Graphical export of one focal sphere to the named file; `false` when it throws. -/
  exportBall : String → String → List FaultSolutions → SMTInputData → String → Bool

/-- Command line settings after option parsing (the local variables of `main`
that the event loop reads), with the separators of `moment_tensor.h`. -/
structure Options where
  FilenameOut : String
  SolutionTypes : String
  NormType : String
  DumpOrder : String
  OutputFileType : String
  JacknifeTest : Bool
  BootstrapTest : Bool
  BootstrapSamples : Nat
  BootstrapPercentReverse : ℚ
  BootstrapPercentReject : ℚ
  BootstrapAmplitudeModifier : ℚ
  BootstrapTakeoffModifier : ℚ
  NoiseTest : Bool
  VelocityModel : Bool
  AmpFactor : ℚ
  AmplitudeN : Nat
  Size : Nat
  Top : List ℚ
  Velocity : List ℚ
  QualityType : Int
  FOCIMT_SEP : String
  FOCIMT_SEP2 : String
  FOCIMT_NEWLINE : String

/-- Norm of the run: `(NormType == "L2") ? ntL2 : ntL1` (lines 357-358). -/
def InversionNormType (o : Options) : NormType :=
  if o.NormType = "L2" then NormType.ntL2 else NormType.ntL1

/-! ## Resampling orchestration (lines 474-585) -/

/-- Modelled from the spec: `MTInversion` (focimtaux.h is not part of the
sources) inverts the dataset it is given and appends one entry to the
collection, tagged with the run type and the channel it is given. -/
def MTInversion {G : Type} (E : Engine G) (norm : NormType) (quality : Int)
    (data : SMTInputData) (channel : Int) (type : Char) (st : Inversions) : Inversions :=
  { FSList := st.FSList ++
      [{ Type_ := type, Channel := channel,
         FullSolution := (E.solve norm quality data).1,
         TraceNullSolution := (E.solve norm quality data).2.1,
         DoubleCoupleSolution := (E.solve norm quality data).2.2 }],
    Calls := st.Calls ++ [⟨norm, quality, data, channel, type⟩] }

/-- Body of the station loop of the noise test (lines 495-503). -/
def noiseStation {G : Type} (E : Engine G) (o : Options) (j : Nat)
    (s : SMTInputData × G) : SMTInputData × G :=
  let InputLine := s.1.Get j
  let r1 := E.rand s.2
  let u1 : ℚ := (toInt32 ((r1.1 : Int) + 1) : ℚ) / ((E.RAND_MAX : ℚ) + 1)
  let r2 := E.rand r1.2
  let u2 : ℚ := (toInt32 ((r2.1 : Int) + 1) : ℚ) / ((E.RAND_MAX : ℚ) + 1)
  let z : ℚ := E.sqrt (-2 * E.log u1) * E.cos (2 * E.M_PI * u2)
  (s.1.Set j { InputLine with
      Displacement := InputLine.Displacement + z / 3 * InputLine.Displacement * o.AmpFactor },
   r2.2)

/-- One iteration of the noise test (lines 489-507). -/
def noiseIteration {G : Type} (E : Engine G) (o : Options) (fd : SMTInputData) (_i : Nat)
    (s : Inversions × G) : Inversions × G :=
  let td := forLoop fd.Count (noiseStation E o) (fd, s.2)
  (MTInversion E (InversionNormType o) o.QualityType td.1 0 'A' s.1, td.2)

/-- One iteration of the jackknife test (lines 516-523). -/
def jackknifeIteration {G : Type} (E : Engine G) (o : Options) (fd : SMTInputData) (i : Nat)
    (s : Inversions × G) : Inversions × G :=
  let td := fd
  let InputLine := td.Get i
  let channel := InputLine.Id
  (MTInversion E (InversionNormType o) o.QualityType (td.Remove i) channel 'J' s.1, s.2)

/-- Takeoff step of the bootstrap station loop (lines 545-550). -/
def bootstrapTakeoff {G : Type} (E : Engine G) (o : Options) (j : Nat)
    (s : SMTInputData × G) : SMTInputData × G :=
  if o.BootstrapTakeoffModifier > 0 then
    let v := E.rand_normal 0 o.BootstrapTakeoffModifier s.2
    let InputLine := s.1.Get j
    (s.1.Set j { InputLine with TakeOff := InputLine.TakeOff + v.1 / 3 }, v.2)
  else s

/-- Polarity step of the bootstrap station loop (lines 553-559). -/
def bootstrapReverse {G : Type} (E : Engine G) (o : Options) (j : Nat)
    (s : SMTInputData × G) : SMTInputData × G :=
  if o.BootstrapPercentReverse > 0 then
    let r := E.rand s.2
    if ((r.1 % 10000 : Nat) : ℚ) < o.BootstrapPercentReverse * 10000 then
      let InputLine := s.1.Get j
      (s.1.Set j { InputLine with Displacement := InputLine.Displacement * -1 }, r.2)
    else (s.1, r.2)
  else s

/-- Amplitude step of the bootstrap station loop (lines 562-569). -/
def bootstrapAmplitude {G : Type} (E : Engine G) (o : Options) (j : Nat)
    (s : SMTInputData × G) : SMTInputData × G :=
  if o.BootstrapAmplitudeModifier > 0 then
    let v := E.rand_normal 0 o.BootstrapAmplitudeModifier s.2
    let InputLine := s.1.Get j
    (s.1.Set j { InputLine with
        Displacement := InputLine.Displacement + v.1 * InputLine.Displacement / 3 }, v.2)
  else s

/-- Rejection step of the bootstrap station loop (lines 572-576). -/
def bootstrapReject {G : Type} (E : Engine G) (o : Options) (j : Nat)
    (s : SMTInputData × G) : SMTInputData × G :=
  if o.BootstrapPercentReject > 0 then
    let r := E.rand s.2
    if ((r.1 % 10000 : Nat) : ℚ) < o.BootstrapPercentReject * 10000 then
      (s.1.Remove j, r.2)
    else (s.1, r.2)
  else s

/-- Body of the bootstrap station loop for working index `j` (lines 543-576). -/
def bootstrapStation {G : Type} (E : Engine G) (o : Options) (j : Nat)
    (s : SMTInputData × G) : SMTInputData × G :=
  bootstrapReject E o j (bootstrapAmplitude E o j (bootstrapReverse E o j
    (bootstrapTakeoff E o j s)))

/-- The bootstrap station loop `for (j = ..; j < BootstrapData.Count(); j++)`
(line 542), started at index `j`; the bound is read again before every pass.
`fuel` bounds the number of passes. -/
def bootstrapLoop {G : Type} (E : Engine G) (o : Options) :
    Nat → Nat → SMTInputData × G → SMTInputData × G
  | 0, _, s => s
  | fuel + 1, j, s =>
    if j < s.1.Count then bootstrapLoop E o fuel (j + 1) (bootstrapStation E o j s) else s

/-- One bootstrap sample (lines 534-583). The station loop gets as many passes as
the dataset has stations, which it never exceeds. -/
def bootstrapIteration {G : Type} (E : Engine G) (o : Options) (InputData : SMTInputData)
    (i : Nat) (s : Inversions × G) : Inversions × G :=
  let BootstrapData := bootstrapLoop E o InputData.Count 0 (InputData, s.2)
  let channel := toInt32 (((i + 1) % 4294967296 : Nat) : Int)
  (MTInversion E (InversionNormType o) o.QualityType BootstrapData.1 channel 'B' s.1,
   BootstrapData.2)

/-- The inversions of one event: the nominal inversion and the selected
resampling branch (lines 474-585). -/
def runInversions {G : Type} (E : Engine G) (o : Options) (InputData : SMTInputData)
    (g : G) : Inversions × G :=
  let FSList := MTInversion E (InversionNormType o) o.QualityType InputData 0 'N' ⟨[], []⟩
  if o.NoiseTest then
    forLoop o.AmplitudeN (noiseIteration E o InputData) (FSList, g)
  else if o.JacknifeTest then
    forLoop InputData.Count (jackknifeIteration E o InputData) (FSList, g)
  else if o.BootstrapTest then
    forLoop o.BootstrapSamples (bootstrapIteration E o InputData) (FSList, g)
  else (FSList, g)

/-! ## Reading one event (lines 371-469) -/

/-- The input file stream. `σ` is the state of the stream; every extraction
`InputFile >> x` gets the stream and the old value of `x`, and gives the new
value of `x` and the new stream. -/
structure IStream (σ : Type) where
  good : σ → Bool
  getString : σ → String → String × σ
  getUInt : σ → Nat → Nat × σ
  getDouble : σ → ℚ → ℚ × σ

/-- Variables of `main` that the extractions write; they are declared outside
the event loop and keep their values from one event to the next. -/
structure ReadVars where
  fileid : String
  N : Nat
  id : String
  component : String
  phase : String
  moment : ℚ
  azimuth : ℚ
  takeoff : ℚ
  velocity : ℚ
  distance : ℚ
  density : ℚ
  aoi : ℚ

/-- State of the read of one event. -/
structure Reader (σ : Type) where
  InputData : SMTInputData
  v : ReadVars
  InputFile : σ

/-- One station line of the standard format (lines 438-467). -/
def readStation {G σ : Type} (E : Engine G) (I : IStream σ) (i : Nat)
    (r : Reader σ) : Reader σ :=
  let x1 := I.getString r.InputFile r.v.id
  let x2 := I.getString x1.2 r.v.component
  let x3 := I.getString x2.2 r.v.phase
  let x4 := I.getDouble x3.2 r.v.moment
  let x5 := I.getDouble x4.2 r.v.azimuth
  let x6 := I.getDouble x5.2 r.v.aoi
  let x7 := I.getDouble x6.2 r.v.takeoff
  let x8 := I.getDouble x7.2 r.v.velocity
  let x9 := I.getDouble x8.2 r.v.distance
  let x10 := I.getDouble x9.2 r.v.density
  let il : SMTInputLine :=
    { Name := x1.1,
      Id := toInt32 (((i + 1) % 4294967296 : Nat) : Int),
      Component := x2.1,
      MarkerType := x3.1,
      Start := 0,
      End := 0,
      Duration := 0,
      Displacement := x4.1 / E.cos (x6.1 * E.M_PI / 180),
      Incidence := x6.1,
      Azimuth := x5.1,
      TakeOff := x7.1,
      Distance := x9.1,
      Density := x10.1,
      Velocity := x8.1,
      PickActive := true,
      ChannelActive := true }
  { InputData := r.InputData.Add il,
    v := { r.v with id := x1.1, component := x2.1, phase := x3.1, moment := x4.1,
                    azimuth := x5.1, aoi := x6.1, takeoff := x7.1, velocity := x8.1,
                    distance := x9.1, density := x10.1 },
    InputFile := x10.2 }

/-- Read of one event in the standard format (lines 435-468), into an empty
dataset. The station count is an `unsigned int`. -/
def readStandard {G σ : Type} (E : Engine G) (I : IStream σ) (v : ReadVars) (s : σ) :
    Reader σ :=
  let f := I.getString s v.fileid
  let n := I.getUInt f.2 v.N
  let N := n.1 % 4294967296
  forLoop N (readStation E I)
    { InputData := (default : SMTInputData).Clear, v := { v with fileid := f.1, N := N },
      InputFile := n.2 }

/-- Result of the source layer lookup. -/
inductive LayerResult where
  | found (velocity : ℚ)
  | outOfRange (j : Nat)
  | noFuel
deriving DecidableEq

/-- The source layer lookup (lines 404-409) from counter value `j` on:
`for (unsigned int j = ..; j >= 0; j--) if (depth >= Top[j]) { velocity = Velocity[j]; break; }`.
An index outside `Top` or `Velocity` ends the model with `outOfRange`. -/
def layerLookup (Top Velocity : List ℚ) (depth : ℚ) : Nat → Nat → LayerResult
  | 0, _ => LayerResult.noFuel
  | fuel + 1, j =>
    match Top.get? j with
    | none => LayerResult.outOfRange j
    | some t =>
      if depth ≥ t then
        match Velocity.get? j with
        | none => LayerResult.outOfRange j
        | some w => LayerResult.found w
      else layerLookup Top Velocity depth fuel ((j + 4294967295) % 4294967296)

/-- The lookup as `main` starts it: `j = Velocity.size() - 1` as an `unsigned int`. -/
def sourceLayer (Top Velocity : List ℚ) (depth : ℚ) : LayerResult :=
  layerLookup Top Velocity depth (Velocity.length + 1)
    ((Velocity.length + 4294967295) % 4294967296)

/-- Station coordinates read in velocity model mode; declared once per event. -/
structure StationXYZ where
  s_northing : ℚ
  s_easting : ℚ
  s_z : ℚ

/-- One station line of the velocity model format (lines 383-430); `none` when
the layer lookup leaves the model. -/
def readStationVM {G σ : Type} (E : Engine G) (I : IStream σ) (o : Options)
    (e_northing e_easting e_z : ℚ) (i : Nat)
    (acc : Option (Reader σ × StationXYZ)) : Option (Reader σ × StationXYZ) :=
  match acc with
  | none => none
  | some (r, xyz) =>
    let x1 := I.getString r.InputFile r.v.id
    let x2 := I.getString x1.2 r.v.component
    let x3 := I.getString x2.2 r.v.phase
    let x4 := I.getDouble x3.2 r.v.moment
    let x5 := I.getDouble x4.2 xyz.s_northing
    let x6 := I.getDouble x5.2 xyz.s_easting
    let x7 := I.getDouble x6.2 xyz.s_z
    let depth : ℚ := |e_z * (1 / 1000)|
    let elevation : ℚ := x7.1 * (1 / 1000)
    let epicentral_distance : ℚ :=
      (1 / 1000) * E.sqrt ((x5.1 - e_northing) ^ 2 + (x6.1 - e_easting) ^ 2)
    let azimuth : ℚ := E.atan2 (x6.1 - e_easting) (x5.1 - e_northing) * 180 / E.M_PI
    match sourceLayer o.Top o.Velocity depth with
    | LayerResult.found velocity =>
      let t := E.CalcTravelTime1D_2 elevation depth epicentral_distance o.Top o.Velocity
        (r.v.takeoff, r.v.aoi, r.v.distance)
      let takeoff := t.1
      let aoi := t.2.1
      let distance := t.2.2
      let il : SMTInputLine :=
        { Name := x1.1,
          Id := toInt32 (((i + 1) % 4294967296 : Nat) : Int),
          Component := x2.1,
          MarkerType := x3.1,
          Start := 0,
          End := 0,
          Duration := 0,
          Displacement := x4.1 / E.cos (aoi * E.M_PI / 180),
          Incidence := aoi,
          Azimuth := azimuth,
          TakeOff := takeoff,
          Distance := distance * 1000,
          Density := r.v.density,
          Velocity := velocity * 1000,
          PickActive := true,
          ChannelActive := true }
      some
        ({ InputData := r.InputData.Add il,
           v := { r.v with id := x1.1, component := x2.1, phase := x3.1, moment := x4.1,
                           azimuth := azimuth, velocity := velocity, takeoff := takeoff,
                           aoi := aoi, distance := distance },
           InputFile := x7.2 },
         { s_northing := x5.1, s_easting := x6.1, s_z := x7.1 })
    | _ => none

/-- Read of one event in the velocity model format (lines 374-431). -/
def readVelocityModel {G σ : Type} (E : Engine G) (I : IStream σ) (o : Options)
    (v : ReadVars) (s : σ) : Option (Reader σ) :=
  let f := I.getString s v.fileid
  let n := I.getUInt f.2 v.N
  let N := n.1 % 4294967296
  let en := I.getDouble n.2 0
  let ee := I.getDouble en.2 0
  let ez := I.getDouble ee.2 0
  let dn := I.getDouble ez.2 v.density
  (forLoop N (readStationVM E I o en.1 ee.1 ez.1)
    (some ({ InputData := (default : SMTInputData).Clear,
             v := { v with fileid := f.1, N := N, density := dn.1 },
             InputFile := dn.2 },
           { s_northing := 0, s_easting := 0, s_z := 0 }))).map Prod.fst

/-- Read of one event (lines 371-469): `InputData.Clear()` and the extractions of
the selected format. -/
def readEvent {G σ : Type} (E : Engine G) (I : IStream σ) (o : Options)
    (v : ReadVars) (s : σ) : Option (Reader σ) :=
  if o.VelocityModel then readVelocityModel E I o v s else some (readStandard E I v s)

/-! ## Text export (lines 605-936) -/

/-- Argument of a `sprintf` call. -/
inductive Arg where
  | c (x : Char)
  | s (x : String)
  | d (x : Int)
  | f (x : ℚ)
deriving DecidableEq

/-- One insertion into an output stream. -/
inductive OutItem where
  | text (s : String)
  | size (n : Nat)
  | int (n : Int)
  | dbl (x : ℚ)
  | endl
  | sprintf (format : String) (args : List Arg)
deriving DecidableEq

/-- One insertion together with the name of the file it is appended to. -/
structure Write where
  file : String
  item : OutItem
deriving DecidableEq

/-- Control flow out of a loop body: go on, or `return code` from `main`. -/
inductive Flow (α : Type) where
  | next (a : α)
  | ret (code : Int) (a : α)

/-- Insertion `OutFile << FOCIMT_SEP << x` of a `double`. -/
def putSep (o : Options) (file : String) (x : ℚ) : List Write :=
  [⟨file, OutItem.text o.FOCIMT_SEP⟩, ⟨file, OutItem.dbl x⟩]

/-- Insertion `sprintf(txtb, format, FOCIMT_SEP2, x1, FOCIMT_SEP2, x2, ..); OutFile << txtb`
for `double` arguments. -/
def putFmt (o : Options) (file : String) (format : String) (xs : List ℚ) : List Write :=
  [⟨file, OutItem.sprintf format (xs.flatMap fun x => [Arg.s o.FOCIMT_SEP2, Arg.f x])⟩]

/-- Flag `Formatted` (lines 606-612): the format string holds a lowercase letter. -/
def Formatted (o : Options) : Bool :=
  o.DumpOrder.data.any fun ch => decide ('a' ≤ ch) && decide (ch ≤ 'z')

/-- Lines of the displacement dump for format letter `U` (lines 881-886). -/
def dumpU (o : Options) (file2 : String) (S : FaultSolution) : List Write :=
  [⟨file2, OutItem.text o.FOCIMT_SEP⟩, ⟨file2, OutItem.int S.U_n⟩, ⟨file2, OutItem.endl⟩] ++
  (List.range S.U_n.toNat).flatMap fun r =>
    [⟨file2, OutItem.text (S.Station r)⟩, ⟨file2, OutItem.text o.FOCIMT_SEP⟩,
     ⟨file2, OutItem.dbl (S.U_measured r)⟩, ⟨file2, OutItem.text o.FOCIMT_SEP⟩,
     ⟨file2, OutItem.dbl (S.U_th r)⟩, ⟨file2, OutItem.endl⟩]

/-- Lines of the displacement dump for format letter `u` (lines 889-896). -/
def dumpu (o : Options) (file2 : String) (S : FaultSolution) : List Write :=
  [⟨file2, OutItem.text o.FOCIMT_SEP2⟩, ⟨file2, OutItem.int S.U_n⟩, ⟨file2, OutItem.endl⟩] ++
  (List.range S.U_n.toNat).flatMap fun r =>
    [⟨file2, OutItem.sprintf "%5s%s%13.5e%s%13.5e"
        [Arg.s (S.Station r), Arg.s o.FOCIMT_SEP2, Arg.f (S.U_measured r),
         Arg.s o.FOCIMT_SEP2, Arg.f (S.U_th r)]⟩,
     ⟨file2, OutItem.endl⟩]

/-- What one character of the format string appends (lines 730-928): the chain of
`if` statements in source order. `file` is `OutFile`, `file2` is `OutFile2`. -/
def fieldGroup (o : Options) (file file2 : String) (ExportU : Bool) (S : FaultSolution)
    (ch : Char) : List Write :=
  (if ch = 'M' then
      putSep o file (S.M 1 1) ++ putSep o file (S.M 1 2) ++ putSep o file (S.M 1 3) ++
      putSep o file (S.M 2 2) ++ putSep o file (S.M 2 3) ++ putSep o file (S.M 3 3)
    else if ch = 'm' then
      putFmt o file "%s%13.5e%s%13.5e%s%13.5e%s%13.5e%s%13.5e%s%13.5e"
        [S.M 1 1, S.M 1 2, S.M 1 3, S.M 2 2, S.M 2 3, S.M 3 3]
    else []) ++
  (if ch = 'C' then
      putSep o file (S.M 3 3) ++ putSep o file (S.M 1 1) ++ putSep o file (S.M 2 2) ++
      putSep o file (S.M 1 3) ++ putSep o file (-S.M 2 3) ++ putSep o file (-S.M 1 2)
    else if ch = 'c' then
      putFmt o file "%s%13.5e%s%13.5e%s%13.5e%s%13.5e%s%13.5e%s%13.5e"
        [S.M 3 3, S.M 1 1, S.M 2 2, S.M 1 3, -S.M 2 3, -S.M 1 2]
    else []) ++
  (if ch = 'D' then
      putSep o file S.EXPL ++ putSep o file S.CLVD ++ putSep o file S.DBCP
    else if ch = 'd' then
      putFmt o file "%s%+7.1f%s%+7.1f%s%+7.1f" [S.EXPL, S.CLVD, S.DBCP]
    else []) ++
  (if ch = 'G' then
      putSep o file (S.E 0) ++ putSep o file (S.E 1) ++ putSep o file (S.E 2)
    else if ch = 'g' then
      putFmt o file "%s%13.5e%s%13.5e%s%13.5e" [S.E 0, S.E 1, S.E 2]
    else []) ++
  (if ch = 'Y' then
      putSep o file S.EXPL_VAC ++ putSep o file S.CLVD_VAC ++ putSep o file S.DBCP_VAC
    else if ch = 'y' then
      putFmt o file "%s%+7.1f%s%+7.1f%s%+7.1f" [S.EXPL_VAC, S.CLVD_VAC, S.DBCP_VAC]
    else []) ++
  (if ch = 'A' then
      putSep o file S.PXTR ++ putSep o file S.PXPL ++ putSep o file S.TXTR ++
      putSep o file S.TXPL ++ putSep o file S.BXTR ++ putSep o file S.BXPL
    else if ch = 'a' then
      putFmt o file "%s%5.1f%s%4.1f%s%5.1f%s%4.1f%s%5.1f%s%4.1f"
        [S.PXTR, S.PXPL, S.TXTR, S.TXPL, S.BXTR, S.BXPL]
    else []) ++
  (if ch = 'F' then
      putSep o file S.FIA ++ putSep o file S.DLA ++ putSep o file S.RAKEA ++
      putSep o file S.FIB ++ putSep o file S.DLB ++ putSep o file S.RAKEB
    else if ch = 'f' then
      putFmt o file "%s%5.1f%s%4.1f%s%6.1f%s%5.1f%s%4.1f%s%6.1f"
        [S.FIA, S.DLA, S.RAKEA, S.FIB, S.DLB, S.RAKEB]
    else []) ++
  (if ch = 'W' then
      putSep o file S.M0 ++ putSep o file S.MT ++ putSep o file S.ERR ++ putSep o file S.MAGN
    else []) ++
  (if ch = 'w' then
      putFmt o file "%s%11.3e%s%11.3e%s%11.3e%s%6.2f" [S.M0, S.MT, S.ERR, S.MAGN]
    else []) ++
  (if ch = 'Q' then putSep o file S.QI else []) ++
  (if ch = 'q' then putFmt o file "%s%5.1f" [S.QI] else []) ++
  (if ch = 'T' then [⟨file, OutItem.text o.FOCIMT_SEP⟩, ⟨file, OutItem.text S.Type_⟩] else []) ++
  (if ch = 't' then
      [⟨file, OutItem.sprintf "%s%s" [Arg.s o.FOCIMT_SEP2, Arg.s S.Type_]⟩]
    else []) ++
  (if ch = 'U' ∧ ExportU = true then dumpU o file2 S
    else if ch = 'u' ∧ ExportU = true then dumpu o file2 S
    else []) ++
  (if ch = 'E' then putSep o file S.UERR
    else if ch = 'e' then putFmt o file "%s%11.3e" [S.UERR]
    else []) ++
  (if ch = 'V' then
      (List.range 6).flatMap fun q => putSep o file (S.Covariance (q + 1) (q + 1))
    else if ch = 'v' then
      putFmt o file "%s%11.3e%s%11.3e%s%11.3e%s%11.3e%s%11.3e%s%11.3e"
        [S.Covariance 1 1, S.Covariance 2 2, S.Covariance 3 3, S.Covariance 4 4,
         S.Covariance 5 5, S.Covariance 6 6]
    else []) ++
  (if ch = '*' then [⟨file, OutItem.text o.FOCIMT_NEWLINE⟩] else [])

/-- The variant `switch` (lines 623-636): the solution and file suffix selected
by one character of `SolutionTypes`; any other character leaves both as they are. -/
def selectVariant (fs : FaultSolutions) (ch : Char) (cur : FaultSolution × String) :
    FaultSolution × String :=
  if ch = 'F' then (fs.FullSolution, "full")
  else if ch = 'T' then (fs.TraceNullSolution, "deviatoric")
  else if ch = 'D' then (fs.DoubleCoupleSolution, "dc")
  else cur

/-- Text output of one collection entry for one variant (lines 685-932): nothing
for an empty format string, else the header when `j = 0`, the provenance pair,
the field groups and the line end. -/
def textOutput {G : Type} (E : Engine G) (o : Options) (fileid : String) (size : Nat)
    (j : Nat) (Type_ : Char) (Channel : Int) (Solution : FaultSolution) (FSuffix : String) :
    List Write :=
  if o.DumpOrder.length ≠ 0 then
    let OutName :=
      if o.FilenameOut.length = 0 then fileid ++ "-" ++ FSuffix ++ ".asc"
      else o.FilenameOut ++ "-" ++ FSuffix ++ ".asc"
    let OutName2 :=
      if o.FilenameOut.length = 0 then fileid ++ "-" ++ FSuffix ++ "-u.asc"
      else o.FilenameOut ++ "-" ++ FSuffix ++ "-u.asc"
    let ExportU : Bool := decide (E.Pos o.DumpOrder "U" > 0) || decide (E.Pos o.DumpOrder "u" > 0)
    let txtb : OutItem :=
      if Formatted o = true then
        OutItem.sprintf "%c%s%5d" [Arg.c Type_, Arg.s o.FOCIMT_SEP2, Arg.d Channel]
      else OutItem.sprintf "%c%s%d" [Arg.c Type_, Arg.s o.FOCIMT_SEP, Arg.d Channel]
    (if j = 0 then
        [⟨OutName, OutItem.text fileid⟩, ⟨OutName, OutItem.text o.FOCIMT_SEP⟩,
         ⟨OutName, OutItem.size size⟩, ⟨OutName, OutItem.endl⟩] ++
        (if ExportU = true then
          [⟨OutName2, OutItem.text fileid⟩, ⟨OutName2, OutItem.text o.FOCIMT_SEP⟩,
           ⟨OutName2, OutItem.size size⟩, ⟨OutName2, OutItem.endl⟩]
         else [])
      else []) ++
    [⟨OutName, txtb⟩] ++
    (if ExportU = true then [⟨OutName2, txtb⟩] else []) ++
    o.DumpOrder.data.flatMap (fieldGroup o OutName OutName2 ExportU Solution) ++
    [⟨OutName, OutItem.text o.FOCIMT_NEWLINE⟩]
  else []

/-- Name of the picture file (lines 647-665). -/
def pictureName {G : Type} (E : Engine G) (o : Options) (fileid FSuffix ext : String) : String :=
  if o.FilenameOut.length = 0 then fileid ++ "-" ++ FSuffix ++ "." ++ ext
  else
    let file := (E.SplitFilename o.FilenameOut).1
    let path := (E.SplitFilename o.FilenameOut).2
    if path = file then path ++ "-" ++ fileid ++ "-" ++ FSuffix ++ "." ++ ext
    else path ++ "/" ++ fileid ++ "-" ++ FSuffix ++ "." ++ ext

/-- The loop over the picture formats (lines 644-681): `false` when an export
throws, which makes `main` return 2. -/
def exportPictures {G : Type} (E : Engine G) (o : Options) (fileid : String)
    (FSList : List FaultSolutions) (InputData : SMTInputData) (FSuffix : String) :
    List (String × String) → Bool
  | [] => true
  | (fmt, ext) :: rest =>
    if E.Pos o.OutputFileType fmt ≠ 0 then
      if E.exportBall (pictureName E o fileid FSuffix ext) fmt FSList InputData FSuffix then
        exportPictures E o fileid FSList InputData FSuffix rest
      else false
    else exportPictures E o fileid FSList InputData FSuffix rest

/-- The picture formats `Formats[]` with their lower case forms. -/
def Formats : List (String × String) :=
  [("PNG", "png"), ("SVG", "svg"), ("PS", "ps"), ("PDF", "pdf")]

/-- The loop over the characters of `SolutionTypes` for collection entry `j`
(lines 622-934). -/
def exportVariants {G : Type} (E : Engine G) (o : Options) (fileid : String)
    (FSList : List FaultSolutions) (InputData : SMTInputData) (j : Nat) (fs : FaultSolutions) :
    List Char → FaultSolution × String → List Write → Flow (List Write)
  | [], _, out => Flow.next out
  | ch :: rest, cur, out =>
    let sel := selectVariant fs ch cur
    if (E.Pos o.OutputFileType "NONE" = 0 ∧ j = 0) ∧
        exportPictures E o fileid FSList InputData sel.2 Formats = false then
      Flow.ret 2 out
    else
      exportVariants E o fileid FSList InputData j fs rest sel
        (out ++ textOutput E o fileid FSList.length j fs.Type_ fs.Channel sel.1 sel.2)

/-- The loop over the collection entries from index `j` on (lines 616-935);
`todo` holds the entries `FSList[j]`, `FSList[j+1]`, .. -/
def exportSolutions {G : Type} (E : Engine G) (o : Options) (fileid : String)
    (FSList : List FaultSolutions) (InputData : SMTInputData) :
    List FaultSolutions → Nat → List Write → Flow (List Write)
  | [], _, out => Flow.next out
  | fs :: todo, j, out =>
    match exportVariants E o fileid FSList InputData j fs o.SolutionTypes.data
        (fs.DoubleCoupleSolution, "dc") out with
    | Flow.ret code out1 => Flow.ret code out1
    | Flow.next out1 => exportSolutions E o fileid FSList InputData todo (j + 1) out1

/-! ## The event loop (lines 368-937) -/

/-- State of `main` between two events. `Out` holds every insertion into a text
output file so far, `Calls` every inversion call so far. -/
structure MainState (σ G : Type) where
  InputFile : σ
  vars : ReadVars
  rng : G
  Out : List Write
  Calls : List InversionCall

/-- How a run of `main` ends. -/
inductive Outcome (σ G : Type) where
  | exit (code : Int) (st : MainState σ G)
  | undefinedBehaviour
  | outOfFuel

/-- Result of one pass through the body of the event loop. -/
inductive Step (σ G : Type) where
  | next (st : MainState σ G)
  | ret (code : Int) (st : MainState σ G)
  | undefinedBehaviour

/-- Body of the event loop (lines 371-936): read one event; when the stream is
not good afterwards, `continue`; else invert and export. -/
def eventBody {G σ : Type} (E : Engine G) (I : IStream σ) (o : Options)
    (st : MainState σ G) : Step σ G :=
  match readEvent E I o st.vars st.InputFile with
  | none => Step.undefinedBehaviour
  | some rd =>
    if I.good rd.InputFile = false then
      Step.next { st with InputFile := rd.InputFile, vars := rd.v }
    else
      let inv := runInversions E o rd.InputData st.rng
      match exportSolutions E o rd.v.fileid inv.1.FSList rd.InputData inv.1.FSList 0 st.Out with
      | Flow.next out =>
        Step.next { InputFile := rd.InputFile, vars := rd.v, rng := inv.2, Out := out,
                    Calls := st.Calls ++ inv.1.Calls }
      | Flow.ret code out =>
        Step.ret code { InputFile := rd.InputFile, vars := rd.v, rng := inv.2, Out := out,
                        Calls := st.Calls ++ inv.1.Calls }

/-- The event loop `while (InputFile.good()) { .. }` followed by `return 0`
(lines 370-939). `fuel` bounds the number of passes. -/
def eventLoop {G σ : Type} (E : Engine G) (I : IStream σ) (o : Options) :
    Nat → MainState σ G → Outcome σ G
  | 0, st => if I.good st.InputFile = true then Outcome.outOfFuel else Outcome.exit 0 st
  | fuel + 1, st =>
    if I.good st.InputFile = true then
      match eventBody E I o st with
      | Step.next st1 => eventLoop E I o fuel st1
      | Step.ret code st1 => Outcome.exit code st1
      | Step.undefinedBehaviour => Outcome.undefinedBehaviour
    else Outcome.exit 0 st

/-! ## Observations on a collection -/

/-- Provenance pairs `(Type, Channel)` of the entries of a collection, in order. -/
def tagsOf (fs : List FaultSolutions) : List (Char × Int) :=
  fs.map fun e => (e.Type_, e.Channel)

/-- Ids of the stations of a dataset, in order. -/
def idsOf (d : SMTInputData) : List Int :=
  d.lines.map fun il => il.Id

/-! ## Concrete collaborators and inputs -/

/-- A solution with every value zero. -/
def zeroSolution : FaultSolution :=
  { M := fun _ _ => 0, T0 := 0, M0 := 0, MT := 0, ERR := 0, EXPL := 0, CLVD := 0, DBCP := 0,
    EXPL_VAC := 0, CLVD_VAC := 0, DBCP_VAC := 0, FIA := 0, DLA := 0, RAKEA := 0, FIB := 0,
    DLB := 0, RAKEB := 0, PXTR := 0, PXPL := 0, PXAM := 0, TXTR := 0, TXPL := 0, TXAM := 0,
    BXTR := 0, BXPL := 0, BXAM := 0, QI := 0, MAGN := 0, Type_ := "", Covariance := fun _ _ => 0,
    U_th := fun _ => 0, U_measured := fun _ => 0, Station := fun _ => "", U_n := 0, UERR := 0,
    E := fun _ => 0 }

/-- Position search over character lists: 1-based position of the first
occurrence of `sub` at or behind position `k`, 0 when there is none. -/
def posFrom (sub : List Char) : List Char → Nat → Nat
  | [], k => if sub = [] then k else 0
  | c :: cs, k => if sub.isPrefixOf (c :: cs) then k else posFrom sub cs (k + 1)

/-- A concrete set of collaborators: the generator state is a counter and each
draw returns it, normal deviates are zero, every solution is `zeroSolution`. -/
def counterEngine : Engine Nat :=
  { rand := fun g => (g, g + 1),
    RAND_MAX := 32767,
    rand_normal := fun _ _ g => (0, g + 1),
    sqrt := fun x => x,
    log := fun x => x,
    cos := fun _ => 1,
    atan2 := fun _ _ => 0,
    M_PI := 22 / 7,
    solve := fun _ _ _ => (zeroSolution, zeroSolution, zeroSolution),
    CalcTravelTime1D_2 := fun _ _ _ _ _ old => old,
    Pos := fun s sub => posFrom sub.data s.data 1,
    SplitFilename := fun s => (s, s),
    exportBall := fun _ _ _ _ _ => true }

/-- Default settings of `main` (lines 54-76) with no picture export. -/
def defaultOptions : Options :=
  { FilenameOut := "", SolutionTypes := "D", NormType := "L2", DumpOrder := "",
    OutputFileType := "NONE", JacknifeTest := false, BootstrapTest := false,
    BootstrapSamples := 0, BootstrapPercentReverse := 0, BootstrapPercentReject := 0,
    BootstrapAmplitudeModifier := 0, BootstrapTakeoffModifier := 0, NoiseTest := false,
    VelocityModel := false, AmpFactor := 1, AmplitudeN := 100, Size := 500, Top := [],
    Velocity := [], QualityType := 1, FOCIMT_SEP := ",", FOCIMT_SEP2 := " ",
    FOCIMT_NEWLINE := ";" }

/-- A station record with the given id and zero picks. -/
def station (id : Int) : SMTInputLine :=
  { Name := "S", Id := id, Component := "Z", MarkerType := "P", Start := 0, End := 0,
    Duration := 0, Displacement := 1, Incidence := 0, Azimuth := 0, TakeOff := 0, Distance := 0,
    Density := 0, Velocity := 0, PickActive := true, ChannelActive := true }

/-- A dataset of five stations with the ids 1 to 5. -/
def fiveStations : SMTInputData :=
  ⟨[station 1, station 2, station 3, station 4, station 5]⟩

/-- Value of a string of decimal digits. -/
def digitsValue : List Char → Nat → Option Nat
  | [], acc => some acc
  | c :: cs, acc =>
    if 48 ≤ c.toNat ∧ c.toNat ≤ 57 then digitsValue cs (acc * 10 + (c.toNat - 48)) else none

/-- Number written by a token: a non-empty string of decimal digits. -/
def tokenNumber (t : String) : Option Nat :=
  if t.data = [] then none else digitsValue t.data 0

/-- A stream over the blank-separated tokens of a file that ends with a line
break; numbers are written as decimal digits. `ok` is the result of `good()`. -/
structure TokStream where
  toks : List String
  ok : Bool
deriving DecidableEq

/-- Extractions from a `TokStream`: a failed extraction leaves the stream not
good, and nothing is extracted from a stream that is not good. -/
def tokStream : IStream TokStream :=
  { good := fun s => s.ok,
    getString := fun s old =>
      if s.ok = true then
        match s.toks with
        | [] => (old, ⟨[], false⟩)
        | t :: ts => (t, ⟨ts, true⟩)
      else (old, s),
    getUInt := fun s old =>
      if s.ok = true then
        match s.toks with
        | [] => (old, ⟨[], false⟩)
        | t :: ts =>
          match tokenNumber t with
          | some n => (n, ⟨ts, true⟩)
          | none => (0, ⟨ts, false⟩)
      else (old, s),
    getDouble := fun s old =>
      if s.ok = true then
        match s.toks with
        | [] => (old, ⟨[], false⟩)
        | t :: ts =>
          match tokenNumber t with
          | some n => ((n : ℚ), ⟨ts, true⟩)
          | none => (0, ⟨ts, false⟩)
      else (old, s) }

/-- Values of the read variables before the first event. -/
def initialVars : ReadVars :=
  { fileid := "", N := 0, id := "", component := "", phase := "", moment := 0, azimuth := 0,
    takeoff := 0, velocity := 0, distance := 0, density := 0, aoi := 0 }

/-- Tokens of a well-formed one-station event record. -/
def goodRecord : List String :=
  ["evt2", "1", "S1", "Z", "P", "5", "10", "20", "30", "5000", "1000", "2700"]

/-- Tokens of a one-station event record whose amplitude is not a number. -/
def badRecord : List String :=
  ["evt1", "1", "S1", "Z", "P", "abc", "10", "20", "30", "5000", "1000", "2700"]

/-- Tokens of a well-formed two-station event record. -/
def twoStationRecord : List String :=
  ["evt3", "2", "S1", "Z", "P", "5", "10", "20", "30", "5000", "1000", "2700",
   "S2", "Z", "P", "7", "40", "20", "30", "5000", "1200", "2700"]

/-- State of `main` in front of the event loop for an input file with the given tokens. -/
def initialState (toks : List String) : MainState TokStream Nat :=
  { InputFile := ⟨toks, true⟩, vars := initialVars, rng := 0, Out := [], Calls := [] }

/-- Settings that select the jackknife test. -/
def jackknifeOptions : Options :=
  { defaultOptions with JacknifeTest := true }

/-- Settings that select the noise test with three iterations. -/
def noiseOptions : Options :=
  { defaultOptions with NoiseTest := true, AmplitudeN := 3 }

/-- Settings of a bootstrap run with `samples` iterations and rejection share `reject`;
the other three perturbations are disabled. -/
def rejectOptions (samples : Nat) (reject : ℚ) : Options :=
  { defaultOptions with BootstrapTest := true, BootstrapSamples := samples,
                        BootstrapPercentReject := reject }

/-- The dataset read from `twoStationRecord`. -/
def twoStationData : SMTInputData :=
  (readStandard counterEngine tokStream initialVars ⟨twoStationRecord, true⟩).InputData

/-! ## Observations on the text output -/

/-- A value carried by an output stream, without its textual form. -/
inductive Val where
  | num (x : ℚ)
  | str (s : String)
  | int (n : Int)
  | chr (c : Char)
  | count (n : Nat)
  | eol
deriving DecidableEq

/-- Value of a `sprintf` argument. -/
def argValue : Arg → Val
  | Arg.c x => Val.chr x
  | Arg.s x => Val.str x
  | Arg.d x => Val.int x
  | Arg.f x => Val.num x

/-- Values that one insertion carries, in order; the format string of a `sprintf`
is left out. -/
def itemValues : OutItem → List Val
  | OutItem.text s => [Val.str s]
  | OutItem.size n => [Val.count n]
  | OutItem.int n => [Val.int n]
  | OutItem.dbl x => [Val.num x]
  | OutItem.endl => [Val.eol]
  | OutItem.sprintf _ args => args.map argValue

/-- Values that a sequence of insertions carries, each with the file it goes to. -/
def writtenValues (ws : List Write) : List (String × Val) :=
  ws.flatMap fun w => (itemValues w.item).map fun x => (w.file, x)

/-- The field group letters: uppercase form and lowercase form. -/
def letterPairs : List (Char × Char) :=
  [('M', 'm'), ('C', 'c'), ('D', 'd'), ('G', 'g'), ('Y', 'y'), ('A', 'a'), ('F', 'f'),
   ('W', 'w'), ('Q', 'q'), ('T', 't'), ('U', 'u'), ('E', 'e'), ('V', 'v')]

/-- Name of the text file `OutName` of a variant (lines 689-697). -/
def outName (o : Options) (fileid FSuffix : String) : String :=
  if o.FilenameOut.length = 0 then fileid ++ "-" ++ FSuffix ++ ".asc"
  else o.FilenameOut ++ "-" ++ FSuffix ++ ".asc"

/-- Name of the displacement dump file `OutName2` of a variant (lines 689-697). -/
def outName2 (o : Options) (fileid FSuffix : String) : String :=
  if o.FilenameOut.length = 0 then fileid ++ "-" ++ FSuffix ++ "-u.asc"
  else o.FilenameOut ++ "-" ++ FSuffix ++ "-u.asc"

/-- Flag `ExportU` (line 699): the format string asks for the displacement dump. -/
def exportU {G : Type} (E : Engine G) (o : Options) : Bool :=
  decide (E.Pos o.DumpOrder "U" > 0) || decide (E.Pos o.DumpOrder "u" > 0)

/-- The provenance pair `txtb` of a row (lines 718-721). -/
def provenancePair (o : Options) (Type_ : Char) (Channel : Int) : OutItem :=
  if Formatted o = true then
    OutItem.sprintf "%c%s%5d" [Arg.c Type_, Arg.s o.FOCIMT_SEP2, Arg.d Channel]
  else OutItem.sprintf "%c%s%d" [Arg.c Type_, Arg.s o.FOCIMT_SEP, Arg.d Channel]

/-- The header lines of an event (lines 712-714): event identifier, separator,
number of collection entries and line end, on the text file and, when it is
open, on the displacement dump. -/
def eventHeader {G : Type} (E : Engine G) (o : Options) (fileid : String) (size : Nat)
    (FSuffix : String) : List Write :=
  [⟨outName o fileid FSuffix, OutItem.text fileid⟩,
   ⟨outName o fileid FSuffix, OutItem.text o.FOCIMT_SEP⟩,
   ⟨outName o fileid FSuffix, OutItem.size size⟩,
   ⟨outName o fileid FSuffix, OutItem.endl⟩] ++
  (if exportU E o = true then
    [⟨outName2 o fileid FSuffix, OutItem.text fileid⟩,
     ⟨outName2 o fileid FSuffix, OutItem.text o.FOCIMT_SEP⟩,
     ⟨outName2 o fileid FSuffix, OutItem.size size⟩,
     ⟨outName2 o fileid FSuffix, OutItem.endl⟩]
   else [])

/-- What the field groups of the format string write for one row (lines 726-929). -/
def rowFields {G : Type} (E : Engine G) (o : Options) (fileid : String)
    (Solution : FaultSolution) (FSuffix : String) : List Write :=
  o.DumpOrder.data.flatMap
    (fieldGroup o (outName o fileid FSuffix) (outName2 o fileid FSuffix) (exportU E o) Solution)

/-- One output row (lines 717-931): the provenance pair on the text file and, when
it is open, on the displacement dump, the field groups, and the line end. -/
def outputRow {G : Type} (E : Engine G) (o : Options) (fileid : String) (Type_ : Char)
    (Channel : Int) (Solution : FaultSolution) (FSuffix : String) : List Write :=
  ⟨outName o fileid FSuffix, provenancePair o Type_ Channel⟩ ::
    ((if exportU E o = true then [⟨outName2 o fileid FSuffix, provenancePair o Type_ Channel⟩]
      else []) ++
     rowFields E o fileid Solution FSuffix ++
     [⟨outName o fileid FSuffix, OutItem.text o.FOCIMT_NEWLINE⟩])

/-- What the loop over the characters of `SolutionTypes` writes for entry `j`: one
list of insertions per character, each the text output of one pass. -/
def variantChunks {G : Type} (E : Engine G) (o : Options) (fileid : String) (size : Nat)
    (j : Nat) (fs : FaultSolutions) : List Char → FaultSolution × String → List (List Write)
  | [], _ => []
  | ch :: rest, cur =>
    textOutput E o fileid size j fs.Type_ fs.Channel (selectVariant fs ch cur).1
        (selectVariant fs ch cur).2 ::
      variantChunks E o fileid size j fs rest (selectVariant fs ch cur)

/-- What the loop over the collection entries writes from index `j` on: for each
entry the list of `variantChunks`. -/
def exportChunks {G : Type} (E : Engine G) (o : Options) (fileid : String) (size : Nat) :
    List FaultSolutions → Nat → List (List (List Write))
  | [], _ => []
  | fs :: todo, j =>
    variantChunks E o fileid size j fs o.SolutionTypes.data (fs.DoubleCoupleSolution, "dc") ::
      exportChunks E o fileid size todo (j + 1)

/-- The insertions of the pass for collection entry `j` and the character at
position `i` of `SolutionTypes`. -/
def chunkAt (chunks : List (List (List Write))) (j i : Nat) : Option (List Write) :=
  (chunks[j]?).bind fun entry => entry[i]?

/-- Settings with the format string of the end-to-end example: moment tensor,
decomposition, quality, line break. -/
def dumpOptions : Options :=
  { defaultOptions with DumpOrder := "MDQ*" }

/-- The jackknife collection of `twoStationData`: the nominal entry and two
jackknife entries. -/
def exampleCollection : List FaultSolutions :=
  (runInversions counterEngine jackknifeOptions twoStationData 0).1.FSList

/-- Settings with a format string that holds lowercase letters and two variants. -/
def formattedOptions : Options :=
  { defaultOptions with DumpOrder := "mdq", SolutionTypes := "FD" }

/-! ## The bootstrap pass in the words of the specification -/

/-- Evaluation of one station of a bootstrap pass as the specification words it, on
the record `x` of the station and the generator `g`: in the order takeoff,
polarity, amplitude, rejection, each step only when its parameter is `> 0`, a
step that is off takes no draw. The result is the perturbed record, or `none` when
the station is rejected, and the generator behind the draws. -/
def evaluateStation {G : Type} (E : Engine G) (o : Options) (x : SMTInputLine) (g : G) :
    Option SMTInputLine × G :=
  let a := if o.BootstrapTakeoffModifier > 0 then E.rand_normal 0 o.BootstrapTakeoffModifier g
    else (0, g)
  let x1 := if o.BootstrapTakeoffModifier > 0 then { x with TakeOff := x.TakeOff + a.1 / 3 }
    else x
  let b := if o.BootstrapPercentReverse > 0 then E.rand a.2 else (0, a.2)
  let x2 :=
    if o.BootstrapPercentReverse > 0 ∧
        ((b.1 % 10000 : Nat) : ℚ) < o.BootstrapPercentReverse * 10000 then
      { x1 with Displacement := -x1.Displacement }
    else x1
  let c := if o.BootstrapAmplitudeModifier > 0 then
      E.rand_normal 0 o.BootstrapAmplitudeModifier b.2
    else (0, b.2)
  let x3 := if o.BootstrapAmplitudeModifier > 0 then
      { x2 with Displacement := x2.Displacement + c.1 * x2.Displacement / 3 }
    else x2
  let e := if o.BootstrapPercentReject > 0 then E.rand c.2 else (0, c.2)
  (if o.BootstrapPercentReject > 0 ∧
        ((e.1 % 10000 : Nat) : ℚ) < o.BootstrapPercentReject * 10000 then none
   else some x3,
   e.2)

/-- States that the station loop of one bootstrap pass over the nominal dataset `d`
with generator `g` comes through: `Reached E o d g j s` says that the loop stands in
front of its test for working index `j` with working set and generator `s`. -/
inductive Reached {G : Type} (E : Engine G) (o : Options) (d : SMTInputData) (g : G) :
    Nat → SMTInputData × G → Prop where
  | start : Reached E o d g 0 (d, g)
  | step (j : Nat) (s : SMTInputData × G) :
      Reached E o d g j s → j < s.1.Count → Reached E o d g (j + 1) (bootstrapStation E o j s)

/-! ## The uniform sample of the noise test -/

/-- The uniform sample `(sample + 1) / (double(RAND_MAX) + 1)` of lines 497 and 499;
the sum `sample + 1` is formed in `int`. -/
def uniformSample {G : Type} (E : Engine G) (sample : Nat) : ℚ :=
  (toInt32 ((sample : Int) + 1) : ℚ) / ((E.RAND_MAX : ℚ) + 1)

/-- Collaborators of a platform on which `RAND_MAX` is the largest `int`. -/
def maxIntEngine : Engine Nat :=
  { counterEngine with RAND_MAX := 2147483647 }

/-- Settings of velocity model mode with three layers: tops 0, 1, 2 and
velocities 5, 6, 7. -/
def layeredOptions : Options :=
  { defaultOptions with VelocityModel := true, Top := [0, 1, 2], Velocity := [5, 6, 7] }

/-- The solution and file suffix in force in the pass for the character at position
`i` of the variant list: the `switch` applied for the characters 0 to `i` in
turn, starting from the DoubleCouple solution and the suffix `dc` (lines 617-636). -/
def selectionAt (fs : FaultSolutions) (chars : List Char) (i : Nat) : FaultSolution × String :=
  (chars.take (i + 1)).foldl (fun cur ch => selectVariant fs ch cur)
    (fs.DoubleCoupleSolution, "dc")

/-- Settings with a variant list that holds a character that is no variant code. -/
def strayVariantOptions : Options :=
  { defaultOptions with DumpOrder := "MDQ*", SolutionTypes := "FXD" }

/-- Fates of the stations of one bootstrap pass, in nominal order, for the
stations `l` still in front of the loop and the generator `g`: `some x'` for a
station that stays in the working set as `x'`, `none` for a rejected one. A station
is evaluated as `evaluateStation` says; the station behind a rejected one stays as
it is, without evaluation, and the pass goes on behind it. -/
def passFates {G : Type} (E : Engine G) (o : Options) :
    List SMTInputLine → G → List (Option SMTInputLine) × G
  | [], g => ([], g)
  | [x], g => ([(evaluateStation E o x g).1], (evaluateStation E o x g).2)
  | x :: y :: rest, g =>
    match (evaluateStation E o x g).1 with
    | some x' =>
      (some x' :: (passFates E o (y :: rest) (evaluateStation E o x g).2).1,
       (passFates E o (y :: rest) (evaluateStation E o x g).2).2)
    | none =>
      (none :: some y :: (passFates E o rest (evaluateStation E o x g).2).1,
       (passFates E o rest (evaluateStation E o x g).2).2)

/-- The elements at the odd positions 1, 3, 5, .. of a list, in order. -/
def oddPositions {α : Type} : List α → List α
  | [] => []
  | [_] => []
  | _ :: y :: rest => y :: oddPositions rest

/-! ## The resampling branches over an object store -/

/-- Storage of the dataset objects of `main`: cell `r` holds the station records
of the object whose storage has the address `r`; the addresses below `next` are
in use. -/
structure Store where
  cell : Nat → SMTInputData
  next : Nat

namespace Store

/-- The dataset held at address `r`. -/
def read (h : Store) (r : Nat) : SMTInputData := h.cell r

/-- Overwrite the dataset held at address `r`. -/
def write (h : Store) (r : Nat) (d : SMTInputData) : Store :=
  { cell := fun a => if a = r then d else h.cell a, next := h.next }

/-- New storage that holds `d`: the store afterwards and the new address. -/
def alloc (h : Store) (d : SMTInputData) : Store × Nat :=
  ({ cell := fun a => if a = h.next then d else h.cell a, next := h.next + 1 }, h.next)

end Store

/-- The copy operations of `Taquart::SMTInputData`, whose code is not part of the
sources (inputdata.h). A dataset object is known by the address of its storage. -/
structure Copier where
  /-- Copy construction `SMTInputData td = fd`: the store afterwards and the new object. -/
  construct : Store → Nat → Store × Nat
  /-- Copy assignment `dst = src`: the store afterwards and the object `dst` afterwards. -/
  assign : Store → Nat → Nat → Store × Nat

/-- Modelled from the spec: a copy of a dataset is an independently owned clone.
It holds the records of its source, its storage is its own (for a new object unused
before, for an assigned object its old storage or unused before), and making it
changes no other object in use. -/
structure Copier.Deep (C : Copier) : Prop where
  construct_fresh : ∀ h src, h.next ≤ (C.construct h src).2 ∧
    (C.construct h src).2 < (C.construct h src).1.next
  construct_value : ∀ h src, (C.construct h src).1.read (C.construct h src).2 = h.read src
  construct_frame : ∀ h src a, a < h.next → (C.construct h src).1.read a = h.read a
  assign_own : ∀ h dst src, dst < h.next →
    ((C.assign h dst src).2 = dst ∨ h.next ≤ (C.assign h dst src).2) ∧
      (C.assign h dst src).2 < (C.assign h dst src).1.next ∧
      h.next ≤ (C.assign h dst src).1.next
  assign_value : ∀ h dst src, (C.assign h dst src).1.read (C.assign h dst src).2 = h.read src
  assign_frame : ∀ h dst src a, a < h.next → a ≠ dst →
    (C.assign h dst src).1.read a = h.read a

/-- Copies with storage of their own: construction takes new storage, assignment
overwrites the storage of the destination. -/
def deepCopy : Copier :=
  { construct := fun h src => h.alloc (h.read src),
    assign := fun h dst src => (h.write dst (h.read src), dst) }

/-- Copies that share the storage of their source. -/
def sharedCopy : Copier :=
  { construct := fun h src => (h, src),
    assign := fun h _ src => (h, src) }

/-- Code that calls member functions of the dataset object at address `r` only
(`Get`, `Set`, `Remove`, `Count`): it acts on the storage of that object. -/
def onObject {G : Type} (body : SMTInputData × G → SMTInputData × G) (r : Nat)
    (s : Store × G) : Store × G :=
  (s.1.write r (body (s.1.read r, s.2)).1, (body (s.1.read r, s.2)).2)

/-- State of the resampling code of one event: the storage of the dataset objects,
the collection with its call record, the generator. -/
structure RunState (G : Type) where
  mem : Store
  inv : Inversions
  rng : G

/-- Call `MTInversion(.., obj, channel, type, FSList)` for the dataset object at
address `r`. -/
def invertObject {G : Type} (E : Engine G) (o : Options) (r : Nat) (channel : Int)
    (type : Char) (s : RunState G) : RunState G :=
  { mem := s.mem,
    inv := MTInversion E (InversionNormType o) o.QualityType (s.mem.read r) channel type s.inv,
    rng := s.rng }

/-- One iteration of the noise test (lines 489-507) over the store: `td` is copy
constructed from the object `fd`, the station loop works on `td`. -/
def noiseIterationAt {G : Type} (E : Engine G) (o : Options) (C : Copier) (fd : Nat)
    (_i : Nat) (s : RunState G) : RunState G :=
  let td := C.construct s.mem fd
  let p := forLoop (td.1.read td.2).Count (fun j => onObject (noiseStation E o j) td.2)
    (td.1, s.rng)
  invertObject E o td.2 0 'A' { mem := p.1, inv := s.inv, rng := p.2 }

/-- One iteration of the jackknife test (lines 516-523) over the store. -/
def jackknifeIterationAt {G : Type} (E : Engine G) (o : Options) (C : Copier) (fd : Nat)
    (i : Nat) (s : RunState G) : RunState G :=
  let td := C.construct s.mem fd
  let InputLine := (td.1.read td.2).Get i
  let channel := InputLine.Id
  invertObject E o td.2 channel 'J'
    { mem := td.1.write td.2 ((td.1.read td.2).Remove i), inv := s.inv, rng := s.rng }

/-- The bootstrap station loop (line 542) on the dataset object at address `r`; the
bound is read from the object before every pass. -/
def bootstrapLoopAt {G : Type} (E : Engine G) (o : Options) (r : Nat) :
    Nat → Nat → Store × G → Store × G
  | 0, _, s => s
  | fuel + 1, j, s =>
    if j < (s.1.read r).Count then
      bootstrapLoopAt E o r fuel (j + 1) (onObject (bootstrapStation E o j) r s)
    else s

/-- One bootstrap sample (lines 534-583) over the store. The second component is
the object `BootstrapData`, declared in front of the loop: the sample assigns the
object `InputData` to it and works on it. -/
def bootstrapIterationAt {G : Type} (E : Engine G) (o : Options) (C : Copier)
    (InputData : Nat) (i : Nat) (s : RunState G × Nat) : RunState G × Nat :=
  let b := C.assign s.1.mem s.2 InputData
  let p := bootstrapLoopAt E o b.2 (b.1.read b.2).Count 0 (b.1, s.1.rng)
  let channel := toInt32 (((i + 1) % 4294967296 : Nat) : Int)
  (invertObject E o b.2 channel 'B' { mem := p.1, inv := s.1.inv, rng := p.2 }, b.2)

/-- The inversions of one event (lines 474-585) over the store, for the dataset
object `InputData`: the nominal inversion and the selected resampling branch, with
every copy of a dataset made by `C`. -/
def runInversionsAt {G : Type} (E : Engine G) (o : Options) (C : Copier) (InputData : Nat)
    (s : RunState G) : RunState G :=
  let s0 := invertObject E o InputData 0 'N' { mem := s.mem, inv := ⟨[], []⟩, rng := s.rng }
  if o.NoiseTest then
    let fd := C.construct s0.mem InputData
    forLoop o.AmplitudeN (noiseIterationAt E o C fd.2) { mem := fd.1, inv := s0.inv, rng := s0.rng }
  else if o.JacknifeTest then
    let fd := C.construct s0.mem InputData
    forLoop (fd.1.read InputData).Count (jackknifeIterationAt E o C fd.2)
      { mem := fd.1, inv := s0.inv, rng := s0.rng }
  else if o.BootstrapTest then
    let BootstrapData := s0.mem.alloc ⟨[]⟩
    (forLoop o.BootstrapSamples (bootstrapIterationAt E o C InputData)
      ({ mem := BootstrapData.1, inv := s0.inv, rng := s0.rng }, BootstrapData.2)).1
  else s0

/-- The store that holds the dataset `d` at address 0 and nothing else. -/
def storeOf (d : SMTInputData) : Store := { cell := fun _ => d, next := 1 }

/-- The state in front of the inversions of an event whose dataset, the five
stations, is the object at address 0. -/
def fiveStationsStart : RunState Nat :=
  { mem := storeOf fiveStations, inv := ⟨[], []⟩, rng := 0 }

/-! ## Loops -/

theorem forLoop_zero {σ : Type} (body : Nat → σ → σ) (s : σ) : forLoop 0 body s = s := by
  simp [forLoop]

theorem forLoop_succ {σ : Type} (n : Nat) (body : Nat → σ → σ) (s : σ) :
    forLoop (n + 1) body s = body n (forLoop n body s) := by
  simp [forLoop, List.range_succ, List.foldl_append]

/-- A loop whose body appends one item, known from the index alone, to a list
read off the state appends these items in index order. -/
theorem forLoop_appends {σ α : Type} (proj : σ → List α) (body : Nat → σ → σ) (t : Nat → α)
    (h : ∀ i s, proj (body i s) = proj s ++ [t i]) (n : Nat) (s : σ) :
    proj (forLoop n body s) = proj s ++ (List.range n).map t := by
  induction n with
  | zero => simp [forLoop_zero]
  | succ k ih => rw [forLoop_succ, h, ih, List.range_succ, List.map_append, List.append_assoc]; rfl

/-- A loop whose body only appends to a list read off the state keeps what the
list held before the loop as its front part. -/
theorem forLoop_extends {σ α : Type} (proj : σ → List α) (body : Nat → σ → σ)
    (h : ∀ i s, ∃ x, proj (body i s) = proj s ++ x) (n : Nat) (s : σ) :
    ∃ x, proj (forLoop n body s) = proj s ++ x := by
  induction n with
  | zero => exact ⟨[], by simp [forLoop_zero]⟩
  | succ k ih =>
    obtain ⟨x, hx⟩ := ih
    obtain ⟨y, hy⟩ := h k (forLoop k body s)
    exact ⟨x ++ y, by rw [forLoop_succ, hy, hx, List.append_assoc]⟩

/-! ## Provenance of the collection entries -/

theorem tagsOf_length (fs : List FaultSolutions) : (tagsOf fs).length = fs.length := by
  simp [tagsOf]

theorem tagsOf_tail (fs : List FaultSolutions) : tagsOf fs.tail = (tagsOf fs).tail := by
  cases fs <;> simp [tagsOf]

theorem mem_tagsOf {fs : List FaultSolutions} {e : FaultSolutions} (h : e ∈ fs) :
    (e.Type_, e.Channel) ∈ tagsOf fs :=
  List.mem_map.mpr ⟨e, h, rfl⟩

theorem noiseIteration_tags {G : Type} (E : Engine G) (o : Options) (fd : SMTInputData)
    (i : Nat) (s : Inversions × G) :
    tagsOf (noiseIteration E o fd i s).1.FSList = tagsOf s.1.FSList ++ [('A', 0)] := by
  simp [noiseIteration, MTInversion, tagsOf]

theorem jackknifeIteration_tags {G : Type} (E : Engine G) (o : Options) (fd : SMTInputData)
    (i : Nat) (s : Inversions × G) :
    tagsOf (jackknifeIteration E o fd i s).1.FSList =
      tagsOf s.1.FSList ++ [('J', (fd.Get i).Id)] := by
  simp [jackknifeIteration, MTInversion, tagsOf]

theorem bootstrapIteration_tags {G : Type} (E : Engine G) (o : Options) (d : SMTInputData)
    (i : Nat) (s : Inversions × G) :
    tagsOf (bootstrapIteration E o d i s).1.FSList =
      tagsOf s.1.FSList ++ [('B', toInt32 (((i + 1) % 4294967296 : Nat) : Int))] := by
  simp [bootstrapIteration, MTInversion, tagsOf]

/-- Provenance pairs of the collection of one event, for every setting of the
three mode flags. -/
theorem runInversions_tags {G : Type} (E : Engine G) (o : Options) (d : SMTInputData) (g : G) :
    tagsOf (runInversions E o d g).1.FSList =
      ('N', 0) ::
        (if o.NoiseTest = true then (List.range o.AmplitudeN).map fun _ => ('A', (0 : Int))
         else if o.JacknifeTest = true then
           (List.range d.Count).map fun i => ('J', (d.Get i).Id)
         else if o.BootstrapTest = true then
           (List.range o.BootstrapSamples).map fun i =>
             ('B', toInt32 (((i + 1) % 4294967296 : Nat) : Int))
         else []) := by
  unfold runInversions
  split_ifs with hN hJ hB
  · rw [forLoop_appends (fun s : Inversions × G => tagsOf s.1.FSList) _ _
      (noiseIteration_tags E o d)]
    simp [MTInversion, tagsOf]
  · rw [forLoop_appends (fun s : Inversions × G => tagsOf s.1.FSList) _ _
      (jackknifeIteration_tags E o d)]
    simp [MTInversion, tagsOf]
  · rw [forLoop_appends (fun s : Inversions × G => tagsOf s.1.FSList) _ _
      (bootstrapIteration_tags E o d)]
    simp [MTInversion, tagsOf]
  · simp [MTInversion, tagsOf]

/-- The collection of one event starts with the entry of the nominal run. -/
theorem runInversions_FSList_starts {G : Type} (E : Engine G) (o : Options) (d : SMTInputData)
    (g : G) :
    ∃ x, (runInversions E o d g).1.FSList =
      (MTInversion E (InversionNormType o) o.QualityType d 0 'N' ⟨[], []⟩).FSList ++ x := by
  unfold runInversions
  split_ifs with hN hJ hB
  · exact forLoop_extends (fun s : Inversions × G => s.1.FSList) _
      (fun i s => ⟨_, by simp only [noiseIteration, MTInversion]; rfl⟩) _ _
  · exact forLoop_extends (fun s : Inversions × G => s.1.FSList) _
      (fun i s => ⟨_, by simp only [jackknifeIteration, MTInversion]; rfl⟩) _ _
  · exact forLoop_extends (fun s : Inversions × G => s.1.FSList) _
      (fun i s => ⟨_, by simp only [bootstrapIteration, MTInversion]; rfl⟩) _ _
  · exact ⟨[], by simp⟩

/-- The call record of one event starts with the nominal call. -/
theorem runInversions_Calls_starts {G : Type} (E : Engine G) (o : Options) (d : SMTInputData)
    (g : G) :
    ∃ x, (runInversions E o d g).1.Calls =
      (MTInversion E (InversionNormType o) o.QualityType d 0 'N' ⟨[], []⟩).Calls ++ x := by
  unfold runInversions
  split_ifs with hN hJ hB
  · exact forLoop_extends (fun s : Inversions × G => s.1.Calls) _
      (fun i s => ⟨_, by simp only [noiseIteration, MTInversion]; rfl⟩) _ _
  · exact forLoop_extends (fun s : Inversions × G => s.1.Calls) _
      (fun i s => ⟨_, by simp only [jackknifeIteration, MTInversion]; rfl⟩) _ _
  · exact forLoop_extends (fun s : Inversions × G => s.1.Calls) _
      (fun i s => ⟨_, by simp only [bootstrapIteration, MTInversion]; rfl⟩) _ _
  · exact ⟨[], by simp⟩

theorem toInt32_mod (n : Nat) : toInt32 ((n % 4294967296 : Nat) : Int) = toInt32 (n : Int) := by
  unfold toInt32
  omega

theorem toInt32_small (n : Nat) (h : n < 2147483648) : toInt32 (n : Int) = (n : Int) := by
  unfold toInt32
  omega

/-- Entry `i` of the collection of a bootstrap run, `1 ≤ i ≤ BootstrapSamples`. -/
theorem bootstrap_entry {G : Type} (E : Engine G) (o : Options) (d : SMTInputData) (g : G)
    (hN : o.NoiseTest = false) (hJ : o.JacknifeTest = false) (hB : o.BootstrapTest = true)
    (i : Nat) (h1 : 1 ≤ i) (h2 : i ≤ o.BootstrapSamples) :
    ∃ e, (runInversions E o d g).1.FSList[i]? = some e ∧ e.Type_ = 'B' ∧
      e.Channel = toInt32 (i : Int) := by
  have ht := runInversions_tags E o d g
  simp only [hN, hJ, hB, Bool.false_eq_true, if_false, if_true] at ht
  obtain ⟨j, rfl⟩ : ∃ j, i = j + 1 := ⟨i - 1, by omega⟩
  have hj : j < o.BootstrapSamples := by omega
  have hlen : j + 1 < (runInversions E o d g).1.FSList.length := by
    rw [← tagsOf_length, ht]
    simp
    omega
  refine ⟨(runInversions E o d g).1.FSList[j + 1], List.getElem?_eq_getElem hlen, ?_⟩
  have hget : (tagsOf (runInversions E o d g).1.FSList)[j + 1]? =
      some ('B', toInt32 (((j + 1) % 4294967296 : Nat) : Int)) := by
    rw [ht]
    simp [List.getElem?_range, hj]
  rw [tagsOf, List.getElem?_map, List.getElem?_eq_getElem hlen] at hget
  simp only [Option.map_some', Option.some.injEq, Prod.mk.injEq] at hget
  refine ⟨hget.1, ?_⟩
  rw [hget.2, toInt32_mod]

/-! ## The bootstrap station loop -/

/-- With the four perturbations disabled the station loop body changes nothing
and draws nothing. -/
theorem bootstrapStation_disabled {G : Type} (E : Engine G) (o : Options)
    (h1 : o.BootstrapTakeoffModifier = 0) (h2 : o.BootstrapPercentReverse = 0)
    (h3 : o.BootstrapPercentReject = 0) (h4 : o.BootstrapAmplitudeModifier = 0)
    (j : Nat) (s : SMTInputData × G) : bootstrapStation E o j s = s := by
  simp [bootstrapStation, bootstrapReject, bootstrapAmplitude, bootstrapReverse,
    bootstrapTakeoff, h1, h2, h3, h4]

theorem bootstrapLoop_disabled {G : Type} (E : Engine G) (o : Options)
    (h1 : o.BootstrapTakeoffModifier = 0) (h2 : o.BootstrapPercentReverse = 0)
    (h3 : o.BootstrapPercentReject = 0) (h4 : o.BootstrapAmplitudeModifier = 0)
    (fuel j : Nat) (s : SMTInputData × G) : bootstrapLoop E o fuel j s = s := by
  induction fuel generalizing j with
  | zero => rfl
  | succ n ih =>
    unfold bootstrapLoop
    split_ifs
    · rw [bootstrapStation_disabled E o h1 h2 h3 h4, ih]
    · rfl

/-- The station loop body never adds a station. -/
theorem bootstrapStation_Count_le {G : Type} (E : Engine G) (o : Options) (j : Nat)
    (s : SMTInputData × G) : (bootstrapStation E o j s).1.Count ≤ s.1.Count := by
  have hT : ∀ s : SMTInputData × G, (bootstrapTakeoff E o j s).1.Count = s.1.Count := by
    intro s
    unfold bootstrapTakeoff
    split_ifs <;> simp [SMTInputData.Count, SMTInputData.Set]
  have hR : ∀ s : SMTInputData × G, (bootstrapReverse E o j s).1.Count = s.1.Count := by
    intro s
    unfold bootstrapReverse
    dsimp only
    split_ifs <;> simp [SMTInputData.Count, SMTInputData.Set]
  have hA : ∀ s : SMTInputData × G, (bootstrapAmplitude E o j s).1.Count = s.1.Count := by
    intro s
    unfold bootstrapAmplitude
    split_ifs <;> simp [SMTInputData.Count, SMTInputData.Set]
  have hX : ∀ s : SMTInputData × G, (bootstrapReject E o j s).1.Count ≤ s.1.Count := by
    intro s
    unfold bootstrapReject
    dsimp only
    split_ifs
    · simp only [SMTInputData.Count, SMTInputData.Remove]
      rw [List.length_eraseIdx]
      split_ifs <;> omega
    · exact Nat.le_refl _
    · exact Nat.le_refl _
  unfold bootstrapStation
  calc (bootstrapReject E o j _).1.Count
      ≤ (bootstrapAmplitude E o j (bootstrapReverse E o j (bootstrapTakeoff E o j s))).1.Count :=
        hX _
    _ = s.1.Count := by rw [hA, hR, hT]

/-- The station loop ends by its own condition: once the fuel covers the stations
from index `j` on, more fuel does not change the result. -/
theorem bootstrapLoop_enough_fuel {G : Type} (E : Engine G) (o : Options) (fuel : Nat) :
    ∀ (extra j : Nat) (s : SMTInputData × G), s.1.Count - j ≤ fuel →
      bootstrapLoop E o (fuel + extra) j s = bootstrapLoop E o fuel j s := by
  induction fuel with
  | zero =>
    intro extra j s h
    have hj : ¬ j < s.1.Count := by omega
    cases extra with
    | zero => rfl
    | succ e =>
      show bootstrapLoop E o (0 + e + 1) j s = s
      rw [bootstrapLoop, if_neg hj]
  | succ n ih =>
    intro extra j s h
    have e1 : n + 1 + extra = (n + extra) + 1 := by omega
    rw [e1, bootstrapLoop, bootstrapLoop]
    split_ifs with hj
    · apply ih
      have := bootstrapStation_Count_le E o j s
      omega
    · rfl

/-- The rejection test fires for every draw when the rejection share is 1. -/
theorem reject_fires (n : Nat) : ((n % 10000 : Nat) : ℚ) < 1 * 10000 := by
  have h : n % 10000 < 10000 := Nat.mod_lt _ (by decide)
  have h2 : ((n % 10000 : Nat) : ℚ) < ((10000 : Nat) : ℚ) := by exact_mod_cast h
  simpa using h2

/-- With rejection share 1 and the other perturbations disabled the station
loop body removes the station at the working index and takes one draw. -/
theorem bootstrapStation_rejectAll {G : Type} (E : Engine G) (samples j : Nat)
    (s : SMTInputData × G) :
    bootstrapStation E (rejectOptions samples 1) j s = (s.1.Remove j, (E.rand s.2).2) := by
  have h := reject_fires (E.rand s.2).1
  simp only [one_mul] at h
  simp [bootstrapStation, bootstrapReject, bootstrapAmplitude, bootstrapReverse,
    bootstrapTakeoff, rejectOptions, defaultOptions, h]

/-- The jackknife channels of a dataset are the ids of its stations in order. -/
theorem jackknife_channels (d : SMTInputData) :
    ((List.range d.Count).map fun i => (d.Get i).Id) = idsOf d := by
  apply List.ext_getElem
  · simp [idsOf, SMTInputData.Count]
  · intro i h1 h2
    have hi : i < d.lines.length := by simpa [idsOf] using h2
    simp [idsOf, SMTInputData.Get, List.getElem?_eq_getElem hi]

theorem jackknifeIteration_Calls {G : Type} (E : Engine G) (o : Options) (fd : SMTInputData)
    (i : Nat) (s : Inversions × G) :
    (jackknifeIteration E o fd i s).1.Calls =
      s.1.Calls ++ [⟨InversionNormType o, o.QualityType, fd.Remove i, (fd.Get i).Id, 'J'⟩] := by
  simp [jackknifeIteration, MTInversion]

/-! ## Station ids assigned by the read -/

/-- The id that the read gives to the station with index `i`. -/
theorem readStation_ids {G σ : Type} (E : Engine G) (I : IStream σ) (i : Nat) (r : Reader σ) :
    idsOf (readStation E I i r).InputData =
      idsOf r.InputData ++ [toInt32 (((i + 1) % 4294967296 : Nat) : Int)] := by
  simp [readStation, idsOf, SMTInputData.Add]

theorem readStation_N {G σ : Type} (E : Engine G) (I : IStream σ) (i : Nat) (r : Reader σ) :
    (readStation E I i r).v.N = r.v.N := rfl

/-- A loop whose body keeps an observation of the state keeps it. -/
theorem forLoop_preserves {σ α : Type} (f : σ → α) (body : Nat → σ → σ)
    (h : ∀ i s, f (body i s) = f s) (n : Nat) (s : σ) : f (forLoop n body s) = f s := by
  induction n with
  | zero => rw [forLoop_zero]
  | succ k ih => rw [forLoop_succ, h, ih]

theorem readStationVM_ids {G σ : Type} (E : Engine G) (I : IStream σ) (o : Options)
    (a b c : ℚ) (i : Nat) (acc : Option (Reader σ × StationXYZ)) (r : Reader σ)
    (x : StationXYZ) (h : readStationVM E I o a b c i acc = some (r, x)) :
    ∃ r0 x0, acc = some (r0, x0) ∧ r.v.N = r0.v.N ∧
      idsOf r.InputData = idsOf r0.InputData ++ [toInt32 (((i + 1) % 4294967296 : Nat) : Int)] := by
  cases acc with
  | none => simp [readStationVM] at h
  | some p =>
    obtain ⟨r0, x0⟩ := p
    refine ⟨r0, x0, rfl, ?_⟩
    simp only [readStationVM] at h
    split at h
    · simp only [Option.some.injEq, Prod.mk.injEq] at h
      rw [← h.1]
      simp [idsOf, SMTInputData.Add]
    · simp at h

theorem readVM_loop_ids {G σ : Type} (E : Engine G) (I : IStream σ) (o : Options)
    (a b c : ℚ) (n : Nat) (acc : Option (Reader σ × StationXYZ)) (r : Reader σ)
    (x : StationXYZ) (h : forLoop n (readStationVM E I o a b c) acc = some (r, x)) :
    ∃ r0 x0, acc = some (r0, x0) ∧ r.v.N = r0.v.N ∧
      idsOf r.InputData = idsOf r0.InputData ++
        (List.range n).map fun i => toInt32 (((i + 1) % 4294967296 : Nat) : Int) := by
  induction n generalizing r x with
  | zero =>
    rw [forLoop_zero] at h
    exact ⟨r, x, h, rfl, by simp⟩
  | succ k ih =>
    rw [forLoop_succ] at h
    obtain ⟨r1, x1, h1, hn, hid⟩ := readStationVM_ids E I o a b c k _ r x h
    obtain ⟨r0, x0, h0, hn0, hid0⟩ := ih r1 x1 h1
    exact ⟨r0, x0, h0, hn.trans hn0,
      by rw [hid, hid0, List.range_succ, List.map_append, List.append_assoc]; rfl⟩

/-- The ids of a dataset that was read from an input record are the 32 bit `int`
values of `1, 2, .., N` for the station count `N` of the record, which is below
`2^32`. -/
theorem readEvent_ids {G σ : Type} (E : Engine G) (I : IStream σ) (o : Options)
    (v : ReadVars) (s : σ) (rd : Reader σ) (h : readEvent E I o v s = some rd) :
    rd.v.N < 4294967296 ∧
      idsOf rd.InputData =
        (List.range rd.v.N).map fun i => toInt32 (((i + 1) % 4294967296 : Nat) : Int) := by
  unfold readEvent at h
  split_ifs at h with hv
  · unfold readVelocityModel at h
    simp only [Option.map_eq_some', Prod.exists, exists_and_right, exists_eq_right] at h
    obtain ⟨x, hx⟩ := h
    obtain ⟨r0, x0, h0, hn, hid⟩ := readVM_loop_ids E I o _ _ _ _ _ rd x hx
    simp only [Option.some.injEq, Prod.mk.injEq] at h0
    rw [hid, hn, ← h0.1]
    exact ⟨Nat.mod_lt _ (by decide), by simp [idsOf, SMTInputData.Clear]⟩
  · simp only [Option.some.injEq] at h
    rw [← h]
    unfold readStandard
    rw [forLoop_appends (fun r : Reader σ => idsOf r.InputData) _ _ (readStation_ids E I),
      forLoop_preserves (fun r : Reader σ => r.v.N) _ (readStation_N E I)]
    exact ⟨Nat.mod_lt _ (by decide), by simp [idsOf, SMTInputData.Clear]⟩

/-- The 32 bit ids of fewer than `2^32` stations are pairwise different. -/
theorem ids_nodup (N : Nat) (hN : N < 4294967296) :
    ((List.range N).map fun i => toInt32 (((i + 1) % 4294967296 : Nat) : Int)).Nodup := by
  refine (List.nodup_map_iff_inj_on (List.nodup_range N)).mpr ?_
  intro i hi j hj hij
  rw [List.mem_range] at hi hj
  unfold toInt32 at hij
  omega

/-! ## The inversion calls of the jackknife and bootstrap branches -/

/-- In jackknife mode the calls behind the nominal one are, in station order, the
dataset without station `i`, tagged with the id of that station. -/
theorem jackknife_Calls {G : Type} (E : Engine G) (o : Options) (d : SMTInputData) (g : G)
    (hN : o.NoiseTest = false) (hJ : o.JacknifeTest = true) :
    (runInversions E o d g).1.Calls =
      ⟨InversionNormType o, o.QualityType, d, 0, 'N'⟩ ::
        (List.range d.Count).map fun i =>
          ⟨InversionNormType o, o.QualityType, d.Remove i, (d.Get i).Id, 'J'⟩ := by
  simp only [runInversions, hN, hJ, Bool.false_eq_true, if_false, if_true]
  rw [forLoop_appends (fun s : Inversions × G => s.1.Calls) _ _ (jackknifeIteration_Calls E o d)]
  simp [MTInversion]

theorem bootstrapIteration_Calls_disabled {G : Type} (E : Engine G) (o : Options)
    (d : SMTInputData)
    (h1 : o.BootstrapTakeoffModifier = 0) (h2 : o.BootstrapPercentReverse = 0)
    (h3 : o.BootstrapPercentReject = 0) (h4 : o.BootstrapAmplitudeModifier = 0)
    (i : Nat) (s : Inversions × G) :
    (bootstrapIteration E o d i s).1.Calls =
      s.1.Calls ++ [⟨InversionNormType o, o.QualityType, d,
        toInt32 (((i + 1) % 4294967296 : Nat) : Int), 'B'⟩] := by
  simp [bootstrapIteration, MTInversion, bootstrapLoop_disabled E o h1 h2 h3 h4]

/-- In bootstrap mode with the four perturbations disabled every call behind the
nominal one gets the nominal dataset. -/
theorem bootstrap_Calls_disabled {G : Type} (E : Engine G) (o : Options) (d : SMTInputData)
    (g : G) (hN : o.NoiseTest = false) (hJ : o.JacknifeTest = false)
    (hB : o.BootstrapTest = true)
    (h1 : o.BootstrapTakeoffModifier = 0) (h2 : o.BootstrapPercentReverse = 0)
    (h3 : o.BootstrapPercentReject = 0) (h4 : o.BootstrapAmplitudeModifier = 0) :
    (runInversions E o d g).1.Calls =
      ⟨InversionNormType o, o.QualityType, d, 0, 'N'⟩ ::
        (List.range o.BootstrapSamples).map fun i =>
          ⟨InversionNormType o, o.QualityType, d,
            toInt32 (((i + 1) % 4294967296 : Nat) : Int), 'B'⟩ := by
  simp only [runInversions, hN, hJ, hB, Bool.false_eq_true, if_false, if_true]
  rw [forLoop_appends (fun s : Inversions × G => s.1.Calls) _ _
    (bootstrapIteration_Calls_disabled E o d h1 h2 h3 h4)]
  simp [MTInversion]

/-! ## The event loop after a failed read -/

/-- When the stream is not good after the read, the pass through the loop body
only stores the stream and the read variables. -/
theorem eventBody_failed_read {G σ : Type} (E : Engine G) (I : IStream σ) (o : Options)
    (st : MainState σ G) (rd : Reader σ)
    (hread : readEvent E I o st.vars st.InputFile = some rd)
    (hbad : I.good rd.InputFile = false) :
    eventBody E I o st = Step.next { st with InputFile := rd.InputFile, vars := rd.v } := by
  simp [eventBody, hread, hbad]

/-- When the stream is not good after the read, the loop condition fails next and
`main` returns 0. -/
theorem eventLoop_failed_read {G σ : Type} (E : Engine G) (I : IStream σ) (o : Options)
    (st : MainState σ G) (rd : Reader σ)
    (hgood : I.good st.InputFile = true)
    (hread : readEvent E I o st.vars st.InputFile = some rd)
    (hbad : I.good rd.InputFile = false) (fuel : Nat) :
    eventLoop E I o (fuel + 1) st =
      Outcome.exit 0 { st with InputFile := rd.InputFile, vars := rd.v } := by
  rw [eventLoop, if_pos hgood, eventBody_failed_read E I o st rd hread hbad]
  cases fuel <;> simp [eventLoop, hbad]

/-! ## Claims on the collection of one event -/

/-- C1: when none of the noise, jackknife and bootstrap modes is selected, the
collection built for a dataset has exactly one element, with `Type = 'N'` and
`Channel = 0`. -/
theorem nominal_only_collection {G : Type} (E : Engine G) (o : Options) (d : SMTInputData)
    (g : G) (hN : o.NoiseTest = false) (hJ : o.JacknifeTest = false)
    (hB : o.BootstrapTest = false) :
    ∃ e, (runInversions E o d g).1.FSList = [e] ∧ e.Type_ = 'N' ∧ e.Channel = 0 := by
  refine ⟨⟨'N', 0, (E.solve (InversionNormType o) o.QualityType d).1,
    (E.solve (InversionNormType o) o.QualityType d).2.1,
    (E.solve (InversionNormType o) o.QualityType d).2.2⟩, ?_, rfl, rfl⟩
  simp only [runInversions, hN, hJ, hB, Bool.false_eq_true, if_false, MTInversion, List.nil_append]

theorem nominal_only_collection_witness :
    ∃ e, (runInversions counterEngine defaultOptions fiveStations 0).1.FSList = [e] ∧
      e.Type_ = 'N' ∧ e.Channel = 0 :=
  nominal_only_collection counterEngine defaultOptions fiveStations 0 rfl rfl rfl

/-- C6: the noise mode with count `k = AmplitudeN` yields exactly `k + 1` entries
and each of the `k` entries behind the nominal one has `Type = 'A'` and
`Channel = 0`. -/
theorem noise_collection {G : Type} (E : Engine G) (o : Options) (d : SMTInputData) (g : G)
    (hN : o.NoiseTest = true) :
    (runInversions E o d g).1.FSList.length = o.AmplitudeN + 1 ∧
      ∀ e ∈ (runInversions E o d g).1.FSList.tail, e.Type_ = 'A' ∧ e.Channel = 0 := by
  have ht := runInversions_tags E o d g
  simp only [hN, if_true] at ht
  constructor
  · rw [← tagsOf_length, ht]
    simp
  · intro e he
    have hm := mem_tagsOf he
    rw [tagsOf_tail, ht] at hm
    simp only [List.tail_cons, List.mem_map, Prod.mk.injEq] at hm
    obtain ⟨_, _, h1, h2⟩ := hm
    exact ⟨h1.symm, h2.symm⟩

theorem noise_collection_witness :
    (runInversions counterEngine noiseOptions fiveStations 0).1.FSList.length = 3 + 1 ∧
      ∀ e ∈ (runInversions counterEngine noiseOptions fiveStations 0).1.FSList.tail,
        e.Type_ = 'A' ∧ e.Channel = 0 :=
  noise_collection counterEngine noiseOptions fiveStations 0 rfl

/-- C7: for every setting of the mode flags and parameters, element 0 of the
collection is the nominal run: `Type = 'N'`, `Channel = 0`, its three solutions
are those of the unmodified input dataset, and its inversion call is the first
call of the event. -/
theorem nominal_first {G : Type} (E : Engine G) (o : Options) (d : SMTInputData) (g : G) :
    (runInversions E o d g).1.FSList.head? =
        some { Type_ := 'N', Channel := 0,
               FullSolution := (E.solve (InversionNormType o) o.QualityType d).1,
               TraceNullSolution := (E.solve (InversionNormType o) o.QualityType d).2.1,
               DoubleCoupleSolution := (E.solve (InversionNormType o) o.QualityType d).2.2 } ∧
      (runInversions E o d g).1.Calls.head? =
        some ⟨InversionNormType o, o.QualityType, d, 0, 'N'⟩ := by
  obtain ⟨x, hx⟩ := runInversions_FSList_starts E o d g
  obtain ⟨y, hy⟩ := runInversions_Calls_starts E o d g
  rw [hx, hy]
  simp [MTInversion]

/-- C10: at most one resampling branch runs, chosen by priority noise, jackknife,
bootstrap: the types of the entries behind the nominal one are `AmplitudeN` times
`'A'` when the noise flag is set, else one `'J'` per station when the jackknife
flag is set, else `BootstrapSamples` times `'B'` when a bootstrap option was
given, else there is none. All entries behind the nominal one carry the same type. -/
theorem one_resampling_branch {G : Type} (E : Engine G) (o : Options) (d : SMTInputData)
    (g : G) :
    ((runInversions E o d g).1.FSList.tail.map fun e => e.Type_) =
        (if o.NoiseTest = true then List.replicate o.AmplitudeN 'A'
         else if o.JacknifeTest = true then List.replicate d.Count 'J'
         else if o.BootstrapTest = true then List.replicate o.BootstrapSamples 'B'
         else []) ∧
      ∀ e1 ∈ (runInversions E o d g).1.FSList.tail,
        ∀ e2 ∈ (runInversions E o d g).1.FSList.tail, e1.Type_ = e2.Type_ := by
  have ht := runInversions_tags E o d g
  have hmap : ((runInversions E o d g).1.FSList.tail.map fun e => e.Type_) =
      (tagsOf (runInversions E o d g).1.FSList).tail.map Prod.fst := by
    rw [← tagsOf_tail, tagsOf, List.map_map]
    rfl
  have hty : ((runInversions E o d g).1.FSList.tail.map fun e => e.Type_) =
      (if o.NoiseTest = true then List.replicate o.AmplitudeN 'A'
       else if o.JacknifeTest = true then List.replicate d.Count 'J'
       else if o.BootstrapTest = true then List.replicate o.BootstrapSamples 'B'
       else []) := by
    rw [hmap, ht]
    split_ifs <;> simp [List.map_map, Function.comp_def, List.map_const']
  refine ⟨hty, ?_⟩
  intro e1 h1 e2 h2
  have m1 : e1.Type_ ∈ (runInversions E o d g).1.FSList.tail.map fun e => e.Type_ :=
    List.mem_map.mpr ⟨e1, h1, rfl⟩
  have m2 : e2.Type_ ∈ (runInversions E o d g).1.FSList.tail.map fun e => e.Type_ :=
    List.mem_map.mpr ⟨e2, h2, rfl⟩
  rw [hty] at m1 m2
  split_ifs at m1 m2 <;>
    first
    | exact (List.eq_of_mem_replicate m1).trans (List.eq_of_mem_replicate m2).symm
    | exact absurd m1 (List.not_mem_nil _)

/-- C5 (amended): in bootstrap mode with `k = BootstrapSamples` the collection has
`k` entries behind the nominal one; entry `i` (`i = 1..k`) has `Type = 'B'` and
`Channel` equal to `i` converted to a 32 bit `int`, which is `i` itself for every
`i < 2^31`; this holds for every dataset, parameter setting and generator. -/
theorem bootstrap_entries_tagged {G : Type} (E : Engine G) (o : Options) (d : SMTInputData)
    (g : G) (hN : o.NoiseTest = false) (hJ : o.JacknifeTest = false)
    (hB : o.BootstrapTest = true) :
    (runInversions E o d g).1.FSList.length = o.BootstrapSamples + 1 ∧
      ∀ i : Nat, 1 ≤ i → i ≤ o.BootstrapSamples →
        ∃ e, (runInversions E o d g).1.FSList[i]? = some e ∧ e.Type_ = 'B' ∧
          e.Channel = toInt32 (i : Int) ∧ (i < 2147483648 → e.Channel = (i : Int)) := by
  constructor
  · have ht := runInversions_tags E o d g
    simp only [hN, hJ, hB, Bool.false_eq_true, if_false, if_true] at ht
    rw [← tagsOf_length, ht]
    simp
  · intro i h1 h2
    obtain ⟨e, he, hty, hch⟩ := bootstrap_entry E o d g hN hJ hB i h1 h2
    exact ⟨e, he, hty, hch, fun hi => by rw [hch, toInt32_small i hi]⟩

theorem bootstrap_entries_tagged_witness :
    (runInversions counterEngine (rejectOptions 4 (1 / 2)) fiveStations 0).1.FSList.length
        = 4 + 1 ∧
      ∀ i : Nat, 1 ≤ i → i ≤ 4 →
        ∃ e, (runInversions counterEngine (rejectOptions 4 (1 / 2)) fiveStations 0).1.FSList[i]?
            = some e ∧ e.Type_ = 'B' ∧
          e.Channel = toInt32 (i : Int) ∧ (i < 2147483648 → e.Channel = (i : Int)) :=
  bootstrap_entries_tagged counterEngine (rejectOptions 4 (1 / 2)) fiveStations 0 rfl rfl rfl

/-- C5 as stated fails: with `samples = 2^31` the entry number `2^31` of the
bootstrap run has `Channel = -2^31`, not `2^31`. -/
theorem bootstrap_channel_overflow :
    ∃ e, (runInversions counterEngine (rejectOptions 2147483648 0) fiveStations 0).1.FSList[
        2147483648]? = some e ∧ e.Type_ = 'B' ∧ e.Channel = -2147483648 ∧
      e.Channel ≠ 2147483648 := by
  obtain ⟨e, he, hty, hch⟩ := bootstrap_entry counterEngine (rejectOptions 2147483648 0)
    fiveStations 0 rfl rfl rfl 2147483648 (by decide) (Nat.le_refl _)
  have hv : e.Channel = -2147483648 := by
    rw [hch]
    decide
  exact ⟨e, he, hty, hv, by rw [hv]; decide⟩

/-- C2: for a dataset read from an input record with station count `N`, which then
has `N` stations, the jackknife mode yields `N + 1` entries; the `N` entries behind
the nominal one have
`Type = 'J'`, their channels are the station ids in station order (so a
permutation of the ids), the ids are pairwise different, and the dataset inverted
for entry `i + 1` is the nominal dataset without the station at index `i`. -/
theorem jackknife_collection {G σ : Type} (E : Engine G) (I : IStream σ) (o : Options)
    (v : ReadVars) (s : σ) (rd : Reader σ) (g : G)
    (hread : readEvent E I o v s = some rd)
    (hN : o.NoiseTest = false) (hJ : o.JacknifeTest = true) :
    rd.InputData.Count = rd.v.N ∧
      (runInversions E o rd.InputData g).1.FSList.length = rd.v.N + 1 ∧
      (∀ e ∈ (runInversions E o rd.InputData g).1.FSList.tail, e.Type_ = 'J') ∧
      ((runInversions E o rd.InputData g).1.FSList.tail.map fun e => e.Channel)
        = idsOf rd.InputData ∧
      List.Perm ((runInversions E o rd.InputData g).1.FSList.tail.map fun e => e.Channel)
        (idsOf rd.InputData) ∧
      (idsOf rd.InputData).Nodup ∧
      ((runInversions E o rd.InputData g).1.Calls.tail.map fun c => c.data)
        = (List.range rd.InputData.Count).map fun i => rd.InputData.Remove i := by
  have ht := runInversions_tags E o rd.InputData g
  simp only [hN, hJ, Bool.false_eq_true, if_false, if_true] at ht
  have hch : ((runInversions E o rd.InputData g).1.FSList.tail.map fun e => e.Channel)
      = idsOf rd.InputData := by
    have hmap : ((runInversions E o rd.InputData g).1.FSList.tail.map fun e => e.Channel) =
        (tagsOf (runInversions E o rd.InputData g).1.FSList).tail.map Prod.snd := by
      rw [← tagsOf_tail, tagsOf, List.map_map]
      rfl
    rw [hmap, ht, ← jackknife_channels]
    simp [List.map_map, Function.comp_def]
  obtain ⟨hlt, hid⟩ := readEvent_ids E I o v s rd hread
  have hcount : rd.InputData.Count = rd.v.N := by
    have hl := congrArg List.length hid
    simpa [idsOf, SMTInputData.Count] using hl
  refine ⟨hcount, ?_, ?_, hch, hch ▸ List.Perm.refl _, ?_, ?_⟩
  · rw [← tagsOf_length, ht, ← hcount]
    simp
  · intro e he
    have hm := mem_tagsOf he
    rw [tagsOf_tail, ht] at hm
    simp only [List.tail_cons, List.mem_map, Prod.mk.injEq] at hm
    obtain ⟨_, _, h1, _⟩ := hm
    exact h1.symm
  · rw [hid]
    exact ids_nodup rd.v.N hlt
  · rw [jackknife_Calls E o rd.InputData g hN hJ]
    simp [List.map_map, Function.comp_def]

theorem jackknife_collection_witness :
    twoStationData.Count =
        (readStandard counterEngine tokStream initialVars ⟨twoStationRecord, true⟩).v.N ∧
      (runInversions counterEngine jackknifeOptions twoStationData 0).1.FSList.length
        = (readStandard counterEngine tokStream initialVars ⟨twoStationRecord, true⟩).v.N + 1 ∧
      (∀ e ∈ (runInversions counterEngine jackknifeOptions twoStationData 0).1.FSList.tail,
        e.Type_ = 'J') ∧
      ((runInversions counterEngine jackknifeOptions twoStationData 0).1.FSList.tail.map
        fun e => e.Channel) = idsOf twoStationData ∧
      List.Perm ((runInversions counterEngine jackknifeOptions twoStationData 0).1.FSList.tail.map
        fun e => e.Channel) (idsOf twoStationData) ∧
      (idsOf twoStationData).Nodup ∧
      ((runInversions counterEngine jackknifeOptions twoStationData 0).1.Calls.tail.map
        fun c => c.data) = (List.range twoStationData.Count).map fun i => twoStationData.Remove i :=
  jackknife_collection counterEngine tokStream jackknifeOptions initialVars
    ⟨twoStationRecord, true⟩
    (readStandard counterEngine tokStream initialVars ⟨twoStationRecord, true⟩) 0 rfl rfl rfl

/-- C3: the bootstrap mode with `samples = k` and takeoff sigma, reverse share,
reject share and amplitude sigma all 0 yields exactly `k + 1` entries, and every
inversion call of the event, so each of the `k` calls behind the nominal one, gets
the nominal dataset itself. -/
theorem bootstrap_disabled_identity {G : Type} (E : Engine G) (o : Options) (d : SMTInputData)
    (g : G) (hN : o.NoiseTest = false) (hJ : o.JacknifeTest = false)
    (hB : o.BootstrapTest = true)
    (h1 : o.BootstrapTakeoffModifier = 0) (h2 : o.BootstrapPercentReverse = 0)
    (h3 : o.BootstrapPercentReject = 0) (h4 : o.BootstrapAmplitudeModifier = 0) :
    (runInversions E o d g).1.FSList.length = o.BootstrapSamples + 1 ∧
      ((runInversions E o d g).1.Calls.map fun c => c.data)
        = List.replicate (o.BootstrapSamples + 1) d := by
  constructor
  · have ht := runInversions_tags E o d g
    simp only [hN, hJ, hB, Bool.false_eq_true, if_false, if_true] at ht
    rw [← tagsOf_length, ht]
    simp
  · rw [bootstrap_Calls_disabled E o d g hN hJ hB h1 h2 h3 h4]
    simp [List.map_map, Function.comp_def, List.map_const', List.replicate_succ]

theorem bootstrap_disabled_identity_witness :
    (runInversions counterEngine (rejectOptions 3 0) fiveStations 0).1.FSList.length = 3 + 1 ∧
      ((runInversions counterEngine (rejectOptions 3 0) fiveStations 0).1.Calls.map
        fun c => c.data) = List.replicate (3 + 1) fiveStations :=
  bootstrap_disabled_identity counterEngine (rejectOptions 3 0) fiveStations 0
    rfl rfl rfl rfl rfl rfl rfl

/-- C4, the code at the input of the claim: one bootstrap pass with rejection share
1.0 over the five stations with ids 1 to 5 hands the inversion the two stations
with ids 2 and 4, not an empty working set; this holds for every generator. -/
theorem reject_all_five_stations {G : Type} (E : Engine G) (g : G) :
    ((runInversions E (rejectOptions 1 1) fiveStations g).1.Calls.map fun c => idsOf c.data)
      = [[1, 2, 3, 4, 5], [2, 4]] := by
  have a1 : (rejectOptions 1 1).NoiseTest = false := rfl
  have a2 : (rejectOptions 1 1).JacknifeTest = false := rfl
  have a3 : (rejectOptions 1 1).BootstrapTest = true := rfl
  have a4 : (rejectOptions 1 1).BootstrapSamples = 1 := rfl
  simp only [runInversions, a1, a2, a3, a4, Bool.false_eq_true, if_false, if_true,
    forLoop_succ, forLoop_zero, bootstrapIteration, bootstrapLoop, bootstrapStation_rejectAll,
    MTInversion, fiveStations, SMTInputData.Count, SMTInputData.Remove]
  simp [idsOf, station]

/-- C8: when the stream is not good after the read of an event record, the pass
through the loop body runs no inversion and writes nothing: the output, the
record of inversion calls and the generator are as before. -/
theorem failed_read_emits_nothing {G σ : Type} (E : Engine G) (I : IStream σ) (o : Options)
    (st : MainState σ G) (rd : Reader σ)
    (hread : readEvent E I o st.vars st.InputFile = some rd)
    (hbad : I.good rd.InputFile = false) :
    ∃ st1, eventBody E I o st = Step.next st1 ∧ st1.Out = st.Out ∧ st1.Calls = st.Calls ∧
      st1.rng = st.rng :=
  ⟨_, eventBody_failed_read E I o st rd hread hbad, rfl, rfl, rfl⟩

theorem failed_read_emits_nothing_witness :
    ∃ st1, eventBody counterEngine tokStream defaultOptions (initialState badRecord)
        = Step.next st1 ∧
      st1.Out = (initialState badRecord).Out ∧ st1.Calls = (initialState badRecord).Calls ∧
      st1.rng = (initialState badRecord).rng :=
  failed_read_emits_nothing counterEngine tokStream defaultOptions (initialState badRecord)
    (readStandard counterEngine tokStream initialVars ⟨badRecord, true⟩) rfl rfl

/-- C9 (amended): after a failed read the event loop ends and `main` returns 0; the
stream stays as the failed read left it, so no later event is read, inverted or
written. -/
theorem failed_read_ends_run {G σ : Type} (E : Engine G) (I : IStream σ) (o : Options)
    (st : MainState σ G) (rd : Reader σ)
    (hgood : I.good st.InputFile = true)
    (hread : readEvent E I o st.vars st.InputFile = some rd)
    (hbad : I.good rd.InputFile = false) (fuel : Nat) :
    eventLoop E I o (fuel + 1) st =
      Outcome.exit 0 { st with InputFile := rd.InputFile, vars := rd.v } :=
  eventLoop_failed_read E I o st rd hgood hread hbad fuel

theorem failed_read_ends_run_witness :
    eventLoop counterEngine tokStream defaultOptions (2 + 1) (initialState (badRecord ++ goodRecord))
      = Outcome.exit 0
          { initialState (badRecord ++ goodRecord) with
            InputFile :=
              (readStandard counterEngine tokStream initialVars
                ⟨badRecord ++ goodRecord, true⟩).InputFile,
            vars :=
              (readStandard counterEngine tokStream initialVars ⟨badRecord ++ goodRecord, true⟩).v } :=
  failed_read_ends_run counterEngine tokStream defaultOptions
    (initialState (badRecord ++ goodRecord))
    (readStandard counterEngine tokStream initialVars ⟨badRecord ++ goodRecord, true⟩)
    rfl rfl rfl 2

/-- C9 as stated fails: on an input whose first record is malformed and whose
second record is well formed, `main` returns 0 with no inversion run and nothing
written, and the tokens of the second record are still unread; the second record
alone is read and inverted. -/
theorem malformed_record_stops_run :
    (∃ st1, eventLoop counterEngine tokStream defaultOptions 3
          (initialState (badRecord ++ goodRecord)) = Outcome.exit 0 st1 ∧
        st1.Calls = [] ∧ st1.Out = [] ∧
        st1.InputFile.toks = ["10", "20", "30", "5000", "1000", "2700"] ++ goodRecord) ∧
      (∃ st2, eventLoop counterEngine tokStream defaultOptions 3 (initialState goodRecord)
          = Outcome.exit 0 st2 ∧ st2.Calls.length = 1 ∧ st2.InputFile.toks = []) := by
  constructor
  · refine ⟨_, eventLoop_failed_read counterEngine tokStream defaultOptions
      (initialState (badRecord ++ goodRecord))
      (readStandard counterEngine tokStream initialVars ⟨badRecord ++ goodRecord, true⟩)
      rfl rfl rfl 2, rfl, rfl, rfl⟩
  · exact ⟨_, rfl, rfl, rfl⟩

/-! ## Claims on the jackknife, bootstrap and noise iterations -/

theorem jackknifeIteration_FSList {G : Type} (E : Engine G) (o : Options) (fd : SMTInputData)
    (i : Nat) (s : Inversions × G) :
    (jackknifeIteration E o fd i s).1.FSList =
      s.1.FSList ++
        [{ Type_ := 'J', Channel := (fd.Get i).Id,
           FullSolution := (E.solve (InversionNormType o) o.QualityType (fd.Remove i)).1,
           TraceNullSolution := (E.solve (InversionNormType o) o.QualityType (fd.Remove i)).2.1,
           DoubleCoupleSolution :=
             (E.solve (InversionNormType o) o.QualityType (fd.Remove i)).2.2 }] := by
  simp [jackknifeIteration, MTInversion]

/-- In jackknife mode the entries behind the nominal one are, in station order,
the solutions of the dataset without station `i`, tagged with the id of that station. -/
theorem jackknife_FSList {G : Type} (E : Engine G) (o : Options) (d : SMTInputData) (g : G)
    (hN : o.NoiseTest = false) (hJ : o.JacknifeTest = true) :
    (runInversions E o d g).1.FSList =
      { Type_ := 'N', Channel := 0,
        FullSolution := (E.solve (InversionNormType o) o.QualityType d).1,
        TraceNullSolution := (E.solve (InversionNormType o) o.QualityType d).2.1,
        DoubleCoupleSolution := (E.solve (InversionNormType o) o.QualityType d).2.2 } ::
        (List.range d.Count).map fun i =>
          { Type_ := 'J', Channel := (d.Get i).Id,
            FullSolution := (E.solve (InversionNormType o) o.QualityType (d.Remove i)).1,
            TraceNullSolution := (E.solve (InversionNormType o) o.QualityType (d.Remove i)).2.1,
            DoubleCoupleSolution :=
              (E.solve (InversionNormType o) o.QualityType (d.Remove i)).2.2 } := by
  simp only [runInversions, hN, hJ, Bool.false_eq_true, if_false, if_true]
  rw [forLoop_appends (fun s : Inversions × G => s.1.FSList) _ _ (jackknifeIteration_FSList E o d)]
  simp [MTInversion]

/-- C17: for a dataset of `N` stations and `i < N`, the call of jackknife iteration
`i` (collection entry `i + 1`) inverts the nominal dataset with the station at
index `i` taken out: the stations in front of it and behind it, unchanged and in
order, `N - 1` stations; the entry holds the solutions of that dataset and its
`Channel` is the `Id` of the station taken out. -/
theorem jackknife_iteration_dataset {G : Type} (E : Engine G) (o : Options) (d : SMTInputData)
    (g : G) (hN : o.NoiseTest = false) (hJ : o.JacknifeTest = true) (i : Nat)
    (hi : i < d.Count) :
    ∃ removed : SMTInputLine,
      d.lines = d.lines.take i ++ removed :: d.lines.drop (i + 1) ∧
      (d.lines.take i ++ d.lines.drop (i + 1)).length = d.Count - 1 ∧
      (runInversions E o d g).1.Calls[i + 1]? =
        some ⟨InversionNormType o, o.QualityType, ⟨d.lines.take i ++ d.lines.drop (i + 1)⟩,
          removed.Id, 'J'⟩ ∧
      (runInversions E o d g).1.FSList[i + 1]? =
        some { Type_ := 'J', Channel := removed.Id,
               FullSolution := (E.solve (InversionNormType o) o.QualityType
                 ⟨d.lines.take i ++ d.lines.drop (i + 1)⟩).1,
               TraceNullSolution := (E.solve (InversionNormType o) o.QualityType
                 ⟨d.lines.take i ++ d.lines.drop (i + 1)⟩).2.1,
               DoubleCoupleSolution := (E.solve (InversionNormType o) o.QualityType
                 ⟨d.lines.take i ++ d.lines.drop (i + 1)⟩).2.2 } := by
  have hi2 : i < d.lines.length := hi
  have hrem : d.Remove i = ⟨d.lines.take i ++ d.lines.drop (i + 1)⟩ := by
    simp [SMTInputData.Remove, List.eraseIdx_eq_take_drop_succ]
  have hget : d.Get i = d.lines[i] := by
    simp [SMTInputData.Get, List.getElem?_eq_getElem hi2]
  refine ⟨d.lines[i], ?_, ?_, ?_, ?_⟩
  · conv_lhs => rw [← List.take_append_drop i d.lines]
    rw [List.drop_eq_getElem_cons hi2]
  · simp only [List.length_append, List.length_take, List.length_drop, SMTInputData.Count]
    omega
  · rw [jackknife_Calls E o d g hN hJ]
    simp [List.getElem?_range, hi, hrem, hget]
  · rw [jackknife_FSList E o d g hN hJ]
    simp [List.getElem?_range, hi, hrem, hget]

theorem jackknife_iteration_dataset_witness :
    ∃ removed : SMTInputLine,
      fiveStations.lines = fiveStations.lines.take 2 ++ removed :: fiveStations.lines.drop (2 + 1) ∧
      (fiveStations.lines.take 2 ++ fiveStations.lines.drop (2 + 1)).length
        = fiveStations.Count - 1 ∧
      (runInversions counterEngine jackknifeOptions fiveStations 0).1.Calls[2 + 1]? =
        some ⟨InversionNormType jackknifeOptions, jackknifeOptions.QualityType,
          ⟨fiveStations.lines.take 2 ++ fiveStations.lines.drop (2 + 1)⟩, removed.Id, 'J'⟩ ∧
      (runInversions counterEngine jackknifeOptions fiveStations 0).1.FSList[2 + 1]? =
        some { Type_ := 'J', Channel := removed.Id,
               FullSolution := (counterEngine.solve (InversionNormType jackknifeOptions)
                 jackknifeOptions.QualityType
                 ⟨fiveStations.lines.take 2 ++ fiveStations.lines.drop (2 + 1)⟩).1,
               TraceNullSolution := (counterEngine.solve (InversionNormType jackknifeOptions)
                 jackknifeOptions.QualityType
                 ⟨fiveStations.lines.take 2 ++ fiveStations.lines.drop (2 + 1)⟩).2.1,
               DoubleCoupleSolution := (counterEngine.solve (InversionNormType jackknifeOptions)
                 jackknifeOptions.QualityType
                 ⟨fiveStations.lines.take 2 ++ fiveStations.lines.drop (2 + 1)⟩).2.2 } :=
  jackknife_iteration_dataset counterEngine jackknifeOptions fiveStations 0 rfl rfl 2 (by decide)

/-! ## Claims on the text output -/

theorem writtenValues_append (a b : List Write) :
    writtenValues (a ++ b) = writtenValues a ++ writtenValues b := by
  simp [writtenValues]

/-- C15: for each of the thirteen field groups and every solution, the values that
the lowercase letter writes are the values that the uppercase letter writes, the
same number of them, in the same order, with the same signs and to the same file,
when the delimiter of the uppercase form is replaced by that of the lowercase form;
the format strings are the only other difference. The uppercase form writes at
least one value (for `U` when the displacement dump is open). -/
theorem letter_case_same_values (o : Options) (file file2 : String) (ExportU : Bool)
    (S : FaultSolution) :
    ∀ p ∈ letterPairs,
      writtenValues (fieldGroup o file file2 ExportU S p.2) =
        writtenValues
          (fieldGroup { o with FOCIMT_SEP := o.FOCIMT_SEP2 } file file2 ExportU S p.1) ∧
      ((p.1 ≠ 'U' ∨ ExportU = true) →
        writtenValues (fieldGroup o file file2 ExportU S p.1) ≠ []) := by
  intro p hp
  simp only [letterPairs, List.mem_cons, List.mem_singleton, List.not_mem_nil, or_false] at hp
  rcases hp with h | h | h | h | h | h | h | h | h | h | h | h | h <;> subst h <;>
    cases ExportU <;>
    simp [fieldGroup, putSep, putFmt, writtenValues, itemValues, argValue, dumpU, dumpu,
      List.flatMap_append, List.flatMap_assoc, List.range_succ]

theorem letter_case_same_values_witness :
    writtenValues (fieldGroup dumpOptions "evt-dc.asc" "evt-dc-u.asc" true zeroSolution 'c') =
        writtenValues
          (fieldGroup { dumpOptions with FOCIMT_SEP := dumpOptions.FOCIMT_SEP2 } "evt-dc.asc"
            "evt-dc-u.asc" true zeroSolution 'C') ∧
      (('C' ≠ 'U' ∨ true = true) →
        writtenValues (fieldGroup dumpOptions "evt-dc.asc" "evt-dc-u.asc" true zeroSolution 'C')
          ≠ []) :=
  letter_case_same_values dumpOptions "evt-dc.asc" "evt-dc-u.asc" true zeroSolution ('C', 'c')
    (by decide)

/-- With a non-empty format string one pass of the text output is the header, for
entry 0 only, followed by one output row. -/
theorem textOutput_eq {G : Type} (E : Engine G) (o : Options) (fileid : String) (size j : Nat)
    (Type_ : Char) (Channel : Int) (Solution : FaultSolution) (FSuffix : String)
    (hfmt : o.DumpOrder.length ≠ 0) :
    textOutput E o fileid size j Type_ Channel Solution FSuffix =
      (if j = 0 then eventHeader E o fileid size FSuffix else []) ++
        outputRow E o fileid Type_ Channel Solution FSuffix := by
  simp only [textOutput, if_pos hfmt, eventHeader, outputRow, rowFields, provenancePair,
    outName, outName2, exportU]
  simp [List.append_assoc]

theorem exportPictures_true {G : Type} (E : Engine G) (o : Options) (fileid : String)
    (FSList : List FaultSolutions) (d : SMTInputData) (FSuffix : String)
    (h : ∀ a b c e f, E.exportBall a b c e f = true) (fmts : List (String × String)) :
    exportPictures E o fileid FSList d FSuffix fmts = true := by
  induction fmts with
  | nil => rfl
  | cons p rest ih =>
    obtain ⟨fmt, ext⟩ := p
    simp only [exportPictures, h, if_true]
    split_ifs <;> exact ih

/-- When picture export is off or no picture export throws, the picture loop
does not end `main`. -/
theorem exportPictures_ok {G : Type} (E : Engine G) (o : Options) (fileid : String)
    (FSList : List FaultSolutions) (d : SMTInputData) (FSuffix : String) (j : Nat)
    (hpic : E.Pos o.OutputFileType "NONE" ≠ 0 ∨ ∀ a b c e f, E.exportBall a b c e f = true)
    (fmts : List (String × String)) :
    ¬ ((E.Pos o.OutputFileType "NONE" = 0 ∧ j = 0) ∧
        exportPictures E o fileid FSList d FSuffix fmts = false) := by
  rcases hpic with h | h
  · exact fun hc => h hc.1.1
  · intro hc
    rw [exportPictures_true E o fileid FSList d FSuffix h fmts] at hc
    exact Bool.noConfusion hc.2

theorem exportVariants_ok {G : Type} (E : Engine G) (o : Options) (fileid : String)
    (FSList : List FaultSolutions) (d : SMTInputData) (j : Nat) (fs : FaultSolutions)
    (hpic : E.Pos o.OutputFileType "NONE" ≠ 0 ∨ ∀ a b c e f, E.exportBall a b c e f = true)
    (chars : List Char) :
    ∀ (cur : FaultSolution × String) (out : List Write),
      exportVariants E o fileid FSList d j fs chars cur out =
        Flow.next (out ++ (variantChunks E o fileid FSList.length j fs chars cur).flatten) := by
  induction chars with
  | nil => intro cur out; simp [exportVariants, variantChunks]
  | cons ch rest ih =>
    intro cur out
    rw [exportVariants, if_neg (exportPictures_ok E o fileid FSList d _ j hpic Formats), ih]
    simp [variantChunks, List.append_assoc]

theorem exportSolutions_ok {G : Type} (E : Engine G) (o : Options) (fileid : String)
    (FSList : List FaultSolutions) (d : SMTInputData)
    (hpic : E.Pos o.OutputFileType "NONE" ≠ 0 ∨ ∀ a b c e f, E.exportBall a b c e f = true)
    (todo : List FaultSolutions) :
    ∀ (j : Nat) (out : List Write),
      exportSolutions E o fileid FSList d todo j out =
        Flow.next (out ++ (exportChunks E o fileid FSList.length todo j).flatten.flatten) := by
  induction todo with
  | nil => intro j out; simp [exportSolutions, exportChunks]
  | cons fs rest ih =>
    intro j out
    simp only [exportSolutions, exportVariants_ok E o fileid FSList d j fs hpic, ih]
    simp [exportChunks, List.append_assoc]

theorem variantChunks_length {G : Type} (E : Engine G) (o : Options) (fileid : String)
    (size j : Nat) (fs : FaultSolutions) (chars : List Char) :
    ∀ cur, (variantChunks E o fileid size j fs chars cur).length = chars.length := by
  induction chars with
  | nil => intro cur; rfl
  | cons ch rest ih => intro cur; simp [variantChunks, ih]

theorem exportChunks_lengths {G : Type} (E : Engine G) (o : Options) (fileid : String)
    (size : Nat) (todo : List FaultSolutions) :
    ∀ j, (exportChunks E o fileid size todo j).map List.length =
      List.replicate todo.length o.SolutionTypes.length := by
  induction todo with
  | nil => intro j; rfl
  | cons fs rest ih =>
    intro j
    have hl : o.SolutionTypes.length = o.SolutionTypes.data.length := rfl
    rw [exportChunks, List.map_cons, variantChunks_length, ih, List.length_cons,
      List.replicate_succ, hl]

/-- The pass for the character at position `i` writes the text output of the
variant that the `switch` selects there. -/
theorem variantChunks_getElem {G : Type} (E : Engine G) (o : Options) (fileid : String)
    (size j : Nat) (fs : FaultSolutions) (chars : List Char) :
    ∀ (cur : FaultSolution × String) (i : Nat) (ch : Char), chars[i]? = some ch →
      ∃ prev : FaultSolution × String,
        (variantChunks E o fileid size j fs chars cur)[i]? =
          some (textOutput E o fileid size j fs.Type_ fs.Channel
            (selectVariant fs ch prev).1 (selectVariant fs ch prev).2) := by
  induction chars with
  | nil => intro cur i ch h; simp at h
  | cons c rest ih =>
    intro cur i ch h
    cases i with
    | zero =>
      simp only [List.getElem?_cons_zero, Option.some.injEq] at h
      subst h
      exact ⟨cur, by simp [variantChunks]⟩
    | succ k =>
      simp only [List.getElem?_cons_succ] at h
      obtain ⟨prev, hp⟩ := ih (selectVariant fs c cur) k ch h
      exact ⟨prev, by simpa [variantChunks] using hp⟩

theorem exportChunks_getElem {G : Type} (E : Engine G) (o : Options) (fileid : String)
    (size : Nat) (todo : List FaultSolutions) :
    ∀ (j0 k : Nat) (fs : FaultSolutions), todo[k]? = some fs →
      (exportChunks E o fileid size todo j0)[k]? =
        some (variantChunks E o fileid size (j0 + k) fs o.SolutionTypes.data
          (fs.DoubleCoupleSolution, "dc")) := by
  induction todo with
  | nil => intro j0 k fs h; simp at h
  | cons f rest ih =>
    intro j0 k fs h
    cases k with
    | zero =>
      simp only [List.getElem?_cons_zero, Option.some.injEq] at h
      subst h
      simp [exportChunks]
    | succ m =>
      simp only [List.getElem?_cons_succ] at h
      have := ih (j0 + 1) m fs h
      simp only [exportChunks, List.getElem?_cons_succ, this]
      congr 2
      omega

/-- The pass for entry `j` and the character at position `i`: the header for
entry 0, then one output row of the entry with the variant selected there. -/
theorem chunkAt_export {G : Type} (E : Engine G) (o : Options) (fileid : String)
    (FSList : List FaultSolutions) (hfmt : o.DumpOrder.length ≠ 0)
    (j i : Nat) (fs : FaultSolutions) (ch : Char)
    (hj : FSList[j]? = some fs) (hi : o.SolutionTypes.data[i]? = some ch) :
    ∃ prev : FaultSolution × String,
      chunkAt (exportChunks E o fileid FSList.length FSList 0) j i =
        some ((if j = 0 then eventHeader E o fileid FSList.length (selectVariant fs ch prev).2
               else []) ++
          outputRow E o fileid fs.Type_ fs.Channel (selectVariant fs ch prev).1
            (selectVariant fs ch prev).2) := by
  obtain ⟨prev, hp⟩ := variantChunks_getElem E o fileid FSList.length j fs o.SolutionTypes.data
    (fs.DoubleCoupleSolution, "dc") i ch hi
  refine ⟨prev, ?_⟩
  have h1 := exportChunks_getElem E o fileid FSList.length FSList 0 j fs hj
  rw [Nat.zero_add] at h1
  rw [chunkAt, h1, Option.some_bind, hp, textOutput_eq E o fileid _ _ _ _ _ _ hfmt]

/-- C12: with a non-empty format string, and picture export off or not throwing,
every row that the export loop writes starts with the provenance pair of its
collection entry, in front of every field group: the entry's `Type` character, a
separator and the entry's `Channel`, formatted `%c%s%d` with `FOCIMT_SEP` for an
uppercase-only format string and `%c%s%5d` with `FOCIMT_SEP2` for one that holds a
lowercase letter. -/
theorem row_starts_with_provenance {G : Type} (E : Engine G) (o : Options) (fileid : String)
    (FSList : List FaultSolutions) (d : SMTInputData) (out0 : List Write)
    (hfmt : o.DumpOrder.length ≠ 0)
    (hpic : E.Pos o.OutputFileType "NONE" ≠ 0 ∨ ∀ a b c e f, E.exportBall a b c e f = true) :
    exportSolutions E o fileid FSList d FSList 0 out0 =
        Flow.next (out0 ++ (exportChunks E o fileid FSList.length FSList 0).flatten.flatten) ∧
      ∀ (j i : Nat) (fs : FaultSolutions) (ch : Char),
        FSList[j]? = some fs → o.SolutionTypes.data[i]? = some ch →
        ∃ (sel : FaultSolution × String) (pair : OutItem),
          chunkAt (exportChunks E o fileid FSList.length FSList 0) j i =
            some ((if j = 0 then eventHeader E o fileid FSList.length sel.2 else []) ++
              ⟨outName o fileid sel.2, pair⟩ ::
                ((if exportU E o = true then [⟨outName2 o fileid sel.2, pair⟩] else []) ++
                 rowFields E o fileid sel.1 sel.2 ++
                 [⟨outName o fileid sel.2, OutItem.text o.FOCIMT_NEWLINE⟩])) ∧
          (Formatted o = false →
            pair = OutItem.sprintf "%c%s%d"
              [Arg.c fs.Type_, Arg.s o.FOCIMT_SEP, Arg.d fs.Channel]) ∧
          (Formatted o = true →
            pair = OutItem.sprintf "%c%s%5d"
              [Arg.c fs.Type_, Arg.s o.FOCIMT_SEP2, Arg.d fs.Channel]) := by
  refine ⟨exportSolutions_ok E o fileid FSList d hpic FSList 0 out0, ?_⟩
  intro j i fs ch hj hi
  obtain ⟨prev, hp⟩ := chunkAt_export E o fileid FSList hfmt j i fs ch hj hi
  refine ⟨selectVariant fs ch prev, provenancePair o fs.Type_ fs.Channel, hp, ?_, ?_⟩ <;>
    intro h <;> simp [provenancePair, h]

theorem row_starts_with_provenance_witness :
    exportSolutions counterEngine formattedOptions "evt3" exampleCollection twoStationData
          exampleCollection 0 [] =
        Flow.next ([] ++ (exportChunks counterEngine formattedOptions "evt3"
          exampleCollection.length exampleCollection 0).flatten.flatten) ∧
      ∀ (j i : Nat) (fs : FaultSolutions) (ch : Char),
        exampleCollection[j]? = some fs → formattedOptions.SolutionTypes.data[i]? = some ch →
        ∃ (sel : FaultSolution × String) (pair : OutItem),
          chunkAt (exportChunks counterEngine formattedOptions "evt3" exampleCollection.length
              exampleCollection 0) j i =
            some ((if j = 0 then eventHeader counterEngine formattedOptions "evt3"
                exampleCollection.length sel.2 else []) ++
              ⟨outName formattedOptions "evt3" sel.2, pair⟩ ::
                ((if exportU counterEngine formattedOptions = true
                    then [⟨outName2 formattedOptions "evt3" sel.2, pair⟩] else []) ++
                 rowFields counterEngine formattedOptions "evt3" sel.1 sel.2 ++
                 [⟨outName formattedOptions "evt3" sel.2,
                   OutItem.text formattedOptions.FOCIMT_NEWLINE⟩])) ∧
          (Formatted formattedOptions = false →
            pair = OutItem.sprintf "%c%s%d"
              [Arg.c fs.Type_, Arg.s formattedOptions.FOCIMT_SEP, Arg.d fs.Channel]) ∧
          (Formatted formattedOptions = true →
            pair = OutItem.sprintf "%c%s%5d"
              [Arg.c fs.Type_, Arg.s formattedOptions.FOCIMT_SEP2, Arg.d fs.Channel]) :=
  row_starts_with_provenance counterEngine formattedOptions "evt3" exampleCollection
    twoStationData [] (by decide) (Or.inl (by decide))

/-- C13: with a non-empty format string, and picture export off or not throwing,
for each character of the variant list the header, which holds the event
identifier, a separator and the number of entries of the collection, is written in
the pass for collection entry 0, right in front of that entry's row, and the pass
for any other entry writes the row alone. -/
theorem header_before_entry_zero {G : Type} (E : Engine G) (o : Options) (fileid : String)
    (FSList : List FaultSolutions) (d : SMTInputData) (out0 : List Write)
    (hfmt : o.DumpOrder.length ≠ 0)
    (hpic : E.Pos o.OutputFileType "NONE" ≠ 0 ∨ ∀ a b c e f, E.exportBall a b c e f = true) :
    exportSolutions E o fileid FSList d FSList 0 out0 =
        Flow.next (out0 ++ (exportChunks E o fileid FSList.length FSList 0).flatten.flatten) ∧
      ∀ (i : Nat) (ch : Char), o.SolutionTypes.data[i]? = some ch →
        (∀ fs : FaultSolutions, FSList[0]? = some fs →
          ∃ sel : FaultSolution × String,
            chunkAt (exportChunks E o fileid FSList.length FSList 0) 0 i =
              some ([⟨outName o fileid sel.2, OutItem.text fileid⟩,
                     ⟨outName o fileid sel.2, OutItem.text o.FOCIMT_SEP⟩,
                     ⟨outName o fileid sel.2, OutItem.size FSList.length⟩,
                     ⟨outName o fileid sel.2, OutItem.endl⟩] ++
                    (if exportU E o = true then
                      [⟨outName2 o fileid sel.2, OutItem.text fileid⟩,
                       ⟨outName2 o fileid sel.2, OutItem.text o.FOCIMT_SEP⟩,
                       ⟨outName2 o fileid sel.2, OutItem.size FSList.length⟩,
                       ⟨outName2 o fileid sel.2, OutItem.endl⟩]
                     else []) ++
                    outputRow E o fileid fs.Type_ fs.Channel sel.1 sel.2)) ∧
        (∀ (j : Nat) (fs : FaultSolutions), j ≠ 0 → FSList[j]? = some fs →
          ∃ sel : FaultSolution × String,
            chunkAt (exportChunks E o fileid FSList.length FSList 0) j i =
              some (outputRow E o fileid fs.Type_ fs.Channel sel.1 sel.2)) := by
  refine ⟨exportSolutions_ok E o fileid FSList d hpic FSList 0 out0, ?_⟩
  intro i ch hi
  constructor
  · intro fs h0
    obtain ⟨prev, hp⟩ := chunkAt_export E o fileid FSList hfmt 0 i fs ch h0 hi
    exact ⟨selectVariant fs ch prev, by rw [hp]; simp [eventHeader]⟩
  · intro j fs hj0 hj
    obtain ⟨prev, hp⟩ := chunkAt_export E o fileid FSList hfmt j i fs ch hj hi
    exact ⟨selectVariant fs ch prev, by rw [hp]; simp [hj0]⟩

theorem header_before_entry_zero_witness :
    exportSolutions counterEngine dumpOptions "evt3" exampleCollection twoStationData
          exampleCollection 0 [] =
        Flow.next ([] ++ (exportChunks counterEngine dumpOptions "evt3"
          exampleCollection.length exampleCollection 0).flatten.flatten) ∧
      ∀ (i : Nat) (ch : Char), dumpOptions.SolutionTypes.data[i]? = some ch →
        (∀ fs : FaultSolutions, exampleCollection[0]? = some fs →
          ∃ sel : FaultSolution × String,
            chunkAt (exportChunks counterEngine dumpOptions "evt3" exampleCollection.length
                exampleCollection 0) 0 i =
              some ([⟨outName dumpOptions "evt3" sel.2, OutItem.text "evt3"⟩,
                     ⟨outName dumpOptions "evt3" sel.2, OutItem.text dumpOptions.FOCIMT_SEP⟩,
                     ⟨outName dumpOptions "evt3" sel.2, OutItem.size exampleCollection.length⟩,
                     ⟨outName dumpOptions "evt3" sel.2, OutItem.endl⟩] ++
                    (if exportU counterEngine dumpOptions = true then
                      [⟨outName2 dumpOptions "evt3" sel.2, OutItem.text "evt3"⟩,
                       ⟨outName2 dumpOptions "evt3" sel.2, OutItem.text dumpOptions.FOCIMT_SEP⟩,
                       ⟨outName2 dumpOptions "evt3" sel.2,
                         OutItem.size exampleCollection.length⟩,
                       ⟨outName2 dumpOptions "evt3" sel.2, OutItem.endl⟩]
                     else []) ++
                    outputRow counterEngine dumpOptions "evt3" fs.Type_ fs.Channel sel.1 sel.2)) ∧
        (∀ (j : Nat) (fs : FaultSolutions), j ≠ 0 → exampleCollection[j]? = some fs →
          ∃ sel : FaultSolution × String,
            chunkAt (exportChunks counterEngine dumpOptions "evt3" exampleCollection.length
                exampleCollection 0) j i =
              some (outputRow counterEngine dumpOptions "evt3" fs.Type_ fs.Channel sel.1 sel.2)) :=
  header_before_entry_zero counterEngine dumpOptions "evt3" exampleCollection twoStationData []
    (by decide) (Or.inl (by decide))

/-- C14: for a nominal-only run, variant list `D` and format string `MDQ*`, with
picture export off or not throwing, the export writes to the DoubleCouple file the
header and then one row: the provenance `N`, separator, `0`, then separator and
value for `M11`, `M12`, `M13`, `M22`, `M23`, `M33`, for `EXPL`, `CLVD`, `DBCP` and for
`QI` of the DoubleCouple solution of the dataset, in this order, then the line
break of the `*` marker and the line end of the row. -/
theorem end_to_end_row {G : Type} (E : Engine G) (o : Options) (d : SMTInputData) (g : G)
    (fileid : String) (out0 : List Write)
    (hN : o.NoiseTest = false) (hJ : o.JacknifeTest = false) (hB : o.BootstrapTest = false)
    (hfmt : o.DumpOrder = "MDQ*") (hvar : o.SolutionTypes = "D")
    (hU : E.Pos "MDQ*" "U" = 0) (hu : E.Pos "MDQ*" "u" = 0)
    (hpic : E.Pos o.OutputFileType "NONE" ≠ 0 ∨ ∀ a b c e f, E.exportBall a b c e f = true) :
    exportSolutions E o fileid (runInversions E o d g).1.FSList d
        (runInversions E o d g).1.FSList 0 out0 =
      Flow.next (out0 ++
        [⟨outName o fileid "dc", OutItem.text fileid⟩,
         ⟨outName o fileid "dc", OutItem.text o.FOCIMT_SEP⟩,
         ⟨outName o fileid "dc", OutItem.size 1⟩,
         ⟨outName o fileid "dc", OutItem.endl⟩,
         ⟨outName o fileid "dc",
           OutItem.sprintf "%c%s%d" [Arg.c 'N', Arg.s o.FOCIMT_SEP, Arg.d 0]⟩,
         ⟨outName o fileid "dc", OutItem.text o.FOCIMT_SEP⟩,
         ⟨outName o fileid "dc",
           OutItem.dbl ((E.solve (InversionNormType o) o.QualityType d).2.2.M 1 1)⟩,
         ⟨outName o fileid "dc", OutItem.text o.FOCIMT_SEP⟩,
         ⟨outName o fileid "dc",
           OutItem.dbl ((E.solve (InversionNormType o) o.QualityType d).2.2.M 1 2)⟩,
         ⟨outName o fileid "dc", OutItem.text o.FOCIMT_SEP⟩,
         ⟨outName o fileid "dc",
           OutItem.dbl ((E.solve (InversionNormType o) o.QualityType d).2.2.M 1 3)⟩,
         ⟨outName o fileid "dc", OutItem.text o.FOCIMT_SEP⟩,
         ⟨outName o fileid "dc",
           OutItem.dbl ((E.solve (InversionNormType o) o.QualityType d).2.2.M 2 2)⟩,
         ⟨outName o fileid "dc", OutItem.text o.FOCIMT_SEP⟩,
         ⟨outName o fileid "dc",
           OutItem.dbl ((E.solve (InversionNormType o) o.QualityType d).2.2.M 2 3)⟩,
         ⟨outName o fileid "dc", OutItem.text o.FOCIMT_SEP⟩,
         ⟨outName o fileid "dc",
           OutItem.dbl ((E.solve (InversionNormType o) o.QualityType d).2.2.M 3 3)⟩,
         ⟨outName o fileid "dc", OutItem.text o.FOCIMT_SEP⟩,
         ⟨outName o fileid "dc",
           OutItem.dbl (E.solve (InversionNormType o) o.QualityType d).2.2.EXPL⟩,
         ⟨outName o fileid "dc", OutItem.text o.FOCIMT_SEP⟩,
         ⟨outName o fileid "dc",
           OutItem.dbl (E.solve (InversionNormType o) o.QualityType d).2.2.CLVD⟩,
         ⟨outName o fileid "dc", OutItem.text o.FOCIMT_SEP⟩,
         ⟨outName o fileid "dc",
           OutItem.dbl (E.solve (InversionNormType o) o.QualityType d).2.2.DBCP⟩,
         ⟨outName o fileid "dc", OutItem.text o.FOCIMT_SEP⟩,
         ⟨outName o fileid "dc",
           OutItem.dbl (E.solve (InversionNormType o) o.QualityType d).2.2.QI⟩,
         ⟨outName o fileid "dc", OutItem.text o.FOCIMT_NEWLINE⟩,
         ⟨outName o fileid "dc", OutItem.text o.FOCIMT_NEWLINE⟩]) := by
  have hd : o.DumpOrder.data = ['M', 'D', 'Q', '*'] := by rw [hfmt]
  have hlen : o.DumpOrder.length ≠ 0 := by rw [hfmt]; decide
  have hF : Formatted o = false := by unfold Formatted; rw [hd]; decide
  have hvd : o.SolutionTypes.data = ['D'] := by rw [hvar]
  have hX : exportU E o = false := by simp [exportU, hfmt, hU, hu]
  have hfs : (runInversions E o d g).1.FSList =
      [{ Type_ := 'N', Channel := 0,
         FullSolution := (E.solve (InversionNormType o) o.QualityType d).1,
         TraceNullSolution := (E.solve (InversionNormType o) o.QualityType d).2.1,
         DoubleCoupleSolution := (E.solve (InversionNormType o) o.QualityType d).2.2 }] := by
    simp only [runInversions, hN, hJ, hB, Bool.false_eq_true, if_false, MTInversion,
      List.nil_append]
  rw [exportSolutions_ok E o fileid _ d hpic, hfs]
  simp only [exportChunks, variantChunks, hvd, textOutput_eq E o fileid _ _ _ _ _ _ hlen,
    if_true, eventHeader, outputRow, rowFields, provenancePair, hF, hX, hd, selectVariant]
  simp [fieldGroup, putSep]

theorem end_to_end_row_witness :
    exportSolutions counterEngine dumpOptions "evt001"
        (runInversions counterEngine dumpOptions twoStationData 0).1.FSList twoStationData
        (runInversions counterEngine dumpOptions twoStationData 0).1.FSList 0 [] =
      Flow.next ([] ++
        [⟨outName dumpOptions "evt001" "dc", OutItem.text "evt001"⟩,
         ⟨outName dumpOptions "evt001" "dc", OutItem.text dumpOptions.FOCIMT_SEP⟩,
         ⟨outName dumpOptions "evt001" "dc", OutItem.size 1⟩,
         ⟨outName dumpOptions "evt001" "dc", OutItem.endl⟩,
         ⟨outName dumpOptions "evt001" "dc",
           OutItem.sprintf "%c%s%d" [Arg.c 'N', Arg.s dumpOptions.FOCIMT_SEP, Arg.d 0]⟩,
         ⟨outName dumpOptions "evt001" "dc", OutItem.text dumpOptions.FOCIMT_SEP⟩,
         ⟨outName dumpOptions "evt001" "dc",
           OutItem.dbl ((counterEngine.solve (InversionNormType dumpOptions)
             dumpOptions.QualityType twoStationData).2.2.M 1 1)⟩,
         ⟨outName dumpOptions "evt001" "dc", OutItem.text dumpOptions.FOCIMT_SEP⟩,
         ⟨outName dumpOptions "evt001" "dc",
           OutItem.dbl ((counterEngine.solve (InversionNormType dumpOptions)
             dumpOptions.QualityType twoStationData).2.2.M 1 2)⟩,
         ⟨outName dumpOptions "evt001" "dc", OutItem.text dumpOptions.FOCIMT_SEP⟩,
         ⟨outName dumpOptions "evt001" "dc",
           OutItem.dbl ((counterEngine.solve (InversionNormType dumpOptions)
             dumpOptions.QualityType twoStationData).2.2.M 1 3)⟩,
         ⟨outName dumpOptions "evt001" "dc", OutItem.text dumpOptions.FOCIMT_SEP⟩,
         ⟨outName dumpOptions "evt001" "dc",
           OutItem.dbl ((counterEngine.solve (InversionNormType dumpOptions)
             dumpOptions.QualityType twoStationData).2.2.M 2 2)⟩,
         ⟨outName dumpOptions "evt001" "dc", OutItem.text dumpOptions.FOCIMT_SEP⟩,
         ⟨outName dumpOptions "evt001" "dc",
           OutItem.dbl ((counterEngine.solve (InversionNormType dumpOptions)
             dumpOptions.QualityType twoStationData).2.2.M 2 3)⟩,
         ⟨outName dumpOptions "evt001" "dc", OutItem.text dumpOptions.FOCIMT_SEP⟩,
         ⟨outName dumpOptions "evt001" "dc",
           OutItem.dbl ((counterEngine.solve (InversionNormType dumpOptions)
             dumpOptions.QualityType twoStationData).2.2.M 3 3)⟩,
         ⟨outName dumpOptions "evt001" "dc", OutItem.text dumpOptions.FOCIMT_SEP⟩,
         ⟨outName dumpOptions "evt001" "dc",
           OutItem.dbl (counterEngine.solve (InversionNormType dumpOptions)
             dumpOptions.QualityType twoStationData).2.2.EXPL⟩,
         ⟨outName dumpOptions "evt001" "dc", OutItem.text dumpOptions.FOCIMT_SEP⟩,
         ⟨outName dumpOptions "evt001" "dc",
           OutItem.dbl (counterEngine.solve (InversionNormType dumpOptions)
             dumpOptions.QualityType twoStationData).2.2.CLVD⟩,
         ⟨outName dumpOptions "evt001" "dc", OutItem.text dumpOptions.FOCIMT_SEP⟩,
         ⟨outName dumpOptions "evt001" "dc",
           OutItem.dbl (counterEngine.solve (InversionNormType dumpOptions)
             dumpOptions.QualityType twoStationData).2.2.DBCP⟩,
         ⟨outName dumpOptions "evt001" "dc", OutItem.text dumpOptions.FOCIMT_SEP⟩,
         ⟨outName dumpOptions "evt001" "dc",
           OutItem.dbl (counterEngine.solve (InversionNormType dumpOptions)
             dumpOptions.QualityType twoStationData).2.2.QI⟩,
         ⟨outName dumpOptions "evt001" "dc", OutItem.text dumpOptions.FOCIMT_NEWLINE⟩,
         ⟨outName dumpOptions "evt001" "dc", OutItem.text dumpOptions.FOCIMT_NEWLINE⟩]) :=
  end_to_end_row counterEngine dumpOptions twoStationData 0 "evt001" []
    rfl rfl rfl rfl rfl rfl rfl (Or.inl (by decide))

/-! ## Claims on the bootstrap station loop -/

theorem Get_at (pre rest : List SMTInputLine) (x : SMTInputLine) :
    (⟨pre ++ x :: rest⟩ : SMTInputData).Get pre.length = x := by
  simp only [SMTInputData.Get, List.getD_eq_getElem?_getD]
  rw [List.getElem?_append_right (Nat.le_refl _)]
  simp

theorem Set_at (pre rest : List SMTInputLine) (x v : SMTInputLine) :
    (⟨pre ++ x :: rest⟩ : SMTInputData).Set pre.length v = ⟨pre ++ v :: rest⟩ := by
  simp [SMTInputData.Set]

theorem Remove_at (pre rest : List SMTInputLine) (x : SMTInputLine) :
    (⟨pre ++ x :: rest⟩ : SMTInputData).Remove pre.length = ⟨pre ++ rest⟩ := by
  simp [SMTInputData.Remove, List.eraseIdx_append_of_length_le]

/-- The body of the station loop at working index `j` acts on the station at that
index alone, as `evaluateStation` says. -/
theorem bootstrapStation_eq {G : Type} (E : Engine G) (o : Options) (j : Nat)
    (s : SMTInputData × G) (pre rest : List SMTInputLine) (x : SMTInputLine)
    (hs : s.1.lines = pre ++ x :: rest) (hj : pre.length = j) :
    bootstrapStation E o j s =
      (⟨pre ++ (match (evaluateStation E o x s.2).1 with
                | none => rest
                | some x' => x' :: rest)⟩,
       (evaluateStation E o x s.2).2) := by
  obtain ⟨⟨l⟩, g⟩ := s
  simp only at hs
  subst hs
  subst hj
  simp only [bootstrapStation, bootstrapTakeoff, bootstrapReverse, bootstrapAmplitude,
    bootstrapReject, evaluateStation]
  by_cases h1 : o.BootstrapTakeoffModifier > 0 <;>
    by_cases h2 : o.BootstrapPercentReverse > 0 <;>
    by_cases h3 : o.BootstrapAmplitudeModifier > 0 <;>
    by_cases h4 : o.BootstrapPercentReject > 0 <;>
    simp only [h1, h2, h3, h4, if_true, if_false, true_and, false_and, Get_at, Set_at] <;>
    split_ifs <;>
    simp only [Get_at, Set_at, Remove_at, mul_neg, mul_one]

theorem lines_split (l : List SMTInputLine) (j : Nat) (h : j < l.length) :
    l = l.take j ++ l[j] :: l.drop (j + 1) ∧ (l.take j).length = j := by
  constructor
  · conv_lhs => rw [← List.take_append_drop j l]
    rw [List.drop_eq_getElem_cons h]
  · rw [List.length_take]
    omega

/-- The stations from the working index on are stations of the nominal dataset that
no pass of the loop has touched. -/
theorem reached_suffix {G : Type} (E : Engine G) (o : Options) (d : SMTInputData) (g : G)
    (j : Nat) (s : SMTInputData × G) (h : Reached E o d g j s) :
    ∃ k, s.1.lines.drop j = d.lines.drop k := by
  induction h with
  | start => exact ⟨0, rfl⟩
  | step j s _ hlt ih =>
    obtain ⟨k, hk⟩ := ih
    obtain ⟨hsplit, hlen⟩ := lines_split s.1.lines j hlt
    have hb := bootstrapStation_eq E o j s _ _ _ hsplit hlen
    have hd1 : s.1.lines.drop (j + 1) = d.lines.drop (k + 1) := by
      have : s.1.lines.drop (j + 1) = (s.1.lines.drop j).drop 1 := by
        rw [List.drop_drop, Nat.add_comm]
      rw [this, hk, List.drop_drop, Nat.add_comm]
    rw [hb]
    cases (evaluateStation E o s.1.lines[j] s.2).1 with
    | none =>
      refine ⟨k + 2, ?_⟩
      have h2 : d.lines.drop (k + 2) = (d.lines.drop (k + 1)).drop 1 := by
        rw [List.drop_drop]
      simp only
      rw [h2, ← hd1]
      have h3 : (List.take j s.1.lines ++ List.drop (j + 1) s.1.lines).drop (j + 1) =
          (List.drop (j + 1) s.1.lines).drop 1 := by
        rw [List.drop_append_eq_append_drop, hlen]
        have : List.drop (j + 1) (List.take j s.1.lines) = [] := by
          apply List.drop_eq_nil_of_le
          omega
        simp [this]
      exact h3
    | some x' =>
      refine ⟨k + 1, ?_⟩
      simp only
      rw [← hd1]
      have h3 : (List.take j s.1.lines ++ x' :: List.drop (j + 1) s.1.lines).drop (j + 1) =
          List.drop (j + 1) s.1.lines := by
        rw [List.drop_append_eq_append_drop, hlen]
        have : List.drop (j + 1) (List.take j s.1.lines) = [] := by
          apply List.drop_eq_nil_of_le
          omega
        simp [this]
      exact h3

/-- The station loop from working index `j` on leaves the stations in front of
index `j` as they are. -/
theorem bootstrapLoop_keeps_front {G : Type} (E : Engine G) (o : Options) (fuel : Nat) :
    ∀ (j : Nat) (s : SMTInputData × G),
      (bootstrapLoop E o fuel j s).1.lines.take j = s.1.lines.take j := by
  induction fuel with
  | zero => intro j s; rfl
  | succ n ih =>
    intro j s
    rw [bootstrapLoop]
    split_ifs with hlt
    · obtain ⟨hsplit, hlen⟩ := lines_split s.1.lines j hlt
      have hb := bootstrapStation_eq E o j s _ _ _ hsplit hlen
      have h1 := ih (j + 1) (bootstrapStation E o j s)
      have h2 : (bootstrapLoop E o n (j + 1) (bootstrapStation E o j s)).1.lines.take j =
          ((bootstrapStation E o j s).1.lines.take (j + 1)).take j := by
        rw [← h1, List.take_take]
        congr 1
        omega
      rw [h2, List.take_take, hb]
      have hm : min j (j + 1) = j := by omega
      rw [hm]
      simp only
      rw [List.take_append_of_le_length (by omega), List.take_of_length_le (by omega)]
    · rfl

/-- The working set that a bootstrap pass hands to the inversion is what the
station loop makes of any state the pass comes through. -/
theorem reached_result {G : Type} (E : Engine G) (o : Options) (d : SMTInputData) (g : G)
    (j : Nat) (s : SMTInputData × G) (h : Reached E o d g j s) :
    bootstrapLoop E o d.Count 0 (d, g) = bootstrapLoop E o (s.1.Count - j) j s := by
  induction h with
  | start => rfl
  | step j s _ hlt ih =>
    have hle := bootstrapStation_Count_le E o j s
    have e1 : s.1.Count - j = (s.1.Count - j - 1) + 1 := by omega
    rw [ih, e1, bootstrapLoop, if_pos hlt]
    have e2 : s.1.Count - j - 1 =
        ((bootstrapStation E o j s).1.Count - (j + 1)) +
          (s.1.Count - j - 1 - ((bootstrapStation E o j s).1.Count - (j + 1))) := by omega
    rw [e2]
    exact bootstrapLoop_enough_fuel E o _ _ (j + 1) _ (Nat.le_refl _)

/-- C16: in a bootstrap pass over the nominal dataset `d`, when the loop stands at
working index `j` in front of the stations `x`, `y`, `rest` and the station `x` at
index `j` is rejected, the body only takes `x` out, so `y` moves into slot `j` with
the values it has in the nominal dataset; the loop goes on at index `j + 1`, in
front of `rest`, the stations that were at index `j + 2` and behind; and the working
set handed to the inversion still holds `y` in slot `j` with these values: `y` got
no perturbation and no rejection test. -/
theorem rejection_skips_next_station {G : Type} (E : Engine G) (o : Options)
    (d : SMTInputData) (g : G) (j : Nat) (s : SMTInputData × G)
    (pre rest : List SMTInputLine) (x y : SMTInputLine)
    (hreach : Reached E o d g j s)
    (hs : s.1.lines = pre ++ x :: y :: rest) (hj : pre.length = j)
    (hrej : (bootstrapStation E o j s).1.Count < s.1.Count) :
    (bootstrapStation E o j s).1.lines = pre ++ y :: rest ∧
      (∃ k, d.lines.drop k = x :: y :: rest) ∧
      Reached E o d g (j + 1) (bootstrapStation E o j s) ∧
      (bootstrapStation E o j s).1.lines.drop (j + 1) = rest ∧
      (bootstrapLoop E o d.Count 0 (d, g)).1.lines.take (j + 1) = pre ++ [y] := by
  have hlt : j < s.1.Count := by
    simp only [SMTInputData.Count, hs, List.length_append, List.length_cons]
    omega
  have hb := bootstrapStation_eq E o j s pre (y :: rest) x hs hj
  have hlines : (bootstrapStation E o j s).1.lines = pre ++ y :: rest := by
    rw [hb] at hrej ⊢
    cases hev : (evaluateStation E o x s.2).1 with
    | none => rfl
    | some x' =>
      rw [hev] at hrej
      simp only [SMTInputData.Count, hs, List.length_append, List.length_cons] at hrej
      omega
  have hnext : Reached E o d g (j + 1) (bootstrapStation E o j s) :=
    Reached.step j s hreach hlt
  refine ⟨hlines, ?_, hnext, ?_, ?_⟩
  · obtain ⟨k, hk⟩ := reached_suffix E o d g j s hreach
    refine ⟨k, ?_⟩
    rw [← hk, hs, ← hj, List.drop_left]
  · rw [hlines, ← hj]
    have : pre ++ y :: rest = (pre ++ [y]) ++ rest := by simp
    rw [this]
    have hl : (pre ++ [y]).length = pre.length + 1 := by simp
    rw [← hl, List.drop_left]
  · rw [reached_result E o d g (j + 1) _ hnext, bootstrapLoop_keeps_front, hlines, ← hj]
    have : pre ++ y :: rest = (pre ++ [y]) ++ rest := by simp
    rw [this]
    have hl : (pre ++ [y]).length = pre.length + 1 := by simp
    rw [← hl, List.take_left]

theorem rejection_skips_next_station_witness :
    (bootstrapStation counterEngine (rejectOptions 1 1) 0 (fiveStations, 0)).1.lines
        = [] ++ station 2 :: [station 3, station 4, station 5] ∧
      (∃ k, fiveStations.lines.drop k
        = station 1 :: station 2 :: [station 3, station 4, station 5]) ∧
      Reached counterEngine (rejectOptions 1 1) fiveStations 0 (0 + 1)
        (bootstrapStation counterEngine (rejectOptions 1 1) 0 (fiveStations, 0)) ∧
      (bootstrapStation counterEngine (rejectOptions 1 1) 0 (fiveStations, 0)).1.lines.drop (0 + 1)
        = [station 3, station 4, station 5] ∧
      (bootstrapLoop counterEngine (rejectOptions 1 1) fiveStations.Count 0
        (fiveStations, 0)).1.lines.take (0 + 1) = [] ++ [station 2] :=
  rejection_skips_next_station counterEngine (rejectOptions 1 1) fiveStations 0 0
    (fiveStations, 0) [] [station 3, station 4, station 5] (station 1) (station 2)
    Reached.start rfl rfl
    (by rw [bootstrapStation_rejectAll]; decide)

/-- C18: the body of the bootstrap station loop at working index `j` acts on the
station `x` at that index as the specification says, in the order takeoff,
polarity, amplitude, rejection, each step only when its parameter is `> 0` and with
no draw otherwise: the takeoff becomes takeoff `+ v / 3` for a normal draw `v`, the
displacement is negated exactly when the reverse share is `> 0` and the draw
modulo 10000 is below the share times 10000, the displacement `d` behind the
reversal becomes `d + v * d / 3`, and the station is taken out exactly when the
reject share is `> 0` and the draw modulo 10000 is below the share times 10000.
The stations in front of and behind `x` stay as they are, a station that stays
keeps every field except takeoff and displacement, and with all four parameters
off the station and the generator stay as they are. -/
theorem station_evaluation_order {G : Type} (E : Engine G) (o : Options) (j : Nat)
    (s : SMTInputData × G) (pre rest : List SMTInputLine) (x : SMTInputLine)
    (hs : s.1.lines = pre ++ x :: rest) (hj : pre.length = j) :
    bootstrapStation E o j s =
        (⟨pre ++ (match (evaluateStation E o x s.2).1 with
                  | none => rest
                  | some x' => x' :: rest)⟩,
         (evaluateStation E o x s.2).2) ∧
      (∀ x', (evaluateStation E o x s.2).1 = some x' →
        x'.Name = x.Name ∧ x'.Id = x.Id ∧ x'.Component = x.Component ∧
        x'.MarkerType = x.MarkerType ∧ x'.Start = x.Start ∧ x'.End = x.End ∧
        x'.Duration = x.Duration ∧ x'.Incidence = x.Incidence ∧ x'.Azimuth = x.Azimuth ∧
        x'.Distance = x.Distance ∧ x'.Density = x.Density ∧ x'.Velocity = x.Velocity ∧
        x'.PickActive = x.PickActive ∧ x'.ChannelActive = x.ChannelActive) ∧
      (¬ o.BootstrapTakeoffModifier > 0 → ¬ o.BootstrapPercentReverse > 0 →
        ¬ o.BootstrapAmplitudeModifier > 0 → ¬ o.BootstrapPercentReject > 0 →
        evaluateStation E o x s.2 = (some x, s.2)) := by
  refine ⟨bootstrapStation_eq E o j s pre rest x hs hj, ?_, ?_⟩
  · intro x' hx
    simp only [evaluateStation] at hx
    split_ifs at hx <;> simp only [Option.some.injEq, reduceCtorEq] at hx <;> subst hx <;>
      simp
  · intro h1 h2 h3 h4
    simp [evaluateStation, h1, h2, h3, h4]

theorem station_evaluation_order_witness :
    bootstrapStation counterEngine (rejectOptions 1 (1 / 2)) 1 (fiveStations, 0) =
        (⟨[station 1] ++
            (match (evaluateStation counterEngine (rejectOptions 1 (1 / 2)) (station 2)
                (fiveStations, (0 : Nat)).2).1 with
             | none => [station 3, station 4, station 5]
             | some x' => x' :: [station 3, station 4, station 5])⟩,
         (evaluateStation counterEngine (rejectOptions 1 (1 / 2)) (station 2)
           (fiveStations, (0 : Nat)).2).2) ∧
      (∀ x', (evaluateStation counterEngine (rejectOptions 1 (1 / 2)) (station 2)
          (fiveStations, (0 : Nat)).2).1 = some x' →
        x'.Name = (station 2).Name ∧ x'.Id = (station 2).Id ∧
        x'.Component = (station 2).Component ∧
        x'.MarkerType = (station 2).MarkerType ∧ x'.Start = (station 2).Start ∧
        x'.End = (station 2).End ∧
        x'.Duration = (station 2).Duration ∧ x'.Incidence = (station 2).Incidence ∧
        x'.Azimuth = (station 2).Azimuth ∧
        x'.Distance = (station 2).Distance ∧ x'.Density = (station 2).Density ∧
        x'.Velocity = (station 2).Velocity ∧
        x'.PickActive = (station 2).PickActive ∧
        x'.ChannelActive = (station 2).ChannelActive) ∧
      (¬ (rejectOptions 1 (1 / 2)).BootstrapTakeoffModifier > 0 →
        ¬ (rejectOptions 1 (1 / 2)).BootstrapPercentReverse > 0 →
        ¬ (rejectOptions 1 (1 / 2)).BootstrapAmplitudeModifier > 0 →
        ¬ (rejectOptions 1 (1 / 2)).BootstrapPercentReject > 0 →
        evaluateStation counterEngine (rejectOptions 1 (1 / 2)) (station 2)
          (fiveStations, (0 : Nat)).2 = (some (station 2), (fiveStations, (0 : Nat)).2)) :=
  station_evaluation_order counterEngine (rejectOptions 1 (1 / 2)) 1 (fiveStations, 0)
    [station 1] [station 3, station 4, station 5] (station 2) rfl rfl

/-! ## Claims on the noise test -/

/-- The noise test body takes two draws for its station, the first for `u1` and
the second for `u2`, and forms both samples as `uniformSample`. -/
theorem noiseStation_eq {G : Type} (E : Engine G) (o : Options) (j : Nat)
    (s : SMTInputData × G) :
    noiseStation E o j s =
      (s.1.Set j { s.1.Get j with
          Displacement := (s.1.Get j).Displacement +
            E.sqrt (-2 * E.log (uniformSample E (E.rand s.2).1)) *
              E.cos (2 * E.M_PI * uniformSample E (E.rand (E.rand s.2).2).1) / 3 *
              (s.1.Get j).Displacement * o.AmpFactor },
       (E.rand (E.rand s.2).2).2) := rfl

/-- Where `RAND_MAX` is below the largest `int`, the uniform sample of every draw
from 0 to `RAND_MAX` is above 0 and at most 1. -/
theorem uniformSample_range {G : Type} (E : Engine G) (draw : Nat)
    (hmax : E.RAND_MAX < 2147483647) (hdraw : draw ≤ E.RAND_MAX) :
    0 < uniformSample E draw ∧ uniformSample E draw ≤ 1 := by
  have hw : toInt32 ((draw : Int) + 1) = (draw : Int) + 1 := by
    unfold toInt32
    omega
  have hden : (0 : ℚ) < (E.RAND_MAX : ℚ) + 1 := by positivity
  unfold uniformSample
  rw [hw]
  constructor
  · apply div_pos _ hden
    have : (0 : ℚ) ≤ (draw : ℚ) := Nat.cast_nonneg _
    push_cast
    linarith
  · rw [div_le_one hden]
    have : (draw : ℚ) ≤ (E.RAND_MAX : ℚ) := by exact_mod_cast hdraw
    push_cast
    linarith

/-- C19, the code at the failing input: on a platform whose `RAND_MAX` is the
largest `int`, the draw `RAND_MAX` makes `sample + 1` leave the range of `int`; with
the wrapped sum the uniform sample is `-1`, not a number above 0. -/
theorem uniform_sample_overflow :
    (maxIntEngine.rand 2147483647).1 = maxIntEngine.RAND_MAX ∧
      uniformSample maxIntEngine (maxIntEngine.rand 2147483647).1 = -1 := by
  refine ⟨rfl, ?_⟩
  have h1 : (maxIntEngine.rand 2147483647).1 = 2147483647 := rfl
  have h2 : maxIntEngine.RAND_MAX = 2147483647 := rfl
  have h3 : toInt32 (((2147483647 : Nat) : Int) + 1) = -2147483648 := by decide
  rw [h1, uniformSample, h2, h3]
  norm_num

/-- A loop whose body appends one item with a property to a list read off the
state appends only items with that property. -/
theorem forLoop_appends_all {σ α : Type} (proj : σ → List α) (body : Nat → σ → σ)
    (P : α → Prop) (h : ∀ i s, ∃ x, proj (body i s) = proj s ++ [x] ∧ P x) (n : Nat) (s : σ) :
    ∃ xs, proj (forLoop n body s) = proj s ++ xs ∧ ∀ x ∈ xs, P x := by
  induction n with
  | zero => exact ⟨[], by simp [forLoop_zero], by simp⟩
  | succ k ih =>
    obtain ⟨xs, hxs, hP⟩ := ih
    obtain ⟨x, hx, hPx⟩ := h k (forLoop k body s)
    refine ⟨xs ++ [x], by rw [forLoop_succ, hx, hxs, List.append_assoc], ?_⟩
    intro y hy
    rcases List.mem_append.mp hy with hy | hy
    · exact hP y hy
    · rw [List.mem_singleton] at hy
      rw [hy]
      exact hPx

/-! ## Claims on the source layer lookup -/

/-- The lookup started at index `j` with enough fuel stops at the largest index
`jm ≤ j` whose layer top is at most `depth`. -/
theorem layerLookup_found (Top Velocity : List ℚ) (depth : ℚ) (jm : Nat) (t w : ℚ)
    (ht : Top[jm]? = some t) (hw : Velocity[jm]? = some w) (hle : t ≤ depth) (fuel : Nat) :
    ∀ j, jm ≤ j → j < Top.length → j < 4294967296 → j - jm + 1 ≤ fuel →
      (∀ i t', jm < i → i ≤ j → Top[i]? = some t' → ¬ t' ≤ depth) →
      layerLookup Top Velocity depth fuel j = LayerResult.found w := by
  induction fuel with
  | zero => intro j _ _ _ hf; omega
  | succ n ih =>
    intro j hjm hj h32 hf hmax
    rw [layerLookup, List.get?_eq_getElem?, List.getElem?_eq_getElem hj]
    simp only
    by_cases hd : depth ≥ Top[j]
    · have hjeq : j = jm := by
        by_contra hne
        exact hmax j Top[j] (by omega) (Nat.le_refl _) (List.getElem?_eq_getElem hj) hd
      subst hjeq
      rw [if_pos hd, List.get?_eq_getElem?, hw]
    · have hne : j ≠ jm := by
        intro h
        subst h
        rw [List.getElem?_eq_getElem hj] at ht
        simp only [Option.some.injEq] at ht
        rw [ht] at hd
        exact hd hle
      rw [if_neg hd]
      have hprev : (j + 4294967295) % 4294967296 = j - 1 := by omega
      rw [hprev]
      exact ih (j - 1) (by omega) (by omega) (by omega) (by omega)
        (fun i t' h1 h2 h3 => hmax i t' h1 (by omega) h3)

/-- The lookup started at index `j` with enough fuel, when no layer top up to `j`
is at most `depth`, counts down through 0, wraps to `2^32 - 1` and indexes `Top`
out of range there. -/
theorem layerLookup_wraps (Top Velocity : List ℚ) (depth : ℚ)
    (hsize : Top.length < 4294967296) :
    ∀ j fuel, j < Top.length → j + 2 ≤ fuel →
      (∀ i t', i ≤ j → Top[i]? = some t' → ¬ t' ≤ depth) →
      layerLookup Top Velocity depth fuel j = LayerResult.outOfRange 4294967295 := by
  intro j
  induction j with
  | zero =>
    intro fuel hj hf hno
    obtain ⟨n, rfl⟩ : ∃ n, fuel = n + 2 := ⟨fuel - 2, by omega⟩
    rw [layerLookup, List.get?_eq_getElem?, List.getElem?_eq_getElem hj]
    simp only
    rw [if_neg (hno 0 _ (Nat.le_refl _) (List.getElem?_eq_getElem hj))]
    have hw : (0 + 4294967295) % 4294967296 = 4294967295 := by decide
    rw [hw, layerLookup, List.get?_eq_getElem?, List.getElem?_eq_none (by omega)]
  | succ k ih =>
    intro fuel hj hf hno
    obtain ⟨n, rfl⟩ : ∃ n, fuel = n + 1 := ⟨fuel - 1, by omega⟩
    rw [layerLookup, List.get?_eq_getElem?, List.getElem?_eq_getElem hj]
    simp only
    rw [if_neg (hno (k + 1) _ (Nat.le_refl _) (List.getElem?_eq_getElem hj))]
    have hprev : (k + 1 + 4294967295) % 4294967296 = k := by omega
    rw [hprev]
    exact ih n (by omega) (by omega) (fun i t' h1 h2 => hno i t' (by omega) h2)

/-- Layer found: the lookup of `main` gives the velocity of the largest layer index
whose top is at most `depth`. -/
theorem sourceLayer_found (Top Velocity : List ℚ) (depth : ℚ)
    (hlen : Top.length = Velocity.length) (hsize : Velocity.length < 4294967296)
    (jm : Nat) (t w : ℚ) (ht : Top[jm]? = some t) (hw : Velocity[jm]? = some w)
    (hle : t ≤ depth) (hmax : ∀ i t', jm < i → Top[i]? = some t' → ¬ t' ≤ depth) :
    sourceLayer Top Velocity depth = LayerResult.found w := by
  have hjm : jm < Top.length := by
    by_contra h
    rw [List.getElem?_eq_none (by omega)] at ht
    exact Option.noConfusion ht
  have hstart : (Velocity.length + 4294967295) % 4294967296 = Velocity.length - 1 := by omega
  rw [sourceLayer, hstart]
  exact layerLookup_found Top Velocity depth jm t w ht hw hle _ (Velocity.length - 1)
    (by omega) (by omega) (by omega) (by omega) (fun i t' h1 _ h3 => hmax i t' h1 h3)

/-- No layer found: the lookup of `main` wraps its counter and leaves the model. -/
theorem sourceLayer_wraps (Top Velocity : List ℚ) (depth : ℚ)
    (hlen : Top.length = Velocity.length) (hsize : Velocity.length < 4294967296)
    (hno : ∀ (i : Nat) (t' : ℚ), Top[i]? = some t' → ¬ t' ≤ depth) :
    sourceLayer Top Velocity depth = LayerResult.outOfRange 4294967295 := by
  rw [sourceLayer]
  by_cases h0 : Velocity.length = 0
  · have hT : Top.length = 0 := by omega
    rw [h0]
    have hw : (0 + 4294967295) % 4294967296 = 4294967295 := by decide
    rw [hw, layerLookup, List.get?_eq_getElem?, List.getElem?_eq_none (by omega)]
  · have hstart : (Velocity.length + 4294967295) % 4294967296 = Velocity.length - 1 := by
      omega
    rw [hstart]
    exact layerLookup_wraps Top Velocity depth (by omega) (Velocity.length - 1)
      (Velocity.length + 1) (by omega) (by omega) (fun i t' _ h2 => hno i t' h2)

/-- C24: in velocity model mode, with `Top` and `Velocity` of the same size below
`2^32`, the source layer lookup counts its `unsigned` index down from the last
layer. When some layer top is at most the depth, it ends at the largest such index
and takes the velocity of that layer; it ends with a velocity exactly in that case.
When the model is empty or every layer top is above the depth, the counter wraps
past zero to `2^32 - 1` and the lookup indexes `Top` outside the model there, so
the read of the station leaves defined behaviour instead of stopping. -/
theorem source_layer_lookup {G σ : Type} (E : Engine G) (I : IStream σ) (o : Options)
    (depth : ℚ) (hlen : o.Top.length = o.Velocity.length)
    (hsize : o.Velocity.length < 4294967296) :
    (∀ (jm : Nat) (t w : ℚ), o.Top[jm]? = some t → o.Velocity[jm]? = some w → t ≤ depth →
        (∀ (i : Nat) (t' : ℚ), jm < i → o.Top[i]? = some t' → ¬ t' ≤ depth) →
        sourceLayer o.Top o.Velocity depth = LayerResult.found w) ∧
      ((∀ (i : Nat) (t' : ℚ), o.Top[i]? = some t' → ¬ t' ≤ depth) →
        sourceLayer o.Top o.Velocity depth = LayerResult.outOfRange 4294967295 ∧
          o.Top[4294967295]? = none) ∧
      ((∃ w, sourceLayer o.Top o.Velocity depth = LayerResult.found w) ↔
        ∃ (j : Nat) (t : ℚ), o.Top[j]? = some t ∧ t ≤ depth) ∧
      (∀ (en ee ez : ℚ) (i : Nat) (r : Reader σ) (xyz : StationXYZ),
        (∀ (k : Nat) (t' : ℚ), o.Top[k]? = some t' → ¬ t' ≤ |ez * (1 / 1000)|) →
        readStationVM E I o en ee ez i (some (r, xyz)) = none) := by
  have hwrap : ∀ dp : ℚ, (∀ (i : Nat) (t' : ℚ), o.Top[i]? = some t' → ¬ t' ≤ dp) →
      sourceLayer o.Top o.Velocity dp = LayerResult.outOfRange 4294967295 :=
    fun dp h => sourceLayer_wraps o.Top o.Velocity dp hlen hsize h
  refine ⟨fun jm t w ht hw hle hmax =>
      sourceLayer_found o.Top o.Velocity depth hlen hsize jm t w ht hw hle hmax,
    fun hno => ⟨hwrap depth hno, List.getElem?_eq_none (by omega)⟩, ?_, ?_⟩
  · constructor
    · rintro ⟨w, hw⟩
      by_contra hcon
      have hno : ∀ (i : Nat) (t' : ℚ), o.Top[i]? = some t' → ¬ t' ≤ depth :=
        fun i t' h1 h2 => hcon ⟨i, t', h1, h2⟩
      rw [hwrap depth hno] at hw
      exact LayerResult.noConfusion hw
    · rintro ⟨j, t, hj, ht⟩
      classical
      have hjlt : j < o.Top.length := by
        by_contra h
        rw [List.getElem?_eq_none (by omega)] at hj
        exact Option.noConfusion hj
      have hP : ∃ t, o.Top[j]? = some t ∧ t ≤ depth := ⟨t, hj, ht⟩
      have hspec := Nat.findGreatest_spec
        (P := fun i => ∃ t, o.Top[i]? = some t ∧ t ≤ depth) (Nat.le_of_lt hjlt) hP
      obtain ⟨tm, htm, hle⟩ := hspec
      have hmlt : Nat.findGreatest (fun i => ∃ t, o.Top[i]? = some t ∧ t ≤ depth)
          o.Top.length < o.Velocity.length := by
        by_contra h
        rw [List.getElem?_eq_none (by omega)] at htm
        exact Option.noConfusion htm
      refine ⟨o.Velocity[Nat.findGreatest (fun i => ∃ t, o.Top[i]? = some t ∧ t ≤ depth)
          o.Top.length], ?_⟩
      refine sourceLayer_found o.Top o.Velocity depth hlen hsize _ tm _ htm
        (List.getElem?_eq_getElem hmlt) hle ?_
      intro i t' hi hti hle'
      have hilt : i < o.Top.length := by
        by_contra h
        rw [List.getElem?_eq_none (by omega)] at hti
        exact Option.noConfusion hti
      exact Nat.findGreatest_is_greatest hi (Nat.le_of_lt hilt) ⟨t', hti, hle'⟩
  · intro en ee ez i r xyz hno
    simp only [readStationVM, hwrap _ hno]

theorem source_layer_lookup_witness :
    (∀ (jm : Nat) (t w : ℚ), layeredOptions.Top[jm]? = some t →
        layeredOptions.Velocity[jm]? = some w → t ≤ 3 / 2 →
        (∀ (i : Nat) (t' : ℚ), jm < i → layeredOptions.Top[i]? = some t' → ¬ t' ≤ 3 / 2) →
        sourceLayer layeredOptions.Top layeredOptions.Velocity (3 / 2) = LayerResult.found w) ∧
      ((∀ (i : Nat) (t' : ℚ), layeredOptions.Top[i]? = some t' → ¬ t' ≤ 3 / 2) →
        sourceLayer layeredOptions.Top layeredOptions.Velocity (3 / 2)
            = LayerResult.outOfRange 4294967295 ∧
          layeredOptions.Top[4294967295]? = none) ∧
      ((∃ w, sourceLayer layeredOptions.Top layeredOptions.Velocity (3 / 2)
          = LayerResult.found w) ↔
        ∃ (j : Nat) (t : ℚ), layeredOptions.Top[j]? = some t ∧ t ≤ 3 / 2) ∧
      (∀ (en ee ez : ℚ) (i : Nat) (r : Reader TokStream) (xyz : StationXYZ),
        (∀ (k : Nat) (t' : ℚ), layeredOptions.Top[k]? = some t' → ¬ t' ≤ |ez * (1 / 1000)|) →
        readStationVM counterEngine tokStream layeredOptions en ee ez i (some (r, xyz))
          = none) :=
  source_layer_lookup counterEngine tokStream layeredOptions (3 / 2) rfl (by decide)

/-! ## Claims on characters of the variant list that are no variant code -/

theorem variantChunks_getElem_fold {G : Type} (E : Engine G) (o : Options) (fileid : String)
    (size j : Nat) (fs : FaultSolutions) (chars : List Char) :
    ∀ (cur : FaultSolution × String) (i : Nat) (ch : Char), chars[i]? = some ch →
      (variantChunks E o fileid size j fs chars cur)[i]? =
        some (textOutput E o fileid size j fs.Type_ fs.Channel
          ((chars.take (i + 1)).foldl (fun c x => selectVariant fs x c) cur).1
          ((chars.take (i + 1)).foldl (fun c x => selectVariant fs x c) cur).2) := by
  induction chars with
  | nil => intro cur i ch h; simp at h
  | cons c rest ih =>
    intro cur i ch h
    cases i with
    | zero => simp [variantChunks]
    | succ k =>
      simp only [List.getElem?_cons_succ] at h
      simpa [variantChunks] using ih (selectVariant fs c cur) k ch h

/-- The pass for entry `j` and position `i` writes the text output of the entry
with the selection in force at position `i`. -/
theorem chunkAt_selection {G : Type} (E : Engine G) (o : Options) (fileid : String)
    (FSList : List FaultSolutions) (j i : Nat) (fs : FaultSolutions) (ch : Char)
    (hj : FSList[j]? = some fs) (hi : o.SolutionTypes.data[i]? = some ch) :
    chunkAt (exportChunks E o fileid FSList.length FSList 0) j i =
      some (textOutput E o fileid FSList.length j fs.Type_ fs.Channel
        (selectionAt fs o.SolutionTypes.data i).1 (selectionAt fs o.SolutionTypes.data i).2) := by
  have h1 := exportChunks_getElem E o fileid FSList.length FSList 0 j fs hj
  rw [Nat.zero_add] at h1
  rw [chunkAt, h1, Option.some_bind,
    variantChunks_getElem_fold E o fileid FSList.length j fs _ _ i ch hi]
  rfl

theorem selectionAt_succ (fs : FaultSolutions) (chars : List Char) (k : Nat) (ch : Char)
    (h : chars[k + 1]? = some ch) :
    selectionAt fs chars (k + 1) = selectVariant fs ch (selectionAt fs chars k) := by
  unfold selectionAt
  rw [List.take_succ (n := k + 1), h]
  simp [List.foldl_append]

theorem selectionAt_zero (fs : FaultSolutions) (chars : List Char) (ch : Char)
    (h : chars[0]? = some ch) :
    selectionAt fs chars 0 = selectVariant fs ch (fs.DoubleCoupleSolution, "dc") := by
  cases chars with
  | nil => simp at h
  | cons c rest =>
    simp only [List.getElem?_cons_zero, Option.some.injEq] at h
    subst h
    simp [selectionAt]

theorem selectVariant_other (fs : FaultSolutions) (ch : Char) (cur : FaultSolution × String)
    (hF : ch ≠ 'F') (hT : ch ≠ 'T') (hD : ch ≠ 'D') : selectVariant fs ch cur = cur := by
  simp [selectVariant, hF, hT, hD]

/-- C23: with a non-empty format string, and picture export off or not throwing,
every entry gets as many passes as the variant list has characters; the pass for
a character other than `F`, `T`, `D` writes a row all the same: at position 0 the
row of the DoubleCouple solution to the file with suffix `dc`, at a later position
the same output, with the same solution and the same file suffix, as the pass for
the character in front of it. -/
theorem stray_variant_repeats_row {G : Type} (E : Engine G) (o : Options) (fileid : String)
    (FSList : List FaultSolutions) (d : SMTInputData) (out0 : List Write)
    (hfmt : o.DumpOrder.length ≠ 0)
    (hpic : E.Pos o.OutputFileType "NONE" ≠ 0 ∨ ∀ a b c e f, E.exportBall a b c e f = true) :
    exportSolutions E o fileid FSList d FSList 0 out0 =
        Flow.next (out0 ++ (exportChunks E o fileid FSList.length FSList 0).flatten.flatten) ∧
      (exportChunks E o fileid FSList.length FSList 0).map List.length =
        List.replicate FSList.length o.SolutionTypes.length ∧
      ∀ (j i : Nat) (fs : FaultSolutions) (ch : Char),
        FSList[j]? = some fs → o.SolutionTypes.data[i]? = some ch →
        ch ≠ 'F' → ch ≠ 'T' → ch ≠ 'D' →
        (i = 0 →
          chunkAt (exportChunks E o fileid FSList.length FSList 0) j 0 =
            some ((if j = 0 then eventHeader E o fileid FSList.length "dc" else []) ++
              outputRow E o fileid fs.Type_ fs.Channel fs.DoubleCoupleSolution "dc")) ∧
        (∀ k, i = k + 1 →
          ∃ sel : FaultSolution × String,
            chunkAt (exportChunks E o fileid FSList.length FSList 0) j k =
              some ((if j = 0 then eventHeader E o fileid FSList.length sel.2 else []) ++
                outputRow E o fileid fs.Type_ fs.Channel sel.1 sel.2) ∧
            chunkAt (exportChunks E o fileid FSList.length FSList 0) j (k + 1) =
              some ((if j = 0 then eventHeader E o fileid FSList.length sel.2 else []) ++
                outputRow E o fileid fs.Type_ fs.Channel sel.1 sel.2)) := by
  refine ⟨exportSolutions_ok E o fileid FSList d hpic FSList 0 out0,
    exportChunks_lengths E o fileid FSList.length FSList 0, ?_⟩
  intro j i fs ch hj hi hF hT hD
  constructor
  · intro h0
    subst h0
    rw [chunkAt_selection E o fileid FSList j 0 fs ch hj hi,
      selectionAt_zero fs _ ch hi, selectVariant_other fs ch _ hF hT hD,
      textOutput_eq E o fileid _ _ _ _ _ _ hfmt]
  · intro k hk
    subst hk
    have hklt : k < o.SolutionTypes.data.length := by
      by_contra h
      rw [List.getElem?_eq_none (by omega)] at hi
      exact Option.noConfusion hi
    refine ⟨selectionAt fs o.SolutionTypes.data k, ?_, ?_⟩
    · rw [chunkAt_selection E o fileid FSList j k fs _ hj (List.getElem?_eq_getElem hklt),
        textOutput_eq E o fileid _ _ _ _ _ _ hfmt]
    · rw [chunkAt_selection E o fileid FSList j (k + 1) fs ch hj hi,
        selectionAt_succ fs _ k ch hi, selectVariant_other fs ch _ hF hT hD,
        textOutput_eq E o fileid _ _ _ _ _ _ hfmt]

theorem stray_variant_repeats_row_witness :
    exportSolutions counterEngine strayVariantOptions "evt3" exampleCollection twoStationData
          exampleCollection 0 [] =
        Flow.next ([] ++ (exportChunks counterEngine strayVariantOptions "evt3"
          exampleCollection.length exampleCollection 0).flatten.flatten) ∧
      (exportChunks counterEngine strayVariantOptions "evt3" exampleCollection.length
          exampleCollection 0).map List.length =
        List.replicate exampleCollection.length strayVariantOptions.SolutionTypes.length ∧
      ∀ (j i : Nat) (fs : FaultSolutions) (ch : Char),
        exampleCollection[j]? = some fs → strayVariantOptions.SolutionTypes.data[i]? = some ch →
        ch ≠ 'F' → ch ≠ 'T' → ch ≠ 'D' →
        (i = 0 →
          chunkAt (exportChunks counterEngine strayVariantOptions "evt3"
              exampleCollection.length exampleCollection 0) j 0 =
            some ((if j = 0 then eventHeader counterEngine strayVariantOptions "evt3"
                exampleCollection.length "dc" else []) ++
              outputRow counterEngine strayVariantOptions "evt3" fs.Type_ fs.Channel
                fs.DoubleCoupleSolution "dc")) ∧
        (∀ k, i = k + 1 →
          ∃ sel : FaultSolution × String,
            chunkAt (exportChunks counterEngine strayVariantOptions "evt3"
                exampleCollection.length exampleCollection 0) j k =
              some ((if j = 0 then eventHeader counterEngine strayVariantOptions "evt3"
                  exampleCollection.length sel.2 else []) ++
                outputRow counterEngine strayVariantOptions "evt3" fs.Type_ fs.Channel
                  sel.1 sel.2) ∧
            chunkAt (exportChunks counterEngine strayVariantOptions "evt3"
                exampleCollection.length exampleCollection 0) j (k + 1) =
              some ((if j = 0 then eventHeader counterEngine strayVariantOptions "evt3"
                  exampleCollection.length sel.2 else []) ++
                outputRow counterEngine strayVariantOptions "evt3" fs.Type_ fs.Channel
                  sel.1 sel.2)) :=
  stray_variant_repeats_row counterEngine strayVariantOptions "evt3" exampleCollection
    twoStationData [] (by decide) (Or.inl (by decide))

/-! ## Claims on the stations that a bootstrap pass rejects -/

theorem bootstrapLoop_done {G : Type} (E : Engine G) (o : Options) (fuel j : Nat)
    (s : SMTInputData × G) (h : ¬ j < s.1.Count) : bootstrapLoop E o fuel j s = s := by
  cases fuel with
  | zero => rfl
  | succ n => rw [bootstrapLoop, if_neg h]

/-- The station loop from working index `j` on, with the stations `suf` still in
front of it, leaves what `passFates` says of `suf` behind the stations `pre`
that it has passed. -/
theorem bootstrapLoop_fates {G : Type} (E : Engine G) (o : Options) (fuel : Nat) :
    ∀ (j : Nat) (s : SMTInputData × G) (pre suf : List SMTInputLine),
      s.1.lines = pre ++ suf → pre.length = j → suf.length ≤ fuel →
      bootstrapLoop E o fuel j s =
        (⟨pre ++ (passFates E o suf s.2).1.filterMap id⟩, (passFates E o suf s.2).2) := by
  induction fuel with
  | zero =>
    intro j s pre suf hs hj hf
    obtain ⟨⟨l⟩, g⟩ := s
    simp only at hs
    have : suf = [] := List.eq_nil_of_length_eq_zero (by omega)
    subst this
    subst hs
    simp [bootstrapLoop, passFates]
  | succ n ih =>
    intro j s pre suf hs hj hf
    cases suf with
    | nil =>
      have hdone : ¬ j < s.1.Count := by
        simp only [SMTInputData.Count, hs, List.append_nil]
        omega
      rw [bootstrapLoop_done E o _ j s hdone]
      obtain ⟨⟨l⟩, g⟩ := s
      simp only at hs
      subst hs
      simp [passFates]
    | cons x rest =>
      have hlt : j < s.1.Count := by
        simp only [SMTInputData.Count, hs, List.length_append, List.length_cons]
        omega
      have hb := bootstrapStation_eq E o j s pre rest x hs hj
      rw [bootstrapLoop, if_pos hlt, hb]
      cases rest with
      | nil =>
        cases hev : (evaluateStation E o x s.2).1 with
        | none =>
          simp only [passFates, hev]
          rw [bootstrapLoop_done]
          · simp
          · simp only [SMTInputData.Count, List.append_nil]
            omega
        | some x' =>
          simp only [passFates, hev]
          rw [ih (j + 1) _ (pre ++ [x']) [] (by simp) (by simp [hj]) (by simp)]
          simp [passFates]
      | cons y rest' =>
        simp only [List.length_cons] at hf
        cases hev : (evaluateStation E o x s.2).1 with
        | none =>
          simp only [passFates, hev]
          rw [ih (j + 1) _ (pre ++ [y]) rest' (by simp) (by simp [hj]) (by omega)]
          simp
        | some x' =>
          simp only [passFates, hev]
          rw [ih (j + 1) _ (pre ++ [x']) (y :: rest') (by simp) (by simp [hj])
            (by simp only [List.length_cons]; omega)]
          simp

/-- A station that stays in the working set keeps its id and name. -/
theorem evaluateStation_frame {G : Type} (E : Engine G) (o : Options) (x x' : SMTInputLine)
    (g : G) (h : (evaluateStation E o x g).1 = some x') : x'.Id = x.Id ∧ x'.Name = x.Name := by
  simp only [evaluateStation] at h
  split_ifs at h <;> simp only [Option.some.injEq, reduceCtorEq] at h <;> subst h <;> simp

/-- The fates of a pass: one per station, none for two stations in a row, a
station that stays is the nominal station of its position, and at most every
second station is rejected. -/
theorem passFates_facts {G : Type} (E : Engine G) (o : Options) (n : Nat) :
    ∀ (l : List SMTInputLine) (g : G), l.length ≤ n →
      (passFates E o l g).1.length = l.length ∧
      (∀ k : Nat, (passFates E o l g).1[k]? = some none →
        (passFates E o l g).1[k + 1]? ≠ some none) ∧
      (∀ (k : Nat) (x' : SMTInputLine), (passFates E o l g).1[k]? = some (some x') →
        ∃ x, l[k]? = some x ∧ x'.Id = x.Id ∧ x'.Name = x.Name) ∧
      l.length ≤ 2 * ((passFates E o l g).1.filterMap id).length + 1 := by
  induction n with
  | zero =>
    intro l g hl
    have : l = [] := List.eq_nil_of_length_eq_zero (by omega)
    subst this
    simp [passFates]
  | succ n ih =>
    intro l g hl
    match l, hl with
    | [], _ => simp [passFates]
    | [x], _ =>
      refine ⟨by simp [passFates], ?_, ?_, by simp⟩
      · intro k _
        simp [passFates]
      · intro k x' hk
        cases k with
        | zero =>
          simp only [passFates, List.getElem?_cons_zero, Option.some.injEq] at hk
          exact ⟨x, rfl, evaluateStation_frame E o x x' g hk⟩
        | succ k' => simp [passFates] at hk
    | x :: y :: rest, hl =>
      simp only [List.length_cons] at hl
      cases hev : (evaluateStation E o x g).1 with
      | some x1 =>
        obtain ⟨h1, h2, h3, h4⟩ :=
          ih (y :: rest) (evaluateStation E o x g).2 (by simp only [List.length_cons]; omega)
        simp only [passFates, hev]
        refine ⟨by simp [h1], ?_, ?_, ?_⟩
        · intro k hk
          cases k with
          | zero => simp at hk
          | succ k' =>
            simp only [List.getElem?_cons_succ] at hk ⊢
            exact h2 k' hk
        · intro k x' hk
          cases k with
          | zero =>
            simp only [List.getElem?_cons_zero, Option.some.injEq] at hk
            subst hk
            exact ⟨x, rfl, evaluateStation_frame E o x x1 g hev⟩
          | succ k' =>
            simp only [List.getElem?_cons_succ] at hk ⊢
            exact h3 k' x' hk
        · simp only [List.length_cons] at h4
          simp only [List.filterMap_cons_some (f := id) (b := x1) rfl, List.length_cons]
          omega
      | none =>
        obtain ⟨h1, h2, h3, h4⟩ := ih rest (evaluateStation E o x g).2 (by omega)
        simp only [passFates, hev]
        refine ⟨by simp [h1], ?_, ?_, ?_⟩
        · intro k hk
          cases k with
          | zero => simp
          | succ k' =>
            cases k' with
            | zero => simp at hk
            | succ k'' =>
              simp only [List.getElem?_cons_succ] at hk ⊢
              exact h2 k'' hk
        · intro k x' hk
          cases k with
          | zero => simp at hk
          | succ k' =>
            cases k' with
            | zero =>
              simp only [List.getElem?_cons_succ, List.getElem?_cons_zero,
                Option.some.injEq] at hk
              exact ⟨y, by simp, by rw [hk], by rw [hk]⟩
            | succ k'' =>
              simp only [List.getElem?_cons_succ] at hk ⊢
              exact h3 k'' x' hk
        · simp only [List.filterMap_cons_none (f := id) (a := (none : Option SMTInputLine)) rfl,
            List.filterMap_cons_some (f := id) (b := y) rfl, List.length_cons]
          omega

/-- C21: in a bootstrap pass over a dataset of `N` stations, for every parameter
setting and every generator, the fates of the stations in nominal order (`none` for
a rejected station, `some` for one that stays, with the id and name of the nominal
station of its position) never hold two rejections in a row; the working set handed
to the inversion is the stations that stay, at least `N / 2` of them, and it is not
empty when `N ≥ 2`; in bootstrap mode this holds for the dataset of every call
behind the nominal one. -/
theorem no_adjacent_rejections {G : Type} (E : Engine G) (o : Options) (d : SMTInputData)
    (g : G) :
    (passFates E o d.lines g).1.length = d.Count ∧
      (bootstrapLoop E o d.Count 0 (d, g)).1.lines = (passFates E o d.lines g).1.filterMap id ∧
      (∀ (k : Nat) (x' : SMTInputLine), (passFates E o d.lines g).1[k]? = some (some x') →
        ∃ x, d.lines[k]? = some x ∧ x'.Id = x.Id ∧ x'.Name = x.Name) ∧
      (∀ k : Nat, (passFates E o d.lines g).1[k]? = some none →
        (passFates E o d.lines g).1[k + 1]? ≠ some none) ∧
      d.Count / 2 ≤ (bootstrapLoop E o d.Count 0 (d, g)).1.Count ∧
      (2 ≤ d.Count → (bootstrapLoop E o d.Count 0 (d, g)).1.lines ≠ []) ∧
      (o.NoiseTest = false → o.JacknifeTest = false → o.BootstrapTest = true →
        ∀ c ∈ (runInversions E o d g).1.Calls.tail,
          d.Count / 2 ≤ c.data.Count ∧ (2 ≤ d.Count → c.data.lines ≠ [])) := by
  have hpass : ∀ g' : G, (bootstrapLoop E o d.Count 0 (d, g')).1.lines =
      (passFates E o d.lines g').1.filterMap id := by
    intro g'
    rw [bootstrapLoop_fates E o d.Count 0 (d, g') [] d.lines rfl rfl (Nat.le_refl _)]
    rfl
  have hcount : ∀ g' : G, d.Count / 2 ≤ (bootstrapLoop E o d.Count 0 (d, g')).1.Count := by
    intro g'
    have h4 := (passFates_facts E o d.lines.length d.lines g' (Nat.le_refl _)).2.2.2
    have hp := hpass g'
    simp only [SMTInputData.Count] at hp ⊢
    rw [hp]
    omega
  have hne : ∀ g' : G, 2 ≤ d.Count → (bootstrapLoop E o d.Count 0 (d, g')).1.lines ≠ [] := by
    intro g' h2 hnil
    have hc := hcount g'
    simp only [SMTInputData.Count] at hc h2 hnil
    rw [hnil] at hc
    simp only [List.length_nil] at hc
    omega
  obtain ⟨h1, h2, h3, _⟩ := passFates_facts E o d.lines.length d.lines g (Nat.le_refl _)
  refine ⟨h1, hpass g, h3, h2, hcount g, hne g, ?_⟩
  intro hN hJ hB
  have key : ∃ xs, (runInversions E o d g).1.Calls =
      (MTInversion E (InversionNormType o) o.QualityType d 0 'N' ⟨[], []⟩).Calls ++ xs ∧
      ∀ c ∈ xs, d.Count / 2 ≤ c.data.Count ∧ (2 ≤ d.Count → c.data.lines ≠ []) := by
    simp only [runInversions, hN, hJ, hB, Bool.false_eq_true, if_false, if_true]
    exact forLoop_appends_all (fun s : Inversions × G => s.1.Calls) _ _
      (fun i s => ⟨_, rfl, hcount s.2, hne s.2⟩) _ _
  obtain ⟨xs, hxs, hP⟩ := key
  intro c hc
  rw [hxs] at hc
  simp only [MTInversion, List.nil_append, List.singleton_append, List.tail_cons] at hc
  exact hP c hc

/-- With a reject share of at least 1 and the other perturbations off every
evaluated station is rejected at the cost of one draw. -/
theorem evaluateStation_rejectAll {G : Type} (E : Engine G) (o : Options)
    (hrej : 1 ≤ o.BootstrapPercentReject) (h1 : ¬ o.BootstrapTakeoffModifier > 0)
    (h2 : ¬ o.BootstrapPercentReverse > 0) (h3 : ¬ o.BootstrapAmplitudeModifier > 0)
    (x : SMTInputLine) (g : G) : evaluateStation E o x g = (none, (E.rand g).2) := by
  have hpos : o.BootstrapPercentReject > 0 := lt_of_lt_of_le one_pos hrej
  have hfire : (((E.rand g).1 % 10000 : Nat) : ℚ) < o.BootstrapPercentReject * 10000 := by
    have := reject_fires (E.rand g).1
    nlinarith
  simp [evaluateStation, h1, h2, h3, hpos, hfire]

theorem passFates_rejectAll {G : Type} (E : Engine G) (o : Options)
    (hrej : 1 ≤ o.BootstrapPercentReject) (h1 : ¬ o.BootstrapTakeoffModifier > 0)
    (h2 : ¬ o.BootstrapPercentReverse > 0) (h3 : ¬ o.BootstrapAmplitudeModifier > 0)
    (n : Nat) :
    ∀ (l : List SMTInputLine) (g : G), l.length ≤ n →
      (passFates E o l g).1.filterMap id = oddPositions l := by
  induction n with
  | zero =>
    intro l g hl
    have : l = [] := List.eq_nil_of_length_eq_zero (by omega)
    subst this
    simp [passFates, oddPositions]
  | succ n ih =>
    intro l g hl
    match l, hl with
    | [], _ => simp [passFates, oddPositions]
    | [x], _ =>
      simp [passFates, oddPositions, evaluateStation_rejectAll E o hrej h1 h2 h3]
    | x :: y :: rest, hl =>
      simp only [List.length_cons] at hl
      simp only [passFates, evaluateStation_rejectAll E o hrej h1 h2 h3, oddPositions]
      rw [List.filterMap_cons_none (f := id) (a := (none : Option SMTInputLine)) rfl,
        List.filterMap_cons_some (f := id) (b := y) rfl, ih rest _ (by omega)]

theorem oddPositions_facts {α : Type} (n : Nat) :
    ∀ l : List α, l.length ≤ n →
      (oddPositions l).length = l.length / 2 ∧
      ∀ k : Nat, (oddPositions l)[k]? = l[2 * k + 1]? := by
  induction n with
  | zero =>
    intro l hl
    have : l = [] := List.eq_nil_of_length_eq_zero (by omega)
    subst this
    simp [oddPositions]
  | succ n ih =>
    intro l hl
    match l, hl with
    | [], _ => simp [oddPositions]
    | [x], _ => simp [oddPositions]
    | x :: y :: rest, hl =>
      simp only [List.length_cons] at hl
      obtain ⟨hlen, hget⟩ := ih rest (by omega)
      constructor
      · simp only [oddPositions, List.length_cons, hlen]
        omega
      · intro k
        cases k with
        | zero => simp [oddPositions]
        | succ k' =>
          have e : 2 * (k' + 1) + 1 = (2 * k' + 1) + 1 + 1 := by omega
          rw [e]
          simp only [oddPositions, List.getElem?_cons_succ]
          exact hget k'

/-- C22: in a bootstrap pass with a reject share of at least 1 and the other three
perturbations off, the working set handed to the inversion is the stations at the
odd positions 1, 3, 5, .. of the nominal dataset, `N / 2` of them, in nominal order
and unchanged; in bootstrap mode this is the dataset of every call behind the
nominal one. -/
theorem reject_all_keeps_odd_positions {G : Type} (E : Engine G) (o : Options)
    (d : SMTInputData) (g : G)
    (hrej : 1 ≤ o.BootstrapPercentReject) (h1 : ¬ o.BootstrapTakeoffModifier > 0)
    (h2 : ¬ o.BootstrapPercentReverse > 0) (h3 : ¬ o.BootstrapAmplitudeModifier > 0) :
    (bootstrapLoop E o d.Count 0 (d, g)).1.lines = oddPositions d.lines ∧
      (oddPositions d.lines).length = d.Count / 2 ∧
      (∀ k : Nat, (oddPositions d.lines)[k]? = d.lines[2 * k + 1]?) ∧
      (o.NoiseTest = false → o.JacknifeTest = false → o.BootstrapTest = true →
        ∀ c ∈ (runInversions E o d g).1.Calls.tail, c.data.lines = oddPositions d.lines) := by
  have hpass : ∀ g' : G, (bootstrapLoop E o d.Count 0 (d, g')).1.lines =
      oddPositions d.lines := by
    intro g'
    rw [bootstrapLoop_fates E o d.Count 0 (d, g') [] d.lines rfl rfl (Nat.le_refl _)]
    exact passFates_rejectAll E o hrej h1 h2 h3 d.lines.length d.lines g' (Nat.le_refl _)
  obtain ⟨hlen, hget⟩ := oddPositions_facts d.lines.length d.lines (Nat.le_refl _)
  refine ⟨hpass g, hlen, hget, ?_⟩
  intro hN hJ hB
  have key : ∃ xs, (runInversions E o d g).1.Calls =
      (MTInversion E (InversionNormType o) o.QualityType d 0 'N' ⟨[], []⟩).Calls ++ xs ∧
      ∀ c ∈ xs, c.data.lines = oddPositions d.lines := by
    simp only [runInversions, hN, hJ, hB, Bool.false_eq_true, if_false, if_true]
    exact forLoop_appends_all (fun s : Inversions × G => s.1.Calls) _ _
      (fun i s => ⟨_, rfl, hpass s.2⟩) _ _
  obtain ⟨xs, hxs, hP⟩ := key
  intro c hc
  rw [hxs] at hc
  simp only [MTInversion, List.nil_append, List.singleton_append, List.tail_cons] at hc
  exact hP c hc

theorem reject_all_keeps_odd_positions_witness :
    (bootstrapLoop counterEngine (rejectOptions 2 1) fiveStations.Count 0
        (fiveStations, 0)).1.lines = oddPositions fiveStations.lines ∧
      (oddPositions fiveStations.lines).length = fiveStations.Count / 2 ∧
      (∀ k : Nat, (oddPositions fiveStations.lines)[k]? = fiveStations.lines[2 * k + 1]?) ∧
      ((rejectOptions 2 1).NoiseTest = false → (rejectOptions 2 1).JacknifeTest = false →
        (rejectOptions 2 1).BootstrapTest = true →
        ∀ c ∈ (runInversions counterEngine (rejectOptions 2 1) fiveStations 0).1.Calls.tail,
          c.data.lines = oddPositions fiveStations.lines) :=
  reject_all_keeps_odd_positions counterEngine (rejectOptions 2 1) fiveStations 0
    (le_refl 1) (lt_irrefl 0) (lt_irrefl 0) (lt_irrefl 0)

/-! ## Claims on the working sets of the resampling iterations -/

theorem read_write_same (h : Store) (r : Nat) (d : SMTInputData) :
    (h.write r d).read r = d := by
  simp [Store.read, Store.write]

theorem read_write_other (h : Store) (r a : Nat) (d : SMTInputData) (hne : a ≠ r) :
    (h.write r d).read a = h.read a := by
  simp [Store.read, Store.write, hne]

theorem write_read_self (h : Store) (r : Nat) : h.write r (h.read r) = h := by
  cases h with
  | mk cell next =>
    simp only [Store.write, Store.read, Store.mk.injEq, and_true]
    funext a
    split_ifs with e
    · rw [e]
    · rfl

theorem write_write (h : Store) (r : Nat) (d d' : SMTInputData) :
    (h.write r d).write r d' = h.write r d' := by
  simp only [Store.write, Store.mk.injEq, and_true]
  funext a
  split_ifs <;> rfl

/-- A counted loop of member function calls on one object acts on the storage of
that object as the loop acts on its value. -/
theorem forLoop_onObject {G : Type} (body : Nat → SMTInputData × G → SMTInputData × G)
    (r n : Nat) (h : Store) (g : G) :
    forLoop n (fun j => onObject (body j) r) (h, g) =
      (h.write r (forLoop n body (h.read r, g)).1, (forLoop n body (h.read r, g)).2) := by
  induction n with
  | zero => simp [forLoop_zero, write_read_self]
  | succ k ih =>
    rw [forLoop_succ, ih, forLoop_succ]
    simp only [onObject, read_write_same, write_write]

/-- The bootstrap station loop on an object acts on its storage as `bootstrapLoop`
acts on its value. -/
theorem bootstrapLoopAt_eq {G : Type} (E : Engine G) (o : Options) (r : Nat) (fuel : Nat) :
    ∀ (j : Nat) (h : Store) (g : G),
      bootstrapLoopAt E o r fuel j (h, g) =
        (h.write r (bootstrapLoop E o fuel j (h.read r, g)).1,
         (bootstrapLoop E o fuel j (h.read r, g)).2) := by
  induction fuel with
  | zero => intro j h g; simp [bootstrapLoopAt, bootstrapLoop, write_read_self]
  | succ k ih =>
    intro j h g
    simp only [bootstrapLoopAt, bootstrapLoop]
    split_ifs with hj
    · simp only [onObject]
      rw [ih]
      simp only [read_write_same, write_write]
    · simp [write_read_self]

theorem deepCopy_Deep : deepCopy.Deep where
  construct_fresh := fun h src => by simp [deepCopy, Store.alloc]
  construct_value := fun h src => by simp [deepCopy, Store.alloc, Store.read]
  construct_frame := fun h src a ha => by
    have : a ≠ h.next := by omega
    simp [deepCopy, Store.alloc, Store.read, this]
  assign_own := fun h dst src hd => by simp [deepCopy, Store.write, hd]
  assign_value := fun h dst src => by simp [deepCopy, read_write_same]
  assign_frame := fun h dst src a _ hne => by simp [deepCopy, read_write_other, hne]

/-- Two loops whose bodies keep a relation between their states end in related states. -/
theorem forLoop_rel {σ τ : Type} (R : σ → τ → Prop) (f : Nat → σ → σ) (g : Nat → τ → τ)
    (h : ∀ i s t, R s t → R (f i s) (g i t)) (n : Nat) (s : σ) (t : τ) (h0 : R s t) :
    R (forLoop n f s) (forLoop n g t) := by
  induction n with
  | zero => simpa [forLoop_zero] using h0
  | succ k ih => rw [forLoop_succ, forLoop_succ]; exact h k _ _ ih

/-- An iteration of the noise test with deep copies: the collection and the generator
go on as in `noiseIteration` on the value of `fd`, and no object in use before it
is changed. -/
theorem noiseIterationAt_spec {G : Type} (E : Engine G) (o : Options) (C : Copier)
    (hC : C.Deep) (fd i : Nat) (t : RunState G) :
    (noiseIterationAt E o C fd i t).inv =
        (noiseIteration E o (t.mem.read fd) i (t.inv, t.rng)).1 ∧
      (noiseIterationAt E o C fd i t).rng =
        (noiseIteration E o (t.mem.read fd) i (t.inv, t.rng)).2 ∧
      (∀ a, a < t.mem.next → (noiseIterationAt E o C fd i t).mem.read a = t.mem.read a) ∧
      t.mem.next ≤ (noiseIterationAt E o C fd i t).mem.next := by
  have hv := hC.construct_value t.mem fd
  have hf := hC.construct_fresh t.mem fd
  have hfr := hC.construct_frame t.mem fd
  simp only [noiseIterationAt, invertObject, forLoop_onObject, read_write_same, hv,
    noiseIteration]
  refine ⟨trivial, trivial, ?_, ?_⟩
  · intro a ha
    rw [read_write_other _ _ _ _ (by omega), hfr a ha]
  · simp only [Store.write]
    omega

/-- An iteration of the jackknife test with deep copies. -/
theorem jackknifeIterationAt_spec {G : Type} (E : Engine G) (o : Options) (C : Copier)
    (hC : C.Deep) (fd i : Nat) (t : RunState G) :
    (jackknifeIterationAt E o C fd i t).inv =
        (jackknifeIteration E o (t.mem.read fd) i (t.inv, t.rng)).1 ∧
      (jackknifeIterationAt E o C fd i t).rng =
        (jackknifeIteration E o (t.mem.read fd) i (t.inv, t.rng)).2 ∧
      (∀ a, a < t.mem.next → (jackknifeIterationAt E o C fd i t).mem.read a = t.mem.read a) ∧
      t.mem.next ≤ (jackknifeIterationAt E o C fd i t).mem.next := by
  have hv := hC.construct_value t.mem fd
  have hf := hC.construct_fresh t.mem fd
  have hfr := hC.construct_frame t.mem fd
  simp only [jackknifeIterationAt, invertObject, read_write_same, hv, jackknifeIteration]
  refine ⟨trivial, trivial, ?_, ?_⟩
  · intro a ha
    rw [read_write_other _ _ _ _ (by omega), hfr a ha]
  · simp only [Store.write]
    omega

/-- A bootstrap sample with deep copies: the collection and the generator go on as
in `bootstrapIteration` on the value of the object `InputData`, whatever the object
`BootstrapData` held before; no other object in use is changed, and `BootstrapData`
keeps storage of its own. -/
theorem bootstrapIterationAt_spec {G : Type} (E : Engine G) (o : Options) (C : Copier)
    (hC : C.Deep) (InputData b i : Nat) (t : RunState G)
    (hb : b < t.mem.next) :
    (bootstrapIterationAt E o C InputData i (t, b)).1.inv =
        (bootstrapIteration E o (t.mem.read InputData) i (t.inv, t.rng)).1 ∧
      (bootstrapIterationAt E o C InputData i (t, b)).1.rng =
        (bootstrapIteration E o (t.mem.read InputData) i (t.inv, t.rng)).2 ∧
      (∀ a, a < t.mem.next → a ≠ b →
        (bootstrapIterationAt E o C InputData i (t, b)).1.mem.read a = t.mem.read a) ∧
      t.mem.next ≤ (bootstrapIterationAt E o C InputData i (t, b)).1.mem.next ∧
      ((bootstrapIterationAt E o C InputData i (t, b)).2 = b ∨
        t.mem.next ≤ (bootstrapIterationAt E o C InputData i (t, b)).2) ∧
      (bootstrapIterationAt E o C InputData i (t, b)).2 <
        (bootstrapIterationAt E o C InputData i (t, b)).1.mem.next := by
  have hv := hC.assign_value t.mem b InputData
  obtain ⟨hown, halive, hnext⟩ := hC.assign_own t.mem b InputData hb
  have hfr := hC.assign_frame t.mem b InputData
  simp only [bootstrapIterationAt, invertObject, bootstrapLoopAt_eq, read_write_same, hv,
    bootstrapIteration]
  refine ⟨trivial, trivial, ?_, ?_, hown, ?_⟩
  · intro a ha hab
    have hne : a ≠ (C.assign t.mem b InputData).2 := by
      rcases hown with h | h
      · rw [h]; exact hab
      · omega
    rw [read_write_other _ _ _ _ hne, hfr a ha hab]
  · simp only [Store.write]
    exact hnext
  · simp only [Store.write]
    exact halive

/-- The noise branch over the store with deep copies. -/
theorem noiseBranchAt_spec {G : Type} (E : Engine G) (o : Options) (C : Copier)
    (hC : C.Deep) (InputData : Nat) (h : Store)
    (inv : Inversions) (g : G) (n : Nat) :
    (forLoop n (noiseIterationAt E o C (C.construct h InputData).2)
        { mem := (C.construct h InputData).1, inv := inv, rng := g }).inv =
        (forLoop n (noiseIteration E o (h.read InputData)) (inv, g)).1 ∧
      (forLoop n (noiseIterationAt E o C (C.construct h InputData).2)
        { mem := (C.construct h InputData).1, inv := inv, rng := g }).rng =
        (forLoop n (noiseIteration E o (h.read InputData)) (inv, g)).2 ∧
      ∀ a, a < h.next →
        (forLoop n (noiseIterationAt E o C (C.construct h InputData).2)
          { mem := (C.construct h InputData).1, inv := inv, rng := g }).mem.read a =
          h.read a := by
  have hv := hC.construct_value h InputData
  have hf := hC.construct_fresh h InputData
  have hfr := hC.construct_frame h InputData
  have key := forLoop_rel
    (fun (x : RunState G) (y : Inversions × G) =>
      x.inv = y.1 ∧ x.rng = y.2 ∧ (C.construct h InputData).1.next ≤ x.mem.next ∧
        ∀ a, a < (C.construct h InputData).1.next →
          x.mem.read a = (C.construct h InputData).1.read a)
    (noiseIterationAt E o C (C.construct h InputData).2)
    (noiseIteration E o (h.read InputData))
    (fun i x y hR => by
      obtain ⟨h1, h2, h3, h4⟩ := hR
      obtain ⟨e1, e2, e3, e4⟩ := noiseIterationAt_spec E o C hC (C.construct h InputData).2 i x
      have hd : x.mem.read (C.construct h InputData).2 = h.read InputData := by
        rw [h4 _ hf.2, hv]
      have hy : (x.inv, x.rng) = y := by rw [h1, h2]
      rw [hd, hy] at e1 e2
      exact ⟨e1, e2, le_trans h3 e4, fun a ha => by rw [e3 a (by omega), h4 a ha]⟩)
    n { mem := (C.construct h InputData).1, inv := inv, rng := g } (inv, g)
    ⟨rfl, rfl, le_refl _, fun a _ => rfl⟩
  obtain ⟨k1, k2, _, k4⟩ := key
  exact ⟨k1, k2, fun a ha => by rw [k4 a (by omega), hfr a ha]⟩

/-- The jackknife branch over the store with deep copies. -/
theorem jackknifeBranchAt_spec {G : Type} (E : Engine G) (o : Options) (C : Copier)
    (hC : C.Deep) (InputData : Nat) (h : Store)
    (inv : Inversions) (g : G) (n : Nat) :
    (forLoop n (jackknifeIterationAt E o C (C.construct h InputData).2)
        { mem := (C.construct h InputData).1, inv := inv, rng := g }).inv =
        (forLoop n (jackknifeIteration E o (h.read InputData)) (inv, g)).1 ∧
      (forLoop n (jackknifeIterationAt E o C (C.construct h InputData).2)
        { mem := (C.construct h InputData).1, inv := inv, rng := g }).rng =
        (forLoop n (jackknifeIteration E o (h.read InputData)) (inv, g)).2 ∧
      ∀ a, a < h.next →
        (forLoop n (jackknifeIterationAt E o C (C.construct h InputData).2)
          { mem := (C.construct h InputData).1, inv := inv, rng := g }).mem.read a =
          h.read a := by
  have hv := hC.construct_value h InputData
  have hf := hC.construct_fresh h InputData
  have hfr := hC.construct_frame h InputData
  have key := forLoop_rel
    (fun (x : RunState G) (y : Inversions × G) =>
      x.inv = y.1 ∧ x.rng = y.2 ∧ (C.construct h InputData).1.next ≤ x.mem.next ∧
        ∀ a, a < (C.construct h InputData).1.next →
          x.mem.read a = (C.construct h InputData).1.read a)
    (jackknifeIterationAt E o C (C.construct h InputData).2)
    (jackknifeIteration E o (h.read InputData))
    (fun i x y hR => by
      obtain ⟨h1, h2, h3, h4⟩ := hR
      obtain ⟨e1, e2, e3, e4⟩ :=
        jackknifeIterationAt_spec E o C hC (C.construct h InputData).2 i x
      have hd : x.mem.read (C.construct h InputData).2 = h.read InputData := by
        rw [h4 _ hf.2, hv]
      have hy : (x.inv, x.rng) = y := by rw [h1, h2]
      rw [hd, hy] at e1 e2
      exact ⟨e1, e2, le_trans h3 e4, fun a ha => by rw [e3 a (by omega), h4 a ha]⟩)
    n { mem := (C.construct h InputData).1, inv := inv, rng := g } (inv, g)
    ⟨rfl, rfl, le_refl _, fun a _ => rfl⟩
  obtain ⟨k1, k2, _, k4⟩ := key
  exact ⟨k1, k2, fun a ha => by rw [k4 a (by omega), hfr a ha]⟩

/-- The bootstrap branch over the store with deep copies, for any object
`BootstrapData` with storage of its own. -/
theorem bootstrapBranchAt_spec {G : Type} (E : Engine G) (o : Options) (C : Copier)
    (hC : C.Deep) (InputData : Nat) (h : Store) (hin : InputData < h.next)
    (inv : Inversions) (g : G) (n : Nat) :
    (forLoop n (bootstrapIterationAt E o C InputData)
        ({ mem := (h.alloc ⟨[]⟩).1, inv := inv, rng := g }, (h.alloc ⟨[]⟩).2)).1.inv =
        (forLoop n (bootstrapIteration E o (h.read InputData)) (inv, g)).1 ∧
      (forLoop n (bootstrapIterationAt E o C InputData)
        ({ mem := (h.alloc ⟨[]⟩).1, inv := inv, rng := g }, (h.alloc ⟨[]⟩).2)).1.rng =
        (forLoop n (bootstrapIteration E o (h.read InputData)) (inv, g)).2 ∧
      ∀ a, a < h.next →
        (forLoop n (bootstrapIterationAt E o C InputData)
          ({ mem := (h.alloc ⟨[]⟩).1, inv := inv, rng := g }, (h.alloc ⟨[]⟩).2)).1.mem.read a =
          h.read a := by
  have key := forLoop_rel
    (fun (x : RunState G × Nat) (y : Inversions × G) =>
      x.1.inv = y.1 ∧ x.1.rng = y.2 ∧ h.next ≤ x.2 ∧ x.2 < x.1.mem.next ∧
        ∀ a, a < h.next → x.1.mem.read a = h.read a)
    (bootstrapIterationAt E o C InputData)
    (bootstrapIteration E o (h.read InputData))
    (fun i x y hR => by
      rcases x with ⟨t, b⟩
      dsimp only at hR ⊢
      obtain ⟨h1, h2, h3, h4, h5⟩ := hR
      obtain ⟨e1, e2, e3, e4, e5, e6⟩ :=
        bootstrapIterationAt_spec E o C hC InputData b i t h4
      have hy : (t.inv, t.rng) = y := by rw [h1, h2]
      rw [h5 InputData hin, hy] at e1 e2
      refine ⟨e1, e2, ?_, e6, fun a ha => ?_⟩
      · rcases e5 with e | e
        · rw [e]; exact h3
        · omega
      · rw [e3 a (by omega) (by omega), h5 a ha])
    n ({ mem := (h.alloc ⟨[]⟩).1, inv := inv, rng := g }, (h.alloc ⟨[]⟩).2) (inv, g)
    ⟨rfl, rfl, le_refl _, by simp [Store.alloc], fun a ha => by
      have : a ≠ h.next := by omega
      simp [Store.alloc, Store.read, this]⟩
  obtain ⟨k1, k2, _, _, k5⟩ := key
  exact ⟨k1, k2, k5⟩

/-- C20: with copies of a dataset that are independently owned clones, as the
specification words them, no resampling run changes the nominal dataset: after any
noise, jackknife or bootstrap run the object `InputData`, and every other dataset
object in use before the run, holds what it held before. Every iteration starts from
a fresh copy of the nominal dataset: the collection and the generator after the run
are those of `runInversions` on the value of `InputData`, and from any state an
iteration appends the call whose working set is built from the value of its source
object and from the generator state at its start alone, whatever earlier iterations
left in their working sets (for the bootstrap in the object `BootstrapData` that the
samples share), and changes no object in use other than its own working set. -/
theorem working_sets_from_nominal {G : Type} (E : Engine G) (o : Options) (C : Copier)
    (hC : C.Deep) (InputData : Nat) (s : RunState G) (hin : InputData < s.mem.next) :
    (runInversionsAt E o C InputData s).mem.read InputData = s.mem.read InputData ∧
      (∀ a, a < s.mem.next → (runInversionsAt E o C InputData s).mem.read a = s.mem.read a) ∧
      (runInversionsAt E o C InputData s).inv =
        (runInversions E o (s.mem.read InputData) s.rng).1 ∧
      (runInversionsAt E o C InputData s).rng =
        (runInversions E o (s.mem.read InputData) s.rng).2 ∧
      (∀ (fd i : Nat) (t : RunState G),
        (noiseIterationAt E o C fd i t).inv.Calls =
            t.inv.Calls ++ [⟨InversionNormType o, o.QualityType,
              (forLoop (t.mem.read fd).Count (noiseStation E o) (t.mem.read fd, t.rng)).1,
              0, 'A'⟩] ∧
          ∀ a, a < t.mem.next → (noiseIterationAt E o C fd i t).mem.read a = t.mem.read a) ∧
      (∀ (fd i : Nat) (t : RunState G),
        (jackknifeIterationAt E o C fd i t).inv.Calls =
            t.inv.Calls ++ [⟨InversionNormType o, o.QualityType, (t.mem.read fd).Remove i,
              ((t.mem.read fd).Get i).Id, 'J'⟩] ∧
          ∀ a, a < t.mem.next →
            (jackknifeIterationAt E o C fd i t).mem.read a = t.mem.read a) ∧
      (∀ (b i : Nat) (t : RunState G), b < t.mem.next →
        (bootstrapIterationAt E o C InputData i (t, b)).1.inv.Calls =
            t.inv.Calls ++ [⟨InversionNormType o, o.QualityType,
              (bootstrapLoop E o (t.mem.read InputData).Count 0
                (t.mem.read InputData, t.rng)).1,
              toInt32 (((i + 1) % 4294967296 : Nat) : Int), 'B'⟩] ∧
          ∀ a, a < t.mem.next → a ≠ b →
            (bootstrapIterationAt E o C InputData i (t, b)).1.mem.read a = t.mem.read a) := by
  have run : (∀ a, a < s.mem.next →
        (runInversionsAt E o C InputData s).mem.read a = s.mem.read a) ∧
      (runInversionsAt E o C InputData s).inv =
        (runInversions E o (s.mem.read InputData) s.rng).1 ∧
      (runInversionsAt E o C InputData s).rng =
        (runInversions E o (s.mem.read InputData) s.rng).2 := by
    simp only [runInversionsAt, runInversions, invertObject]
    split_ifs with hN hJ hB
    · obtain ⟨k1, k2, k3⟩ := noiseBranchAt_spec E o C hC InputData s.mem
        (MTInversion E (InversionNormType o) o.QualityType (s.mem.read InputData) 0 'N'
          ⟨[], []⟩) s.rng o.AmplitudeN
      exact ⟨k3, k1, k2⟩
    · have hcount : ((C.construct s.mem InputData).1.read InputData).Count =
          (s.mem.read InputData).Count := by
        rw [hC.construct_frame s.mem InputData InputData hin]
      rw [hcount]
      obtain ⟨k1, k2, k3⟩ := jackknifeBranchAt_spec E o C hC InputData s.mem
        (MTInversion E (InversionNormType o) o.QualityType (s.mem.read InputData) 0 'N'
          ⟨[], []⟩) s.rng (s.mem.read InputData).Count
      exact ⟨k3, k1, k2⟩
    · obtain ⟨k1, k2, k3⟩ := bootstrapBranchAt_spec E o C hC InputData s.mem hin
        (MTInversion E (InversionNormType o) o.QualityType (s.mem.read InputData) 0 'N'
          ⟨[], []⟩) s.rng o.BootstrapSamples
      exact ⟨k3, k1, k2⟩
    · exact ⟨fun a _ => rfl, rfl, rfl⟩
  refine ⟨run.1 InputData hin, run.1, run.2.1, run.2.2, ?_, ?_, ?_⟩
  · intro fd i t
    obtain ⟨e1, _, e3, _⟩ := noiseIterationAt_spec E o C hC fd i t
    exact ⟨by rw [e1]; rfl, e3⟩
  · intro fd i t
    obtain ⟨e1, _, e3, _⟩ := jackknifeIterationAt_spec E o C hC fd i t
    exact ⟨by rw [e1]; rfl, e3⟩
  · intro b i t hb
    obtain ⟨e1, _, e3, _⟩ := bootstrapIterationAt_spec E o C hC InputData b i t hb
    exact ⟨by rw [e1]; rfl, e3⟩

theorem working_sets_from_nominal_witness :
    deepCopy.Deep ∧ 0 < fiveStationsStart.mem.next ∧
      ((runInversionsAt counterEngine jackknifeOptions deepCopy 0 fiveStationsStart).mem.read 0 =
          fiveStationsStart.mem.read 0 ∧
        (∀ a, a < fiveStationsStart.mem.next →
          (runInversionsAt counterEngine jackknifeOptions deepCopy 0 fiveStationsStart).mem.read a =
            fiveStationsStart.mem.read a) ∧
        (runInversionsAt counterEngine jackknifeOptions deepCopy 0 fiveStationsStart).inv =
          (runInversions counterEngine jackknifeOptions (fiveStationsStart.mem.read 0)
            fiveStationsStart.rng).1 ∧
        (runInversionsAt counterEngine jackknifeOptions deepCopy 0 fiveStationsStart).rng =
          (runInversions counterEngine jackknifeOptions (fiveStationsStart.mem.read 0)
            fiveStationsStart.rng).2 ∧
        (∀ (fd i : Nat) (t : RunState Nat),
          (noiseIterationAt counterEngine jackknifeOptions deepCopy fd i t).inv.Calls =
              t.inv.Calls ++ [⟨InversionNormType jackknifeOptions, jackknifeOptions.QualityType,
                (forLoop (t.mem.read fd).Count (noiseStation counterEngine jackknifeOptions)
                  (t.mem.read fd, t.rng)).1, 0, 'A'⟩] ∧
            ∀ a, a < t.mem.next →
              (noiseIterationAt counterEngine jackknifeOptions deepCopy fd i t).mem.read a =
                t.mem.read a) ∧
        (∀ (fd i : Nat) (t : RunState Nat),
          (jackknifeIterationAt counterEngine jackknifeOptions deepCopy fd i t).inv.Calls =
              t.inv.Calls ++ [⟨InversionNormType jackknifeOptions, jackknifeOptions.QualityType,
                (t.mem.read fd).Remove i, ((t.mem.read fd).Get i).Id, 'J'⟩] ∧
            ∀ a, a < t.mem.next →
              (jackknifeIterationAt counterEngine jackknifeOptions deepCopy fd i t).mem.read a =
                t.mem.read a) ∧
        (∀ (b i : Nat) (t : RunState Nat), b < t.mem.next →
          (bootstrapIterationAt counterEngine jackknifeOptions deepCopy 0 i (t, b)).1.inv.Calls =
              t.inv.Calls ++ [⟨InversionNormType jackknifeOptions, jackknifeOptions.QualityType,
                (bootstrapLoop counterEngine jackknifeOptions (t.mem.read 0).Count 0
                  (t.mem.read 0, t.rng)).1,
                toInt32 (((i + 1) % 4294967296 : Nat) : Int), 'B'⟩] ∧
            ∀ a, a < t.mem.next → a ≠ b →
              (bootstrapIterationAt counterEngine jackknifeOptions deepCopy 0 i
                (t, b)).1.mem.read a = t.mem.read a)) :=
  ⟨deepCopy_Deep, by decide,
    working_sets_from_nominal counterEngine jackknifeOptions deepCopy deepCopy_Deep 0
      fiveStationsStart (by decide)⟩

/-- The clone property of the copies is needed. With copies that share the storage
of their source every jackknife iteration removes its station from the nominal
dataset itself: after the run over five stations the object `InputData` holds the
stations with the ids 2 and 4, and the five inversion calls behind the nominal one
get datasets of 4, 3, 2, 2 and 2 stations. -/
theorem shared_copy_changes_nominal :
    idsOf ((runInversionsAt counterEngine jackknifeOptions sharedCopy 0
        fiveStationsStart).mem.read 0) = [2, 4] ∧
      (runInversionsAt counterEngine jackknifeOptions sharedCopy 0
        fiveStationsStart).inv.Calls.map (fun call => call.data.Count) = [5, 4, 3, 2, 2, 2] ∧
      idsOf ((runInversionsAt counterEngine jackknifeOptions deepCopy 0
        fiveStationsStart).mem.read 0) = [1, 2, 3, 4, 5] ∧
      (runInversionsAt counterEngine jackknifeOptions deepCopy 0
        fiveStationsStart).inv.Calls.map (fun call => call.data.Count) = [5, 4, 4, 4, 4, 4] := by
  refine ⟨by rfl, by rfl, by rfl, by rfl⟩

end Focimt
